import Mathlib

/-!
Shallow embedding of `src/code/FlipSolver22.cpp` (flip-graph search engine
for matrix-multiplication decompositions) and proofs about it.

Modelling conventions:
- a C `vlong` (unsigned 64-bit) is a `Nat`; wherever C arithmetic can wrap,
  the embedding reduces modulo `U64 = 2 ^ 64`; XOR of values below `2 ^ 64`
  stays below `2 ^ 64`, so no reduction is needed there;
- a C `int` is an `Int`;
- the bespoke dictionary `fgdict` together with the backing array `unarray`
  and the free-list `avail` realizes a finite map from 64-bit keys to lists
  of slot indices; the embedding models that map directly as a function
  `Nat -> List Nat` (`[]` meaning the key is absent, which agrees with the
  code: a bucket reaching length 0 is removed from the dictionary at once).
  The dictionary `twoplusd` maps each colliding key to its position in the
  list `twoplusl`; it is modelled as a total function whose value is only
  meaningful on members of `twoplusl`;
- the Mersenne twister is passed around as a stream `Nat -> Nat` of 32-bit
  draws together with a cursor `rix`; `mtStream` instantiates the stream
  exactly as `std::mt19937 mt(rseed)` does;
- unbounded `while (true)` loops take fuel and report exhaustion as a
  distinguished outcome; an execution of `sample % twoplusl.size()` with an
  empty `twoplusl` (division by zero, undefined behaviour in C++) is
  reported as the distinguished outcome `ub`.
-/

def U64 : Nat := 2 ^ 64

/-- Source lines 287-295, `bitcount`: clears the lowest set bit until the
value is zero, counting steps.  Values are below `2 ^ 64`, so at most 64
iterations happen; the embedding makes that bound explicit as fuel. -/
def bitcountAux : Nat → Nat → Nat
  | 0, _ => 0
  | fuel + 1, n => if n = 0 then 0 else 1 + bitcountAux fuel (n &&& (n - 1))

def bitcount (n : Nat) : Nat := bitcountAux 64 n

/-- Source lines 298-306, `bitlimit`: decrements `m` while clearing lowest
set bits; stops when the value or `m` hits zero and returns `m` (C truthiness:
nonzero means the popcount is below `exceed`).  Same 64-step fuel bound. -/
def bitlimitAux : Nat → Nat → Int → Int
  | 0, _, m => m
  | fuel + 1, n, m => if n ≠ 0 ∧ m ≠ 0 then bitlimitAux fuel (n &&& (n - 1)) (m - 1) else m

def bitlimit (n : Nat) (exceed : Int) : Int := bitlimitAux 64 n exceed

/-- Source lines 354-361: the map `me` built for every triple
`{i, i+1, i+2}` as `me[i] = i+2, me[i+1] = i, me[i+2] = i+1`. -/
def meF (i : Nat) : Nat := if i % 3 = 0 then i + 2 else i - 1

/-- Source lines 354-361: the map `mf` built as
`mf[i] = i+1, mf[i+1] = i+2, mf[i+2] = i`. -/
def mfF (i : Nat) : Nat := if i % 3 = 2 then i - 2 else i + 1

/-- Source lines 375-389: `permit[i][j]` is 0 exactly when `i` and `j` lie in
the same symmetry orbit (`i / symm == j / symm`). -/
def permitF (symm i j : Nat) : Bool := !(i / symm == j / symm)

/-- Source lines 309-333, `updatelimit`.  `limit`, `flips`, `flimit` are
`vlong`; the signed quantities stay `Int`.  C converts the signed `steps`
to `vlong` before the unsigned division, and subtraction wraps modulo
`2 ^ 64`; both conversions are made explicit. -/
def toU64 (z : Int) : Nat := (z % (U64 : Int)).toNat

def usub (a b : Nat) : Nat := (a + U64 - b % U64) % U64

def updatelimit (limit flips : Nat) (termination : Int) (split : Int)
    (achieved target : Int) (symm : Nat) (flimit : Nat) : Nat :=
  if termination = 0 then flimit % U64
  else if termination = 1 then
    let steps : Int := Int.tdiv (achieved - target) (symm : Int)
    (flips + usub flimit flips / toU64 steps) % U64
  else if termination = 2 then (flips + flimit) % U64
  else
    let slimit : Nat := toU64 split * flimit % U64 / 100
    if achieved > termination then
      let steps : Int := Int.tdiv (achieved - termination) (symm : Int)
      (flips + usub slimit flips / toU64 steps) % U64
    else
      let steps : Int := Int.tdiv (achieved - target) (symm : Int)
      (flips + usub flimit flips / toU64 steps) % U64

/-- State of the value-to-slots multimap: `slots` is the map realized in the
code by `uniques`/`unarray`/`avail` (source lines 27-223, 365-373), `twoplusl`
is the list `C` of colliding values and `twoplusd` its positional index. -/
structure MState where
  slots : Nat → List Nat
  twoplusd : Nat → Nat
  twoplusl : List Nat

def emptyMM : MState := { slots := fun _ => [], twoplusd := fun _ => 0, twoplusl := [] }

/-- Removal of the last occurrence of `r` from a slot list: source lines
246-255 scan from the back, shifting the tail down over the found cell.
The net effect on the list is erasing the last occurrence of `r`. -/
def removeLastOcc (r : Nat) (l : List Nat) : List Nat := (l.reverse.erase r).reverse

/-- Source lines 226-257, `flipdel`: remove slot `r` from the bucket of value
`v`.  When the bucket length is 2 the value leaves `twoplusl` by
swap-with-last (lines 232-241); when it is 1 the key itself is removed
(lines 242-245); otherwise the slot is shifted out of the bucket
(lines 246-256). -/
def flipdel (st : MState) (r v : Nat) : MState :=
  let l := (st.slots v).length
  let st1 : MState :=
    if l = 2 then
      let rsi := st.twoplusd v
      let rsl := st.twoplusl.getLastD 0
      { st with
        twoplusd := Function.update st.twoplusd rsl rsi
        twoplusl := (st.twoplusl.set rsi rsl).dropLast }
    else st
  if l = 1 then { st1 with slots := Function.update st1.slots v [] }
  else { st1 with slots := Function.update st1.slots v (removeLastOcc r (st1.slots v)) }

/-- Source lines 260-284, `flipadd`: append slot `r` to the bucket of value
`v`; a bucket growing from 1 to 2 pushes `v` onto `twoplusl` (lines 268-272);
an absent key gets a fresh bucket holding just `r` (lines 277-283). -/
def flipadd (st : MState) (r v : Nat) : MState :=
  if st.slots v ≠ [] then
    let st1 : MState :=
      if (st.slots v).length = 1 then
        { st with
          twoplusd := Function.update st.twoplusd v st.twoplusl.length
          twoplusl := st.twoplusl ++ [v] }
      else st
    { st1 with slots := Function.update st1.slots v (st1.slots v ++ [r]) }
  else { st with slots := Function.update st.slots v [r] }

/-- Source lines 417-433: the tables `combs`, `ps`, `qs`.  `tablesAux n` is
the state of the three vectors after the outer loop has processed
`x = 1 .. n`; the program runs it to `x = 79`. -/
def blockP (x : Nat) : List Nat := (List.range x).flatMap (fun y => [x, y])

def blockQ (x : Nat) : List Nat := (List.range x).flatMap (fun y => [y, x])

def tablesAux : Nat → List Nat × List Nat × List Nat
  | 0 => ([0, 0], [], [])
  | n + 1 =>
    let t := tablesAux n
    let p := t.2.1 ++ blockP (n + 1)
    let q := t.2.2 ++ blockQ (n + 1)
    (t.1 ++ [p.length], p, q)

def combsT : List Nat := (tablesAux 79).1

def psT : List Nat := (tablesAux 79).2.1

def qsT : List Nat := (tablesAux 79).2.2

/-- Outcome of one sampling loop: a permitted pair, division by zero on an
empty collision list (C++ undefined behaviour, source line 462), the
1000-failures exit of the bounded loops, or fuel exhaustion of the
unbounded loop. -/
inductive SampRes where
  | ok (p q rix : Nat)
  | ub
  | fail1000
  | nofuel
deriving DecidableEq

/-- Shared body of every sampling loop (source lines 461-480 and twins):
draw a colliding value from `twoplusl`, then order two of its slots.  For a
bucket of length other than 2 the code indexes `combs`; a zero entry there
(bucket length below 2 or above 80) makes `% combs[l]` divide by zero. -/
def pickPQ (mm : MState) (sample : Nat) : Option (Nat × Nat) :=
  let v := mm.twoplusl.getD (sample % mm.twoplusl.length) 0
  let sl := mm.slots v
  let l := sl.length
  if l = 2 then
    some (if sample &&& 65536 ≠ 0 then (sl.getD 0 0, sl.getD 1 0)
          else (sl.getD 1 0, sl.getD 0 0))
  else if combsT.getD l 0 = 0 then none
  else
    let x := (sample >>> 16) % combsT.getD l 0
    some (sl.getD (psT.getD x 0) 0, sl.getD (qsT.getD x 0) 0)

/-- Source lines 459-484 (and 786-811): the `maxsize == 0` sampler, retrying
until `permit[p][q]`. -/
def sample0 (symm : Nat) (mm : MState) (stream : Nat → Nat) : Nat → Nat → SampRes
  | 0, _ => .nofuel
  | fuel + 1, rix =>
    let sample := stream rix % 2 ^ 32
    if mm.twoplusl.length = 0 then .ub
    else
      match pickPQ mm sample with
      | none => .ub
      | some (p, q) =>
        if permitF symm p q then .ok p q (rix + 1)
        else sample0 symm mm stream fuel (rix + 1)

/-- Source lines 492-530 (and 821-861): the `maxsize > 0` sampler; at most
1000 tries of `permit[p][q] && psize <= maxsize && qsize <= maxsize`. -/
def samplePos (symm : Nat) (maxsize : Int) (muls : List Nat) (mm : MState)
    (stream : Nat → Nat) : Nat → Nat → SampRes
  | 0, _ => .fail1000
  | k + 1, rix =>
    let sample := stream rix % 2 ^ 32
    if mm.twoplusl.length = 0 then .ub
    else
      match pickPQ mm sample with
      | none => .ub
      | some (p, q) =>
        let mpe := muls.getD (meF p) 0
        let mpf := muls.getD (mfF p) 0
        let mqe := muls.getD (meF q) 0
        let mqf := muls.getD (mfF q) 0
        let mpen := mqe ^^^ mpe
        let mqfn := mqf ^^^ mpf
        let psize := bitcount (muls.getD p 0) * bitcount mpen * bitcount mpf
        let qsize := bitcount (muls.getD q 0) * bitcount mqe * bitcount mqfn
        if permitF symm p q ∧ (psize : Int) ≤ maxsize ∧ (qsize : Int) ≤ maxsize then
          .ok p q (rix + 1)
        else samplePos symm maxsize muls mm stream k (rix + 1)

/-- Source lines 532-568 (and 863-901): the `maxsize < 0` sampler; at most
1000 tries of `permit[p][q] && bitlimit(mpen, exceed) && bitlimit(mqfn,
exceed)` with `exceed = 1 - maxsize` (source line 437). -/
def sampleNeg (symm : Nat) (maxsize : Int) (muls : List Nat) (mm : MState)
    (stream : Nat → Nat) : Nat → Nat → SampRes
  | 0, _ => .fail1000
  | k + 1, rix =>
    let sample := stream rix % 2 ^ 32
    if mm.twoplusl.length = 0 then .ub
    else
      match pickPQ mm sample with
      | none => .ub
      | some (p, q) =>
        let mpe := muls.getD (meF p) 0
        let mpf := muls.getD (mfF p) 0
        let mqe := muls.getD (meF q) 0
        let mqf := muls.getD (mfF q) 0
        let mpen := mqe ^^^ mpe
        let mqfn := mqf ^^^ mpf
        if permitF symm p q ∧ bitlimit mpen (1 - maxsize) ≠ 0 ∧
            bitlimit mqfn (1 - maxsize) ≠ 0 then
          .ok p q (rix + 1)
        else sampleNeg symm maxsize muls mm stream k (rix + 1)

/-- Input parameters read from the state file, source line 341.  `flimit`
and `plimit` are `vlong` (unsigned 64-bit); in particular `plimit` is
unsigned even though the spec treats it as signed. -/
structure Cfg where
  nomuls : Nat
  target : Int
  flimit : Nat
  plimit : Nat
  termination : Int
  rseed : Nat
  symm : Nat
  maxplus : Int
  split : Int
  maxsize : Int

/-- One recorded search move, for stating that two runs perform identical
sequences of flips and plus moves. -/
inductive TraceEv where
  | flip (p q : Nat)
  | plusmove (p q r : Nat)
deriving DecidableEq

/-- The mutable search state of `main`. `rix` is the cursor into the random
stream; `snaps` collects recovery snapshots (source lines 682-692); `trace`
records the performed moves. -/
structure SState where
  muls : List Nat
  mm : MState
  achieved : Int
  minmuls : Int
  best : List Nat
  flips : Nat
  plus : Nat
  plusby : Nat
  limit : Nat
  recovery : Nat
  rcode : Int
  rix : Nat
  snaps : List (List Int × List Int)
  trace : List TraceEv

/-- Source lines 439-447, 597-605, 649-657, 757-765 (and the symm = 6
twins): the `plusby` schedule.  `plimit` is unsigned, so `plimit < 0` is
false for every value and the middle branch cannot run; `r` is the 32-bit
word `mt()` would supply there. -/
def reschedPlusby (cfg : Cfg) (achieved : Int) (flips : Nat) (r : Nat) : Nat :=
  if achieved ≥ cfg.maxplus then cfg.flimit * 1007 % U64
  else if cfg.plimit < 0 then
    (flips + cfg.symm + r % 2 ^ 32 % ((U64 - 2) * cfg.plimit % U64)) % U64
  else (flips + cfg.plimit) % U64

/-- Header of a recovery snapshot, source lines 686-688: the third field is
the literal 2, not the in-memory `rcode`. -/
def snapHeader (cfg : Cfg) (s : SState) : List Int :=
  [(cfg.nomuls : Int), (s.flips : Int), 2, cfg.target, (cfg.flimit : Int),
   (cfg.plimit : Int), cfg.termination, (cfg.rseed : Int), (cfg.symm : Int),
   cfg.maxplus, s.achieved, s.minmuls, (s.plus : Int)]

/-- A recovery snapshot writes the header and the current `muls` (source
lines 689-691); the `best` buffer is not consulted. -/
def recoverySnap (cfg : Cfg) (s : SState) : List Int × List Int :=
  (snapHeader cfg s, s.muls.map Int.ofNat)

/-- Source lines 683-692: just before a plus move, persist if `flips`
reached `recovery`, then push the deadline out by 5000000000. -/
def maybeSnap (cfg : Cfg) (s : SState) : SState :=
  if s.flips ≥ s.recovery then
    { s with recovery := s.recovery + 5000000000,
             snaps := s.snaps ++ [recoverySnap cfg s] }
  else s

/-- Header of the final output, source lines 1215-1217: same fields as the
snapshot but with the in-memory `rcode` in the third position. -/
def finalHeader (cfg : Cfg) (s : SState) : List Int :=
  [(cfg.nomuls : Int), (s.flips : Int), s.rcode, cfg.target, (cfg.flimit : Int),
   (cfg.plimit : Int), cfg.termination, (cfg.rseed : Int), (cfg.symm : Int),
   cfg.maxplus, s.achieved, s.minmuls, (s.plus : Int)]

/-- Source lines 1214-1227: final output is the header, then `best` when
`minmuls < achieved` and the current `muls` otherwise. -/
def finalOutput (cfg : Cfg) (s : SState) : List Int × List Int :=
  (finalHeader cfg s,
   if s.minmuls < s.achieved then s.best.map Int.ofNat else s.muls.map Int.ofNat)

/-- Source lines 613-627 (and 665-679, 987-1001, 1047-1061): after a
collapse, check whether every colliding value has all its slots inside one
triple (sextuple for symm = 6); if so the next iteration is forced to run a
plus move. -/
def triggerCheck (symm : Nat) (mm : MState) : Bool :=
  mm.twoplusl.all (fun v =>
    let sl := mm.slots v
    sl.all (fun s => s / symm == sl.headD 0 / symm))

/-- Result of one iteration of the search loop: continue, break out of the
loop, undefined behaviour inside the iteration, or fuel exhaustion of an
inner unbounded loop. -/
inductive IterRes where
  | cont
  | brk
  | ub
  | nofuel
deriving DecidableEq

/-- Source lines 586-605 (and twins): bookkeeping after a collapse — track
`minmuls`, refresh `limit` on a new record above target, snapshot `best`
when the current rank is at most the updated minimum (equivalently, at most
the previous minimum), and reschedule `plusby`. -/
def cascBook (cfg : Cfg) (stream : Nat → Nat) (s : SState) : SState :=
  let s2 :=
    if s.achieved < s.minmuls then
      { s with minmuls := s.achieved,
               limit := if s.achieved > cfg.target then
                   updatelimit s.limit s.flips cfg.termination cfg.split
                     s.achieved cfg.target cfg.symm cfg.flimit
                 else s.limit }
    else s
  let s3 := if s2.achieved ≤ s2.minmuls then { s2 with best := s2.muls } else s2
  { s3 with plusby := reschedPlusby cfg s3.achieved s3.flips (stream s3.rix) }

/-- Source lines 606-627 (and twins): the exit checks after a collapse —
empty collision list gives rcode = -1, reaching the target breaks with the
current rcode, and the single-triple trigger forces the next plus move. -/
def cascBreaks (cfg : Cfg) (s : SState) : SState × Bool :=
  if s.mm.twoplusl.length = 0 then ({ s with rcode := -1 }, true)
  else if s.achieved ≤ cfg.target then (s, true)
  else if triggerCheck cfg.symm s.mm then ({ s with plusby := s.flips }, false)
  else (s, false)

/-- Source lines 578-628: collapse of the `p` triple when its new E-value is
zero.  `mpd` is re-read from `muls`; `mpen` and `mpf` are the values the
iteration computed before the commit.  Returns the state and whether the
loop broke. -/
def cascadeP3 (cfg : Cfg) (stream : Nat → Nat) (s : SState) (p mpen mpf : Nat) :
    SState × Bool :=
  let mpd := s.muls.getD p 0
  let mm := flipdel s.mm p mpd
  let mm := flipdel mm (meF p) mpen
  let mm := flipdel mm (mfF p) mpf
  cascBreaks cfg (cascBook cfg stream
    { s with mm := mm, muls := (s.muls.set p 0).set (mfF p) 0,
             achieved := s.achieved - 3 })

/-- Source lines 630-680: collapse of the `q` triple when its new F-value is
zero; `mqd` is re-read, `mqe` and `mqfn` were computed before the commit. -/
def cascadeQ3 (cfg : Cfg) (stream : Nat → Nat) (s : SState) (q mqe mqfn : Nat) :
    SState × Bool :=
  let mqd := s.muls.getD q 0
  let mm := flipdel s.mm q mqd
  let mm := flipdel mm (meF q) mqe
  let mm := flipdel mm (mfF q) mqfn
  cascBreaks cfg (cascBook cfg stream
    { s with mm := mm, muls := (s.muls.set q 0).set (meF q) 0,
             achieved := s.achieved - 3 })

/-- Source lines 700-736: the candidate loop of the symm = 3 plus engine.
Each try draws two slots and accepts when all of the size test, liveness,
pairwise distinctness and `permit` hold. -/
def plusAccept3 (cfg : Cfg) (muls : List Nat) (stream : Nat → Nat) :
    Nat → Nat → Option (Nat × Nat × Nat)
  | 0, _ => none
  | fuel + 1, rix =>
    let p := stream rix % 2 ^ 32 % cfg.nomuls
    let q := stream (rix + 1) % 2 ^ 32 % cfg.nomuls
    let mpd := muls.getD p 0
    let mpe := muls.getD (meF p) 0
    let mpf := muls.getD (mfF p) 0
    let mqd := muls.getD q 0
    let mqe := muls.getD (meF q) 0
    let mqf := muls.getD (mfF q) 0
    let mpen := mpe ^^^ mqe
    let mqfn := mpf ^^^ mqf
    let mrdn := mpd ^^^ mqd
    let sizeok : Prop :=
      if 0 < cfg.maxsize then
        (bitcount mpd * bitcount mpen * bitcount mpf : Int) ≤ cfg.maxsize ∧
        (bitcount mpd * bitcount mqe * bitcount mqfn : Int) ≤ cfg.maxsize ∧
        (bitcount mrdn * bitcount mqe * bitcount mqf : Int) ≤ cfg.maxsize
      else if cfg.maxsize < 0 then
        bitlimit mpen (1 - cfg.maxsize) ≠ 0 ∧ bitlimit mqfn (1 - cfg.maxsize) ≠ 0 ∧
        bitlimit mrdn (1 - cfg.maxsize) ≠ 0
      else True
    if sizeok ∧ mpd ≠ 0 ∧ mqd ≠ 0 ∧ mpd ≠ mqd ∧ mpe ≠ mqe ∧ mpf ≠ mqf ∧
        permitF cfg.symm p q then
      some (p, q, rix + 2)
    else plusAccept3 cfg muls stream fuel (rix + 2)

/-- Source lines 737-765: the accepted symm = 3 plus rewrite, updating the
multimap, the nine slots, the counters and the plus schedule. -/
def plusApply3 (cfg : Cfg) (stream : Nat → Nat) (s : SState) (p q r : Nat) : SState :=
  let mpd := s.muls.getD p 0
  let mpe := s.muls.getD (meF p) 0
  let mpf := s.muls.getD (mfF p) 0
  let mqd := s.muls.getD q 0
  let mqe := s.muls.getD (meF q) 0
  let mqf := s.muls.getD (mfF q) 0
  let mpen := mpe ^^^ mqe
  let mqfn := mpf ^^^ mqf
  let mrdn := mpd ^^^ mqd
  let mm := flipadd (flipdel s.mm (meF p) mpe) (meF p) mpen
  let mm := flipadd (flipdel mm q mqd) q mpd
  let mm := flipadd (flipdel mm (mfF q) mqf) (mfF q) mqfn
  let mm := flipadd mm r mrdn
  let mm := flipadd mm (meF r) mqe
  let mm := flipadd mm (mfF r) mqf
  let muls := ((((((((s.muls.set p mpd).set (meF p) mpen).set (mfF p) mpf).set
      q mpd).set (meF q) mqe).set (mfF q) mqfn).set r mrdn).set (meF r) mqe).set
      (mfF r) mqf
  let s1 := { s with mm := mm, muls := muls, achieved := s.achieved + 3,
                     plus := (s.plus + 3) % U64,
                     trace := s.trace ++ [TraceEv.plusmove p q r] }
  { s1 with plusby := reschedPlusby cfg s1.achieved s1.flips (stream s1.rix) }

/-- Source lines 682-766: the plus block run when `flips >= plusby` —
optional recovery snapshot, choice of the first free slot `r`, the candidate
loop, and the rewrite.  `none` means the candidate loop ran out of fuel. -/
def plusBlock3 (cfg : Cfg) (stream : Nat → Nat) (pfuel : Nat) (s : SState) :
    Option SState :=
  let s := maybeSnap cfg s
  let r := s.muls.findIdx (fun m => m == 0)
  match plusAccept3 cfg s.muls stream pfuel s.rix with
  | none => none
  | some (p, q, rix) => some (plusApply3 cfg stream { s with rix := rix } p q r)

/-- Source lines 682-776: the tail of an iteration after collapse handling —
the optional plus move, then the flip-limit check. -/
def flipTail3 (cfg : Cfg) (stream : Nat → Nat) (pfuel : Nat) (s : SState) :
    SState × IterRes :=
  match (if s.flips ≥ s.plusby then plusBlock3 cfg stream pfuel s else some s) with
  | none => (s, .nofuel)
  | some s2 =>
    if s2.flips ≥ s2.limit then
      ({ s2 with rcode := if s2.flips ≥ cfg.flimit then 1 else 2 }, .brk)
    else (s2, .cont)

/-- Source lines 578-776: the part of an iteration after the commit — the
two conditional collapses (each can break out of the loop), then the tail. -/
def flipCasc3 (cfg : Cfg) (stream : Nat → Nat) (pfuel : Nat) (s : SState)
    (p q mpen mpf mqe mqfn : Nat) : SState × IterRes :=
  let pc := if mpen = 0 then cascadeP3 cfg stream s p mpen mpf else (s, false)
  if pc.2 then (pc.1, .brk)
  else
    let qc := if mqfn = 0 then cascadeQ3 cfg stream pc.1 q mqe mqfn else (pc.1, false)
    if qc.2 then (qc.1, .brk)
    else flipTail3 cfg stream pfuel qc.1

/-- Source lines 570-576 (and the plus rewrite sites): the committed state
of a symm = 3 flip at `(p, q)`: the two changed slots leave their old keys
and enter their new keys, and `muls` is written. -/
def flipCommit3 (s : SState) (p q : Nat) : SState :=
  let mpe := s.muls.getD (meF p) 0
  let mqe := s.muls.getD (meF q) 0
  let mpf := s.muls.getD (mfF p) 0
  let mqf := s.muls.getD (mfF q) 0
  let mpen := mqe ^^^ mpe
  let mqfn := mqf ^^^ mpf
  let mm1 := flipadd (flipdel s.mm (meF p) mpe) (meF p) mpen
  let mm2 := flipadd (flipdel mm1 (mfF q) mqf) (mfF q) mqfn
  { s with mm := mm2, muls := (s.muls.set (meF p) mpen).set (mfF q) mqfn }

/-- Source lines 454-777: one iteration of the symm = 3 search loop. -/
def runIter3 (cfg : Cfg) (stream : Nat → Nat) (sfuel pfuel : Nat) (s0 : SState) :
    SState × IterRes :=
  let s := { s0 with flips := (s0.flips + 3) % U64 }
  let sres :=
    if cfg.maxsize = 0 then sample0 cfg.symm s.mm stream sfuel s.rix
    else if 0 < cfg.maxsize then samplePos cfg.symm cfg.maxsize s.muls s.mm stream 1000 s.rix
    else sampleNeg cfg.symm cfg.maxsize s.muls s.mm stream 1000 s.rix
  match sres with
  | .ub => (s, .ub)
  | .nofuel => (s, .nofuel)
  | .fail1000 => ({ s with rcode := 6 }, .brk)
  | .ok p q rix =>
    let s := { s with rix := rix, trace := s.trace ++ [TraceEv.flip p q] }
    let mpe := s.muls.getD (meF p) 0
    let mpf := s.muls.getD (mfF p) 0
    let mqe := s.muls.getD (meF q) 0
    let mqf := s.muls.getD (mfF q) 0
    let mpen := mqe ^^^ mpe
    let mqfn := mqf ^^^ mpf
    flipCasc3 cfg stream pfuel (flipCommit3 s p q) p q mpen mpf mqe mqfn

/-- The symm = 3 outer loop (source lines 453-778), driven by fuel. -/
def runLoop3 (cfg : Cfg) (stream : Nat → Nat) (sfuel pfuel : Nat) :
    Nat → SState → SState × IterRes
  | 0, s => (s, .nofuel)
  | fuel + 1, s =>
    match runIter3 cfg stream sfuel pfuel s with
    | (s1, IterRes.cont) => runLoop3 cfg stream sfuel pfuel fuel s1
    | (s1, r) => (s1, r)

/-- Source lines 904-919 (and 1088-1101): the paired slot `p XOR 3` inside a
sextuple: `p + 3` when `p mod 6 < 3`, else `p - 3`. -/
def pairSlot (p : Nat) : Nat := if p % 6 < 3 then p + 3 else p - 3

/-- Source lines 944-1002: symm = 6 collapse of the `p` and `pp` triples.
All six old values were read before the commit; when the collapse was
triggered by triple coincidence rather than a zero E-value, the two E-slots
are zeroed explicitly (lines 955-958). -/
def cascadeP6 (cfg : Cfg) (stream : Nat → Nat) (s : SState)
    (p pp mpd mpen mpf mppd mppen mppf : Nat) : SState × Bool :=
  let mm := flipdel s.mm p mpd
  let mm := flipdel mm (meF p) mpen
  let mm := flipdel mm (mfF p) mpf
  let mm := flipdel mm pp mppd
  let mm := flipdel mm (meF pp) mppen
  let mm := flipdel mm (mfF pp) mppf
  let muls := (((s.muls.set p 0).set (mfF p) 0).set pp 0).set (mfF pp) 0
  let muls := if mpen ≠ 0 then (muls.set (meF p) 0).set (meF pp) 0 else muls
  cascBreaks cfg (cascBook cfg stream
    { s with mm := mm, muls := muls, achieved := s.achieved - 6 })

/-- Source lines 1004-1062: symm = 6 collapse of the `q` and `qq` triples;
the two F-slots are zeroed explicitly when the trigger was coincidence
(lines 1015-1018). -/
def cascadeQ6 (cfg : Cfg) (stream : Nat → Nat) (s : SState)
    (q qq mqd mqe mqfn mqqd mqqe mqqfn : Nat) : SState × Bool :=
  let mm := flipdel s.mm q mqd
  let mm := flipdel mm (meF q) mqe
  let mm := flipdel mm (mfF q) mqfn
  let mm := flipdel mm qq mqqd
  let mm := flipdel mm (meF qq) mqqe
  let mm := flipdel mm (mfF qq) mqqfn
  let muls := (((s.muls.set q 0).set (meF q) 0).set qq 0).set (meF qq) 0
  let muls := if mqfn ≠ 0 then (muls.set (mfF q) 0).set (mfF qq) 0 else muls
  cascBreaks cfg (cascBook cfg stream
    { s with mm := mm, muls := muls, achieved := s.achieved - 6 })

/-- Source lines 1085-1152: the candidate loop of the symm = 6 plus engine;
both halves must pass liveness and distinctness, the size test uses the
`p`, `q`, `r` half only (lines 1133-1145). -/
def plusAccept6 (cfg : Cfg) (muls : List Nat) (stream : Nat → Nat) :
    Nat → Nat → Option (Nat × Nat × Nat)
  | 0, _ => none
  | fuel + 1, rix =>
    let p := stream rix % 2 ^ 32 % cfg.nomuls
    let q := stream (rix + 1) % 2 ^ 32 % cfg.nomuls
    let pp := pairSlot p
    let qq := pairSlot q
    let mpd := muls.getD p 0
    let mpe := muls.getD (meF p) 0
    let mpf := muls.getD (mfF p) 0
    let mqd := muls.getD q 0
    let mqe := muls.getD (meF q) 0
    let mqf := muls.getD (mfF q) 0
    let mpen := mpe ^^^ mqe
    let mqfn := mpf ^^^ mqf
    let mrdn := mpd ^^^ mqd
    let mppd := muls.getD pp 0
    let mppe := muls.getD (meF pp) 0
    let mppf := muls.getD (mfF pp) 0
    let mqqd := muls.getD qq 0
    let mqqe := muls.getD (meF qq) 0
    let mqqf := muls.getD (mfF qq) 0
    let sizeok : Prop :=
      if 0 < cfg.maxsize then
        (bitcount mpd * bitcount mpen * bitcount mpf : Int) ≤ cfg.maxsize ∧
        (bitcount mpd * bitcount mqe * bitcount mqfn : Int) ≤ cfg.maxsize ∧
        (bitcount mrdn * bitcount mqe * bitcount mqf : Int) ≤ cfg.maxsize
      else if cfg.maxsize < 0 then
        bitlimit mpen (1 - cfg.maxsize) ≠ 0 ∧ bitlimit mqfn (1 - cfg.maxsize) ≠ 0 ∧
        bitlimit mrdn (1 - cfg.maxsize) ≠ 0
      else True
    if sizeok ∧ mpd ≠ 0 ∧ mqd ≠ 0 ∧ mppd ≠ 0 ∧ mqqd ≠ 0 ∧
        mpd ≠ mqd ∧ mpe ≠ mqe ∧ mpf ≠ mqf ∧
        mppd ≠ mqqd ∧ mppe ≠ mqqe ∧ mppf ≠ mqqf ∧ permitF cfg.symm p q then
      some (p, q, rix + 2)
    else plusAccept6 cfg muls stream fuel (rix + 2)

/-- Source lines 1153-1199: the accepted symm = 6 plus rewrite over both
halves, with the fresh triples at `r` and `rr = r + 3`. -/
def plusApply6 (cfg : Cfg) (stream : Nat → Nat) (s : SState) (p q r : Nat) : SState :=
  let pp := pairSlot p
  let qq := pairSlot q
  let rr := r + 3
  let mpd := s.muls.getD p 0
  let mpe := s.muls.getD (meF p) 0
  let mpf := s.muls.getD (mfF p) 0
  let mqd := s.muls.getD q 0
  let mqe := s.muls.getD (meF q) 0
  let mqf := s.muls.getD (mfF q) 0
  let mpen := mpe ^^^ mqe
  let mqfn := mpf ^^^ mqf
  let mrdn := mpd ^^^ mqd
  let mppd := s.muls.getD pp 0
  let mppe := s.muls.getD (meF pp) 0
  let mppf := s.muls.getD (mfF pp) 0
  let mqqd := s.muls.getD qq 0
  let mqqe := s.muls.getD (meF qq) 0
  let mqqf := s.muls.getD (mfF qq) 0
  let mppen := mppe ^^^ mqqe
  let mqqfn := mppf ^^^ mqqf
  let mrrdn := mppd ^^^ mqqd
  let mm := flipadd (flipdel s.mm (meF p) mpe) (meF p) mpen
  let mm := flipadd (flipdel mm q mqd) q mpd
  let mm := flipadd (flipdel mm (mfF q) mqf) (mfF q) mqfn
  let mm := flipadd mm r mrdn
  let mm := flipadd mm (meF r) mqe
  let mm := flipadd mm (mfF r) mqf
  let mm := flipadd (flipdel mm (meF pp) mppe) (meF pp) mppen
  let mm := flipadd (flipdel mm qq mqqd) qq mppd
  let mm := flipadd (flipdel mm (mfF qq) mqqf) (mfF qq) mqqfn
  let mm := flipadd mm rr mrrdn
  let mm := flipadd mm (meF rr) mqqe
  let mm := flipadd mm (mfF rr) mqqf
  let muls := ((((((((s.muls.set p mpd).set (meF p) mpen).set (mfF p) mpf).set
      q mpd).set (meF q) mqe).set (mfF q) mqfn).set r mrdn).set (meF r) mqe).set
      (mfF r) mqf
  let muls := ((((((((muls.set pp mppd).set (meF pp) mppen).set (mfF pp) mppf).set
      qq mppd).set (meF qq) mqqe).set (mfF qq) mqqfn).set rr mrrdn).set
      (meF rr) mqqe).set (mfF rr) mqqf
  let s1 := { s with mm := mm, muls := muls, achieved := s.achieved + 6,
                     plus := (s.plus + 6) % U64,
                     trace := s.trace ++ [TraceEv.plusmove p q r] }
  { s1 with plusby := reschedPlusby cfg s1.achieved s1.flips (stream s1.rix) }

/-- Source lines 1064-1200: the symm = 6 plus block. -/
def plusBlock6 (cfg : Cfg) (stream : Nat → Nat) (pfuel : Nat) (s : SState) :
    Option SState :=
  let s := maybeSnap cfg s
  let r := s.muls.findIdx (fun m => m == 0)
  match plusAccept6 cfg s.muls stream pfuel s.rix with
  | none => none
  | some (p, q, rix) => some (plusApply6 cfg stream { s with rix := rix } p q r)

/-- Source lines 1064-1210: the tail of a symm = 6 iteration — the optional
plus move, then the flip-limit check. -/
def flipTail6 (cfg : Cfg) (stream : Nat → Nat) (pfuel : Nat) (s : SState) :
    SState × IterRes :=
  match (if s.flips ≥ s.plusby then plusBlock6 cfg stream pfuel s else some s) with
  | none => (s, .nofuel)
  | some s2 =>
    if s2.flips ≥ s2.limit then
      ({ s2 with rcode := if s2.flips ≥ cfg.flimit then 1 else 2 }, .brk)
    else (s2, .cont)

/-- Source lines 944-1210: the part of a symm = 6 iteration after the
commit — the two conditional collapses (zero E-value or componentwise
coincidence of the paired triples), then the tail. -/
def flipCasc6 (cfg : Cfg) (stream : Nat → Nat) (pfuel : Nat) (s : SState)
    (p q mpd mpen mpf mqd mqe mqfn mppd mppen mppf mqqd mqqe mqqfn : Nat) :
    SState × IterRes :=
  let pc := if mpen = 0 ∨ (mpd = mppd ∧ mpen = mppen ∧ mpf = mppf) then
      cascadeP6 cfg stream s p (pairSlot p) mpd mpen mpf mppd mppen mppf
    else (s, false)
  if pc.2 then (pc.1, .brk)
  else
    let qc := if mqfn = 0 ∨ (mqd = mqqd ∧ mqe = mqqe ∧ mqfn = mqqfn) then
        cascadeQ6 cfg stream pc.1 q (pairSlot q) mqd mqe mqfn mqqd mqqe mqqfn
      else (pc.1, false)
    if qc.2 then (qc.1, .brk)
    else flipTail6 cfg stream pfuel qc.1

/-- Source lines 780-1211: one iteration of the symm = 6 search loop. -/
def runIter6 (cfg : Cfg) (stream : Nat → Nat) (sfuel pfuel : Nat) (s0 : SState) :
    SState × IterRes :=
  let s := { s0 with flips := (s0.flips + 6) % U64 }
  let sres :=
    if cfg.maxsize = 0 then sample0 cfg.symm s.mm stream sfuel s.rix
    else if 0 < cfg.maxsize then samplePos cfg.symm cfg.maxsize s.muls s.mm stream 1000 s.rix
    else sampleNeg cfg.symm cfg.maxsize s.muls s.mm stream 1000 s.rix
  match sres with
  | .ub => (s, .ub)
  | .nofuel => (s, .nofuel)
  | .fail1000 => ({ s with rcode := 6 }, .brk)
  | .ok p q rix =>
    let s := { s with rix := rix, trace := s.trace ++ [TraceEv.flip p q] }
    let pp := pairSlot p
    let qq := pairSlot q
    let mpd := s.muls.getD p 0
    let mpe := s.muls.getD (meF p) 0
    let mpf := s.muls.getD (mfF p) 0
    let mqd := s.muls.getD q 0
    let mqe := s.muls.getD (meF q) 0
    let mqf := s.muls.getD (mfF q) 0
    let mpen := mqe ^^^ mpe
    let mqfn := mqf ^^^ mpf
    let mppd := s.muls.getD pp 0
    let mppe := s.muls.getD (meF pp) 0
    let mppf := s.muls.getD (mfF pp) 0
    let mqqd := s.muls.getD qq 0
    let mqqe := s.muls.getD (meF qq) 0
    let mqqf := s.muls.getD (mfF qq) 0
    let mppen := mqqe ^^^ mppe
    let mqqfn := mqqf ^^^ mppf
    let mm1 := flipadd (flipdel s.mm (meF p) mpe) (meF p) mpen
    let mm2 := flipadd (flipdel mm1 (meF pp) mppe) (meF pp) mppen
    let mm3 := flipadd (flipdel mm2 (mfF q) mqf) (mfF q) mqfn
    let mm4 := flipadd (flipdel mm3 (mfF qq) mqqf) (mfF qq) mqqfn
    let s := { s with mm := mm4,
                      muls := (((s.muls.set (meF p) mpen).set (meF pp) mppen).set
                        (mfF q) mqfn).set (mfF qq) mqqfn }
    flipCasc6 cfg stream pfuel s p q mpd mpen mpf mqd mqe mqfn
      mppd mppen mppf mqqd mqqe mqqfn

/-- The symm = 6 outer loop (source lines 780-1212), driven by fuel. -/
def runLoop6 (cfg : Cfg) (stream : Nat → Nat) (sfuel pfuel : Nat) :
    Nat → SState → SState × IterRes
  | 0, s => (s, .nofuel)
  | fuel + 1, s =>
    match runIter6 cfg stream sfuel pfuel s with
    | (s1, IterRes.cont) => runLoop6 cfg stream sfuel pfuel fuel s1
    | (s1, r) => (s1, r)

/-- Source lines 391-415: insertion of one initial slot into the multimap.
The code tests `twoplusd.contains(m)` before pushing onto `twoplusl`; the
key set of `twoplusd` always coincides with the membership of `twoplusl`,
which is how the test is rendered here. -/
def setupAdd (mm : MState) (i m : Nat) : MState :=
  if mm.slots m ≠ [] then
    let mm1 := { mm with slots := Function.update mm.slots m (mm.slots m ++ [i]) }
    if m ∈ mm1.twoplusl then mm1
    else { mm1 with twoplusd := Function.update mm1.twoplusd m mm1.twoplusl.length,
                    twoplusl := mm1.twoplusl ++ [m] }
  else { mm with slots := Function.update mm.slots m [i] }

/-- Source lines 391-415: the setup loop over the initial `muls`, also
counting `achieved`. -/
def setupGo : MState → Int → Nat → List Nat → MState × Int
  | mm, ach, _, [] => (mm, ach)
  | mm, ach, i, m :: rest =>
    if m > 0 then setupGo (setupAdd mm i m) (ach + 1) (i + 1) rest
    else setupGo mm ach (i + 1) rest

/-- Source lines 336-451: state after reading the file and running the
setup code, up to the top of the search loop.  `flips0` is the flip counter
read from the file; `rcode` is reset to 0 (line 436), `minmuls` to
`achieved` (line 449), and the initial `plusby` and `limit` are computed
(lines 438-451). -/
def initState (cfg : Cfg) (flips0 : Nat) (initMuls : List Nat)
    (stream : Nat → Nat) : SState :=
  let ma := setupGo emptyMM 0 0 initMuls
  { muls := initMuls, mm := ma.1, achieved := ma.2, minmuls := ma.2,
    best := initMuls, flips := flips0, plus := 0,
    plusby := reschedPlusby cfg ma.2 flips0 (stream 0),
    limit := updatelimit 0 flips0 cfg.termination cfg.split ma.2 cfg.target
      cfg.symm cfg.flimit,
    recovery := 5000000000, rcode := 0, rix := 0, snaps := [], trace := [] }

/-- Outcome of a whole run: the final state and output file contents, or the
undefined-behaviour marker, or fuel exhaustion. -/
inductive RunRes where
  | out (s : SState) (o : List Int × List Int)
  | ub (s : SState)
  | nofuel (s : SState)

/-- The whole of `main` after argument reading, over an arbitrary random
stream: setup, the loop matching `symm` (no loop runs for other values of
`symm`, line 453 and line 780), then the final write (lines 1214-1227). -/
def runWith (cfg : Cfg) (flips0 : Nat) (initMuls : List Nat)
    (stream : Nat → Nat) (fuel sfuel pfuel : Nat) : RunRes :=
  let s := initState cfg flips0 initMuls stream
  let r := if cfg.symm = 3 then runLoop3 cfg stream sfuel pfuel fuel s
           else if cfg.symm = 6 then runLoop6 cfg stream sfuel pfuel fuel s
           else (s, IterRes.brk)
  match r.2 with
  | IterRes.ub => RunRes.ub r.1
  | IterRes.nofuel => RunRes.nofuel r.1
  | _ => RunRes.out r.1 (finalOutput cfg r.1)

/-- Initialization of `std::mt19937` state from the seed (word 0 is the
seed itself, then the 1812433253 recurrence), source line 363. -/
def mtInitAux : Nat → Nat → Nat → List Nat
  | 0, _, _ => []
  | k + 1, i, prev =>
    let x := (1812433253 * (prev ^^^ (prev >>> 30)) + i) % 2 ^ 32
    x :: mtInitAux k (i + 1) x

def mtInit (seed : Nat) : List Nat := seed % 2 ^ 32 :: mtInitAux 623 1 (seed % 2 ^ 32)

/-- One in-place generation step of the twist, index `i`. -/
def twistStep (st : List Nat) (i : Nat) : List Nat :=
  let y := (st.getD i 0 &&& 2147483648) ||| (st.getD ((i + 1) % 624) 0 &&& 2147483647)
  st.set i (st.getD ((i + 397) % 624) 0 ^^^ (y >>> 1) ^^^
    (if y % 2 = 1 then 2567483615 else 0))

def twist (st : List Nat) : List Nat := (List.range 624).foldl twistStep st

/-- The mt19937 output tempering. -/
def temper (y0 : Nat) : Nat :=
  let y1 := y0 ^^^ (y0 >>> 11)
  let y2 := y1 ^^^ ((y1 <<< 7) &&& 2636928640)
  let y3 := y2 ^^^ ((y2 <<< 15) &&& 4022730752)
  y3 ^^^ (y3 >>> 18)

def twistIter : Nat → List Nat → List Nat
  | 0, st => st
  | k + 1, st => twistIter k (twist st)

/-- The `i`-th 32-bit draw of `std::mt19937` seeded with `seed`: the state
twists once before the first draw and once more every 624 draws. -/
def mtStream (seed : Nat) (i : Nat) : Nat :=
  temper ((twistIter (i / 624 + 1) (mtInit seed)).getD (i % 624) 0)

/-- The program as run: the random stream is the Mersenne twister seeded
with `rseed` from the input file (source line 363). -/
def runMain (cfg : Cfg) (flips0 : Nat) (initMuls : List Nat)
    (fuel sfuel pfuel : Nat) : RunRes :=
  runWith cfg flips0 initMuls (mtStream cfg.rseed) fuel sfuel pfuel

/-- The multiset of slots the decomposition currently assigns the value `v`:
all `s < n` with `muls[s] = v`. -/
def msSlots (n : Nat) (muls : List Nat) (v : Nat) : Multiset Nat :=
  Multiset.filter (fun s => muls.getD s 0 = v) (Multiset.range n)

/-- Consistency of the multimap with the decomposition, for nonzero keys,
together with the structural invariants of the colliding-value list: each
key holds exactly the slots carrying it, a value is listed in `twoplusl`
exactly when its multiplicity is at least 2, the listing has no duplicates,
and `twoplusd` indexes it. -/
structure MRel (n : Nat) (muls : List Nat) (mm : MState) : Prop where
  hs : ∀ v, v ≠ 0 → (↑(mm.slots v) : Multiset Nat) = msSlots n muls v
  hC : ∀ v, v ∈ mm.twoplusl ↔ 2 ≤ (mm.slots v).length
  hnd : mm.twoplusl.Nodup
  hdx : ∀ i, i < mm.twoplusl.length → mm.twoplusd (mm.twoplusl.getD i 0) = i

/-- The engine invariant for symm = 3 states: multimap consistency, no key
0, array lengths, triples all-zero or all-nonzero, and `achieved` counting
the nonzero slots. -/
structure EngInv (n : Nat) (s : SState) : Prop where
  rel : MRel n s.muls s.mm
  hz : s.mm.slots 0 = []
  hlen : s.muls.length = n
  hblen : s.best.length = n
  htri : ∀ t, 3 * t + 2 < n →
    (s.muls.getD (3 * t) 0 ≠ 0 ∧ s.muls.getD (3 * t + 1) 0 ≠ 0 ∧
     s.muls.getD (3 * t + 2) 0 ≠ 0) ∨
    (s.muls.getD (3 * t) 0 = 0 ∧ s.muls.getD (3 * t + 1) 0 = 0 ∧
     s.muls.getD (3 * t + 2) 0 = 0)
  hach : s.achieved = (s.muls.countP (fun m => m != 0) : Int)

/-- The engine invariant for symm = 6 states: as `EngInv`, but whole sextuples
are all-zero or all-nonzero (the engine creates and collapses the two
triples of a sextuple together). -/
structure EngInv6 (n : Nat) (s : SState) : Prop where
  rel : MRel n s.muls s.mm
  hz : s.mm.slots 0 = []
  hlen : s.muls.length = n
  hblen : s.best.length = n
  hsex : ∀ t, 6 * t + 5 < n →
    (∀ j, j < 6 → s.muls.getD (6 * t + j) 0 ≠ 0) ∨
    (∀ j, j < 6 → s.muls.getD (6 * t + j) 0 = 0)
  hach : s.achieved = (s.muls.countP (fun m => m != 0) : Int)

def runResState : RunRes → SState
  | .out s _ => s
  | .ub s => s
  | .nofuel s => s

/-- Discriminator of run outcomes: 0 for a completed run with output, 1 for
the undefined-behaviour marker, 2 for fuel exhaustion. -/
def runResKind : RunRes → Nat
  | .out _ _ => 0
  | .ub _ => 1
  | .nofuel _ => 2

def runResOut : RunRes → List Int × List Int
  | .out _ o => o
  | .ub _ => ([], [])
  | .nofuel _ => ([], [])

-- concrete instances for scenarios and witnesses

/-- Scenario S2 of the spec: symm = 3, six slots, `target = 3`,
`maxplus = 3` (so the plus schedule is pushed out), `maxsize = 0`. -/
def c2cfg : Cfg := {
  nomuls := 6
  target := 3
  flimit := 1000000
  plimit := 10
  termination := 0
  rseed := 1
  symm := 3
  maxplus := 3
  split := 0
  maxsize := 0 }

/-- A stream whose first draw selects value 1 of `twoplusl = [1, 2, 3]`
(65538 mod 3 = 0) and, through bit 16, the slot order `p = 0, q = 3`. -/
def c2stream : Nat → Nat := fun _ => 65538

def c2res : RunRes := runWith c2cfg 0 [1, 2, 3, 1, 2, 3] c2stream 5 10 10

/-- Scenario S1 of the spec: symm = 3, three slots holding distinct values,
so the collision list is empty from the start. -/
def c4cfg : Cfg := {
  nomuls := 3
  target := 0
  flimit := 1000000
  plimit := 10
  termination := 0
  rseed := 1
  symm := 3
  maxplus := 0
  split := 0
  maxsize := 0 }

def c4res : RunRes := runWith c4cfg 0 [1, 2, 3] (fun _ => 0) 5 10 10

/-- A state whose only colliding value has both slots inside one triple, so
`permit` rejects every draw: with `maxsize = 1 > 0` the 1000-try sampler
must fail. -/
def c6cfg : Cfg := {
  nomuls := 3
  target := 0
  flimit := 1000000
  plimit := 10
  termination := 0
  rseed := 1
  symm := 3
  maxplus := 0
  split := 0
  maxsize := 1 }

def c6state : SState := initState c6cfg 0 [1, 1, 2] (fun _ => 0)

def c6res : SState × IterRes := runIter3 c6cfg (fun _ => 0) 10 10 c6state

/-- Configuration whose file carried `plimit = -10`: `operator>>` into the
unsigned `vlong` stores `2 ^ 64 - 10`. -/
def c5cfg : Cfg := {
  nomuls := 6
  target := 0
  flimit := 1000000
  plimit := U64 - 10
  termination := 0
  rseed := 1
  symm := 3
  maxplus := 100
  split := 0
  maxsize := 0 }

def c10cfg : Cfg := {
  nomuls := 3
  target := 0
  flimit := 1000
  plimit := 10
  termination := 0
  rseed := 1
  symm := 3
  maxplus := 9
  split := 0
  maxsize := 0 }

/-- A state that is due for a recovery snapshot and in which a strictly
better minimum was seen earlier (`minmuls < achieved`, `best` differs from
`muls`). -/
def c10st : SState := {
  muls := [1, 2, 3]
  mm := emptyMM
  achieved := 3
  minmuls := 0
  best := [9, 9, 9]
  flips := 10
  plus := 0
  plusby := 0
  limit := 100
  recovery := 5
  rcode := 0
  rix := 0
  snaps := []
  trace := [] }

/-- The multimap of the S2 state, and the S2 commit phase performed on it:
slot 2 moves from key 3 to key 0, then slot 4 moves from key 2 to key 0
(the values the engine computes for the flip `p = 0, q = 3`). -/
def c3mm : MState := (initState c2cfg 0 [1, 2, 3, 1, 2, 3] c2stream).mm

def c3commit : MState := flipadd (flipdel (flipadd (flipdel c3mm 2 3) 2 0) 4 2) 4 0

/-- The structural invariants of the colliding-value list alone. -/
def CProps (mm : MState) : Prop :=
  (∀ v, v ∈ mm.twoplusl ↔ 2 ≤ (mm.slots v).length) ∧
  mm.twoplusl.Nodup ∧
  (∀ i, i < mm.twoplusl.length → mm.twoplusd (mm.twoplusl.getD i 0) = i)

-- THEOREMS

theorem usub_small (a b : Nat) (h1 : b ≤ a) (h2 : a < U64) : usub a b = a - b := by
  unfold usub U64 at *
  omega

theorem toU64_small (z : Int) (h0 : 0 ≤ z) (h1 : z < (U64 : Nat)) : toU64 z = z.toNat := by
  unfold toU64 at *
  rw [Int.emod_eq_of_lt h0 (by exact_mod_cast h1)]

/-- C7: `updatelimit` returns `flimit` for termination 0; `flips + (flimit -
flips) / ((achieved - target) / symm)` for termination 1; `flips + flimit`
for termination 2; for termination `t >= 3` it splits on `achieved > t`
using `split * flimit / 100`; all divisions are C integer divisions and the
callers guarantee positive denominators; in particular termination 1 with
`achieved = target + symm` yields `flips + (flimit - flips)`. -/
theorem c7_updatelimit_cases :
    (∀ (limit flips : Nat) (sp achieved target : Int) (sy flimit : Nat), flimit < U64 →
      updatelimit limit flips 0 sp achieved target sy flimit = flimit) ∧
    (∀ (limit flips : Nat) (sp achieved target : Int) (sy flimit : Nat),
      flips ≤ flimit → flimit < U64 →
      0 < Int.tdiv (achieved - target) (sy : Int) →
      Int.tdiv (achieved - target) (sy : Int) < ((U64 : Nat) : Int) →
      updatelimit limit flips 1 sp achieved target sy flimit =
        flips + (flimit - flips) / (Int.tdiv (achieved - target) (sy : Int)).toNat) ∧
    (∀ (limit flips : Nat) (sp achieved target : Int) (sy flimit : Nat),
      flips + flimit < U64 →
      updatelimit limit flips 2 sp achieved target sy flimit = flips + flimit) ∧
    (∀ (limit flips : Nat) (sp achieved target : Int) (sy flimit : Nat) (t : Int),
      3 ≤ t → t < achieved →
      0 ≤ sp → sp < ((U64 : Nat) : Int) → sp.toNat * flimit < U64 →
      flips ≤ sp.toNat * flimit / 100 →
      0 < Int.tdiv (achieved - t) (sy : Int) →
      Int.tdiv (achieved - t) (sy : Int) < ((U64 : Nat) : Int) →
      updatelimit limit flips t sp achieved target sy flimit =
        flips + (sp.toNat * flimit / 100 - flips) /
          (Int.tdiv (achieved - t) (sy : Int)).toNat) ∧
    (∀ (limit flips : Nat) (sp achieved target : Int) (sy flimit : Nat) (t : Int),
      3 ≤ t → achieved ≤ t →
      flips ≤ flimit → flimit < U64 →
      0 < Int.tdiv (achieved - target) (sy : Int) →
      Int.tdiv (achieved - target) (sy : Int) < ((U64 : Nat) : Int) →
      updatelimit limit flips t sp achieved target sy flimit =
        flips + (flimit - flips) / (Int.tdiv (achieved - target) (sy : Int)).toNat) ∧
    (∀ (limit flips : Nat) (sp target : Int) (sy flimit : Nat), 0 < sy →
      flips ≤ flimit → flimit < U64 →
      updatelimit limit flips 1 sp (target + sy) target sy flimit =
        flips + (flimit - flips)) := by
  refine ⟨?_, ?_, ?_, ?_, ?_, ?_⟩
  · intro limit flips sp achieved target sy flimit h
    unfold updatelimit
    simp [Nat.mod_eq_of_lt h]
  · intro limit flips sp achieved target sy flimit h1 h2 h3 h4
    unfold updatelimit
    norm_num
    rw [usub_small _ _ h1 h2, toU64_small _ (by omega) (by omega)]
    have hle := Nat.div_le_self (flimit - flips) (Int.tdiv (achieved - target) (sy : Int)).toNat
    exact Nat.mod_eq_of_lt (by omega)
  · intro limit flips sp achieved target sy flimit h
    unfold updatelimit
    norm_num
    exact Nat.mod_eq_of_lt h
  · intro limit flips sp achieved target sy flimit t h3 hat hs0 hsU hsf hflips hd0 hdU
    unfold updatelimit
    have e0 : ¬ t = 0 := by omega
    have e1 : ¬ t = 1 := by omega
    have e2 : ¬ t = 2 := by omega
    simp only [e0, e1, e2, if_false, if_pos hat]
    rw [toU64_small _ hs0 hsU, Nat.mod_eq_of_lt hsf,
        usub_small _ _ hflips (by
          calc sp.toNat * flimit / 100 ≤ sp.toNat * flimit := Nat.div_le_self _ _
          _ < U64 := hsf),
        toU64_small _ (by omega) (by omega)]
    have hle := Nat.div_le_self (sp.toNat * flimit / 100 - flips)
      (Int.tdiv (achieved - t) (sy : Int)).toNat
    have h100 : sp.toNat * flimit / 100 ≤ sp.toNat * flimit := Nat.div_le_self _ _
    exact Nat.mod_eq_of_lt (by omega)
  · intro limit flips sp achieved target sy flimit t h3 hat h1 h2 hd0 hdU
    unfold updatelimit
    have e0 : ¬ t = 0 := by omega
    have e1 : ¬ t = 1 := by omega
    have e2 : ¬ t = 2 := by omega
    have hat2 : ¬ achieved > t := by omega
    simp only [e0, e1, e2, if_false, if_neg hat2]
    rw [usub_small _ _ h1 h2, toU64_small _ (by omega) (by omega)]
    have hle := Nat.div_le_self (flimit - flips) (Int.tdiv (achieved - target) (sy : Int)).toNat
    exact Nat.mod_eq_of_lt (by omega)
  · intro limit flips sp target sy flimit h0 h1 h2
    unfold updatelimit
    norm_num
    rw [Int.tdiv_self (by exact_mod_cast h0.ne'), usub_small _ _ h1 h2,
        toU64_small 1 (by norm_num) (by norm_num [U64])]
    norm_num
    exact Nat.mod_eq_of_lt (by omega)

theorem c7_updatelimit_cases_witness :
    0 < Int.tdiv ((9 : Int) - 3) ((3 : Nat) : Int) ∧
    updatelimit 0 10 1 0 9 3 3 100 = 55 ∧
    updatelimit 0 10 1 0 6 3 3 100 = 100 := by
  refine ⟨by decide, ?_, ?_⟩
  · have h := c7_updatelimit_cases.2.1 0 10 0 9 3 3 100 (by norm_num)
      (by norm_num [U64]) (by decide) (by decide)
    rw [h]
    decide
  · have h := c7_updatelimit_cases.2.2.2.2.2 0 10 0 3 3 100 (by norm_num)
      (by norm_num) (by norm_num [U64])
    norm_num at h
    exact h

/-- C5: the code declares `plimit` as unsigned `vlong`, so `plimit < 0` is
false for every value and the randomized branch `plusby = flips + symm +
mt() mod (-2 plimit)` never runs; with the file token `-10` (stored as
`2 ^ 64 - 10`), `achieved = 6 < maxplus` and any draw, the schedule becomes
`flips + 2 ^ 64 - 10` instead of the uniform value in `[3, 22]` the spec
describes (8 for draw 5). -/
theorem c5_plimit_unsigned_dead_branch :
    (∀ r : Nat, reschedPlusby c5cfg 6 0 r = U64 - 10) ∧
    decide (c5cfg.plimit < 0) = false ∧
    decide (U64 - 10 = 0 + 3 + 5 % 20) = false := by
  refine ⟨fun r => ?_, by decide, by decide⟩
  show reschedPlusby c5cfg 6 0 r = U64 - 10
  unfold reschedPlusby c5cfg
  norm_num [U64]

theorem c5_plimit_unsigned_dead_branch_witness :
    reschedPlusby c5cfg 6 0 5 = U64 - 10 :=
  c5_plimit_unsigned_dead_branch.1 5

/-- C9: the search is a pure function of the input state and the seed (the
only random source is the Mersenne twister seeded with `rseed`); equal
inputs give identical runs, hence identical move sequences, final counters
and output. -/
theorem c9_deterministic_search :
    ∀ (c1 c2 : Cfg) (f1 f2 : Nat) (m1 m2 : List Nat) (fuel sfuel pfuel : Nat),
      c1 = c2 → f1 = f2 → m1 = m2 →
      runMain c1 f1 m1 fuel sfuel pfuel = runMain c2 f2 m2 fuel sfuel pfuel ∧
      (runResState (runMain c1 f1 m1 fuel sfuel pfuel)).trace =
        (runResState (runMain c2 f2 m2 fuel sfuel pfuel)).trace ∧
      (runResState (runMain c1 f1 m1 fuel sfuel pfuel)).rcode =
        (runResState (runMain c2 f2 m2 fuel sfuel pfuel)).rcode ∧
      (runResState (runMain c1 f1 m1 fuel sfuel pfuel)).flips =
        (runResState (runMain c2 f2 m2 fuel sfuel pfuel)).flips ∧
      (runResState (runMain c1 f1 m1 fuel sfuel pfuel)).achieved =
        (runResState (runMain c2 f2 m2 fuel sfuel pfuel)).achieved ∧
      (runResState (runMain c1 f1 m1 fuel sfuel pfuel)).minmuls =
        (runResState (runMain c2 f2 m2 fuel sfuel pfuel)).minmuls ∧
      (runResState (runMain c1 f1 m1 fuel sfuel pfuel)).plus =
        (runResState (runMain c2 f2 m2 fuel sfuel pfuel)).plus ∧
      runResOut (runMain c1 f1 m1 fuel sfuel pfuel) =
        runResOut (runMain c2 f2 m2 fuel sfuel pfuel) := by
  intro c1 c2 f1 f2 m1 m2 fuel sfuel pfuel h1 h2 h3
  subst h1
  subst h2
  subst h3
  exact ⟨rfl, rfl, rfl, rfl, rfl, rfl, rfl, rfl⟩

theorem c9_deterministic_search_witness :
    c4cfg = c4cfg ∧
    runMain c4cfg 0 [1, 2, 3] 1 1 1 = runMain c4cfg 0 [1, 2, 3] 1 1 1 :=
  ⟨rfl, (c9_deterministic_search c4cfg c4cfg 0 0 [1, 2, 3] [1, 2, 3] 1 1 1
    rfl rfl rfl).1⟩

/-- C10: a recovery snapshot writes the literal 2 in the rcode field and the
current `muls` (never `best`, which it does not read), and the snapshot
branch leaves every other state component, in particular the in-memory
`rcode`, unchanged. -/
theorem c10_recovery_snapshot_frame :
    ∀ (cfg : Cfg) (s : SState),
      (snapHeader cfg s).getD 2 0 = 2 ∧
      (recoverySnap cfg s).2 = s.muls.map Int.ofNat ∧
      (maybeSnap cfg s).rcode = s.rcode ∧
      (maybeSnap cfg s).muls = s.muls ∧
      (maybeSnap cfg s).best = s.best ∧
      (maybeSnap cfg s).mm = s.mm ∧
      (maybeSnap cfg s).flips = s.flips ∧
      (maybeSnap cfg s).achieved = s.achieved ∧
      (maybeSnap cfg s).minmuls = s.minmuls ∧
      (maybeSnap cfg s).plus = s.plus ∧
      (s.recovery ≤ s.flips →
        (maybeSnap cfg s).snaps = s.snaps ++ [(snapHeader cfg s, s.muls.map Int.ofNat)]) ∧
      (s.minmuls < s.achieved → (recoverySnap cfg s).2 = s.muls.map Int.ofNat) ∧
      (s.muls ≠ s.best → (recoverySnap cfg s).2 ≠ s.best.map Int.ofNat) := by
  intro cfg s
  have hinj : ∀ (l1 l2 : List Nat), l1.map Int.ofNat = l2.map Int.ofNat → l1 = l2 := by
    intro l1 l2 h
    exact List.map_injective_iff.mpr (fun a b hab => Int.ofNat.inj hab) h
  unfold maybeSnap
  split_ifs with h
  · refine ⟨rfl, rfl, rfl, rfl, rfl, rfl, rfl, rfl, rfl, rfl, fun _ => rfl,
      fun _ => rfl, fun hne hmap => hne (hinj _ _ hmap)⟩
  · refine ⟨rfl, rfl, rfl, rfl, rfl, rfl, rfl, rfl, rfl, rfl,
      fun hr => absurd hr (by omega), fun _ => rfl,
      fun hne hmap => hne (hinj _ _ hmap)⟩

theorem c10_recovery_snapshot_frame_witness :
    (c10st.recovery ≤ c10st.flips ∧ c10st.minmuls < c10st.achieved ∧
      c10st.muls ≠ c10st.best) ∧
    (maybeSnap c10cfg c10st).snaps =
      c10st.snaps ++ [(snapHeader c10cfg c10st, c10st.muls.map Int.ofNat)] ∧
    (recoverySnap c10cfg c10st).2 = c10st.muls.map Int.ofNat ∧
    (recoverySnap c10cfg c10st).2 ≠ c10st.best.map Int.ofNat ∧
    (maybeSnap c10cfg c10st).rcode = c10st.rcode :=
  ⟨⟨by decide, by decide, by decide⟩,
   (c10_recovery_snapshot_frame c10cfg c10st).2.2.2.2.2.2.2.2.2.2.1 (by decide),
   (c10_recovery_snapshot_frame c10cfg c10st).2.2.2.2.2.2.2.2.2.2.2.1 (by decide),
   (c10_recovery_snapshot_frame c10cfg c10st).2.2.2.2.2.2.2.2.2.2.2.2 (by decide),
   (c10_recovery_snapshot_frame c10cfg c10st).2.2.1⟩

/-- C2 counterexample: on S2 with the flip `p = 0, q = 3` the run does not
leave `best = [0,0,0,1,2,3]` with rcode 0; the q-side commit zeroes slot 4
as well, so `best = [0,0,0,1,0,3]` and the engine exits with rcode = -1
through the empty-collision-list branch. -/
theorem c2_s2_counterexample :
    runResKind c2res = 0 ∧
    (runResState c2res).trace = [TraceEv.flip 0 3] ∧
    (runResState c2res).rcode = -1 ∧
    (runResState c2res).best = [0, 0, 0, 1, 0, 3] ∧
    ¬ ((runResState c2res).best = [0, 0, 0, 1, 2, 3] ∧
       (runResState c2res).rcode = 0) :=
  ⟨rfl, rfl, rfl, rfl, by decide⟩

/-- C2 amended: on S2 (symm = 3, muls = [1,2,3,1,2,3]) the flip `p = 0,
q = 3` makes both new values zero (3 XOR 3 at slot 2 and 2 XOR 2 at slot 4),
collapses triple 0, drops `achieved` and `minmuls` to 3, captures
`best = [0,0,0,1,0,3]`, and — the collision list now being empty — exits
with rcode = -1 regardless of `target`; the output carries that state. -/
theorem c2_s2_amended :
    runResKind c2res = 0 ∧
    (runResState c2res).trace = [TraceEv.flip 0 3] ∧
    (runResState c2res).achieved = 3 ∧
    (runResState c2res).minmuls = 3 ∧
    (runResState c2res).best = [0, 0, 0, 1, 0, 3] ∧
    (runResState c2res).muls = [0, 0, 0, 1, 0, 3] ∧
    (runResState c2res).rcode = -1 ∧
    (runResState c2res).mm.twoplusl = [] ∧
    (runResOut c2res).1.getD 2 0 = -1 ∧
    (runResOut c2res).2 = [0, 0, 0, 1, 0, 3] :=
  ⟨rfl, rfl, rfl, rfl, rfl, rfl, rfl, rfl, rfl, rfl⟩

/-- C4: scenario S1 (muls = [1,2,3]) leaves the collision list empty after
setup; the first flip attempt then evaluates `sample % twoplusl.size()`
with size 0 — division by zero, undefined behaviour — instead of reaching
any `rcode = -1` exit (the in-memory rcode is still 0). -/
theorem c4_empty_collisions_undefined :
    (initState c4cfg 0 [1, 2, 3] (fun _ => 0)).mm.twoplusl = [] ∧
    runResKind c4res = 1 ∧
    (runResState c4res).rcode = 0 :=
  ⟨rfl, rfl, rfl⟩

set_option maxRecDepth 100000 in
/-- C6 counterexample: with `maxsize = 1` and state [1,1,2] the only
colliding value has both slots in one triple, so all 1000 tries fail and
the engine breaks with rcode = 6 — but `flips` was already incremented by
symm at the top of the iteration, so the state is not entirely unchanged. -/
theorem c6_fail1000_counterexample :
    c6res.2 = IterRes.brk ∧
    c6res.1.rcode = 6 ∧
    c6state.flips = 0 ∧
    c6res.1.flips = 3 ∧
    c6res.1.muls = c6state.muls ∧
    ¬ c6res.1.flips = c6state.flips :=
  ⟨by decide, by decide, rfl, by decide, by decide, by decide⟩

/-- C6 amended: when `maxsize` is nonzero and all 1000 sampling tries fail,
the iteration terminates with rcode = 6 leaving the decomposition, the
multimap, the counters, `best` and the trace untouched — except that
`flips` has already been advanced by `symm` for the attempted step. -/
theorem c6_fail1000_amended :
    ∀ (cfg : Cfg) (stream : Nat → Nat) (sfuel pfuel : Nat) (s : SState),
      cfg.maxsize ≠ 0 →
      (0 < cfg.maxsize →
        samplePos cfg.symm cfg.maxsize s.muls s.mm stream 1000 s.rix = SampRes.fail1000) →
      (cfg.maxsize < 0 →
        sampleNeg cfg.symm cfg.maxsize s.muls s.mm stream 1000 s.rix = SampRes.fail1000) →
      runIter3 cfg stream sfuel pfuel s =
        ({ s with flips := (s.flips + 3) % U64, rcode := 6 }, IterRes.brk) ∧
      runIter6 cfg stream sfuel pfuel s =
        ({ s with flips := (s.flips + 6) % U64, rcode := 6 }, IterRes.brk) := by
  intro cfg stream sfuel pfuel s h0 hp hn
  constructor
  · unfold runIter3
    rcases lt_trichotomy cfg.maxsize 0 with h | h | h
    · simp only [if_neg (by omega : ¬ cfg.maxsize = 0),
        if_neg (by omega : ¬ 0 < cfg.maxsize), hn h]
    · exact absurd h h0
    · simp only [if_neg (by omega : ¬ cfg.maxsize = 0), if_pos h, hp h]
  · unfold runIter6
    rcases lt_trichotomy cfg.maxsize 0 with h | h | h
    · simp only [if_neg (by omega : ¬ cfg.maxsize = 0),
        if_neg (by omega : ¬ 0 < cfg.maxsize), hn h]
    · exact absurd h h0
    · simp only [if_neg (by omega : ¬ cfg.maxsize = 0), if_pos h, hp h]

set_option maxRecDepth 100000 in
theorem c6_fail1000_amended_witness :
    c6cfg.maxsize ≠ 0 ∧
    runIter3 c6cfg (fun _ => 0) 10 10 c6state =
      ({ c6state with flips := (c6state.flips + 3) % U64, rcode := 6 }, IterRes.brk) :=
  ⟨by decide,
   (c6_fail1000_amended c6cfg (fun _ => 0) 10 10 c6state (by decide)
     (fun _ => by decide) (fun h => absurd h (by decide))).1⟩
theorem cascBook_muls (cfg : Cfg) (stream : Nat → Nat) (s : SState) :
    (cascBook cfg stream s).muls = s.muls := by
  simp only [cascBook]
  split_ifs <;> rfl

theorem cascBook_mm (cfg : Cfg) (stream : Nat → Nat) (s : SState) :
    (cascBook cfg stream s).mm = s.mm := by
  simp only [cascBook]
  split_ifs <;> rfl

theorem cascBook_achieved (cfg : Cfg) (stream : Nat → Nat) (s : SState) :
    (cascBook cfg stream s).achieved = s.achieved := by
  simp only [cascBook]
  split_ifs <;> rfl

theorem cascBook_flips (cfg : Cfg) (stream : Nat → Nat) (s : SState) :
    (cascBook cfg stream s).flips = s.flips := by
  simp only [cascBook]
  split_ifs <;> rfl

theorem cascBook_rcode (cfg : Cfg) (stream : Nat → Nat) (s : SState) :
    (cascBook cfg stream s).rcode = s.rcode := by
  simp only [cascBook]
  split_ifs <;> rfl

theorem cascBook_best (cfg : Cfg) (stream : Nat → Nat) (s : SState) :
    (cascBook cfg stream s).best = s.best ∨ (cascBook cfg stream s).best = s.muls := by
  simp only [cascBook]
  split_ifs <;> first | exact Or.inl rfl | exact Or.inr rfl

theorem cascBreaks_muls (cfg : Cfg) (s : SState) :
    (cascBreaks cfg s).1.muls = s.muls := by
  simp only [cascBreaks]
  split_ifs <;> rfl

theorem cascBreaks_mm (cfg : Cfg) (s : SState) :
    (cascBreaks cfg s).1.mm = s.mm := by
  simp only [cascBreaks]
  split_ifs <;> rfl

theorem cascBreaks_achieved (cfg : Cfg) (s : SState) :
    (cascBreaks cfg s).1.achieved = s.achieved := by
  simp only [cascBreaks]
  split_ifs <;> rfl

theorem cascBreaks_best (cfg : Cfg) (s : SState) :
    (cascBreaks cfg s).1.best = s.best := by
  simp only [cascBreaks]
  split_ifs <;> rfl

theorem cascadeP3_decomp (cfg : Cfg) (stream : Nat → Nat) (s : SState) (p a b : Nat) :
    cascadeP3 cfg stream s p a b = cascBreaks cfg (cascBook cfg stream
      { s with mm := flipdel (flipdel (flipdel s.mm p (s.muls.getD p 0)) (meF p) a) (mfF p) b,
               muls := (s.muls.set p 0).set (mfF p) 0,
               achieved := s.achieved - 3 }) := rfl

theorem cascadeQ3_decomp (cfg : Cfg) (stream : Nat → Nat) (s : SState) (q a b : Nat) :
    cascadeQ3 cfg stream s q a b = cascBreaks cfg (cascBook cfg stream
      { s with mm := flipdel (flipdel (flipdel s.mm q (s.muls.getD q 0)) (meF q) a) (mfF q) b,
               muls := (s.muls.set q 0).set (meF q) 0,
               achieved := s.achieved - 3 }) := rfl

theorem casP3_len (cfg : Cfg) (stream : Nat → Nat) (s : SState) (p a b : Nat) (n : Nat)
    (h1 : s.muls.length = n) (h2 : s.best.length = n) :
    (cascadeP3 cfg stream s p a b).1.muls.length = n ∧
    (cascadeP3 cfg stream s p a b).1.best.length = n := by
  rw [cascadeP3_decomp]
  constructor
  · rw [cascBreaks_muls, cascBook_muls]
    simp [List.length_set, h1]
  · rw [cascBreaks_best]
    rcases cascBook_best cfg stream
      { s with mm := flipdel (flipdel (flipdel s.mm p (s.muls.getD p 0)) (meF p) a) (mfF p) b,
               muls := (s.muls.set p 0).set (mfF p) 0,
               achieved := s.achieved - 3 } with h | h <;> rw [h] <;>
      simp [List.length_set, h1, h2]

theorem casQ3_len (cfg : Cfg) (stream : Nat → Nat) (s : SState) (q a b : Nat) (n : Nat)
    (h1 : s.muls.length = n) (h2 : s.best.length = n) :
    (cascadeQ3 cfg stream s q a b).1.muls.length = n ∧
    (cascadeQ3 cfg stream s q a b).1.best.length = n := by
  rw [cascadeQ3_decomp]
  constructor
  · rw [cascBreaks_muls, cascBook_muls]
    simp [List.length_set, h1]
  · rw [cascBreaks_best]
    rcases cascBook_best cfg stream
      { s with mm := flipdel (flipdel (flipdel s.mm q (s.muls.getD q 0)) (meF q) a) (mfF q) b,
               muls := (s.muls.set q 0).set (meF q) 0,
               achieved := s.achieved - 3 } with h | h <;> rw [h] <;>
      simp [List.length_set, h1, h2]

theorem maybeSnap_muls (cfg : Cfg) (s : SState) : (maybeSnap cfg s).muls = s.muls := by
  simp only [maybeSnap]
  split_ifs <;> rfl

theorem maybeSnap_best (cfg : Cfg) (s : SState) : (maybeSnap cfg s).best = s.best := by
  simp only [maybeSnap]
  split_ifs <;> rfl

theorem maybeSnap_mm (cfg : Cfg) (s : SState) : (maybeSnap cfg s).mm = s.mm := by
  simp only [maybeSnap]
  split_ifs <;> rfl

theorem maybeSnap_rix (cfg : Cfg) (s : SState) : (maybeSnap cfg s).rix = s.rix := by
  simp only [maybeSnap]
  split_ifs <;> rfl

theorem maybeSnap_achieved (cfg : Cfg) (s : SState) :
    (maybeSnap cfg s).achieved = s.achieved := by
  simp only [maybeSnap]
  split_ifs <;> rfl

theorem maybeSnap_flips (cfg : Cfg) (s : SState) : (maybeSnap cfg s).flips = s.flips := by
  simp only [maybeSnap]
  split_ifs <;> rfl

theorem plusApply3_muls_len (cfg : Cfg) (stream : Nat → Nat) (s : SState) (p q r : Nat) :
    (plusApply3 cfg stream s p q r).muls.length = s.muls.length := by
  simp only [plusApply3]
  simp [List.length_set]

theorem plusApply3_best (cfg : Cfg) (stream : Nat → Nat) (s : SState) (p q r : Nat) :
    (plusApply3 cfg stream s p q r).best = s.best := rfl

theorem plusBlock3_len (cfg : Cfg) (stream : Nat → Nat) (pfuel : Nat) (s s1 : SState)
    (h : plusBlock3 cfg stream pfuel s = some s1) :
    s1.muls.length = s.muls.length ∧ s1.best = s.best := by
  unfold plusBlock3 at h
  simp only at h
  rcases hp : plusAccept3 cfg (maybeSnap cfg s).muls stream pfuel (maybeSnap cfg s).rix with
    _ | ⟨p, q, rix⟩
  · rw [hp] at h
    exact absurd h (by simp)
  · rw [hp] at h
    simp only [Option.some.injEq] at h
    subst h
    constructor
    · rw [plusApply3_muls_len]
      exact congrArg List.length (maybeSnap_muls cfg s)
    · rw [plusApply3_best]
      exact maybeSnap_best cfg s

theorem flipTail3_len (cfg : Cfg) (stream : Nat → Nat) (pfuel : Nat) (s : SState) (n : Nat)
    (h1 : s.muls.length = n) (h2 : s.best.length = n) :
    (flipTail3 cfg stream pfuel s).1.muls.length = n ∧
    (flipTail3 cfg stream pfuel s).1.best.length = n := by
  unfold flipTail3
  rcases hpb : (if s.flips ≥ s.plusby then plusBlock3 cfg stream pfuel s else some s) with
    _ | s2
  · exact ⟨h1, h2⟩
  · have hs2 : s2.muls.length = n ∧ s2.best.length = n := by
      split_ifs at hpb with hcond
      · obtain ⟨ha, hb⟩ := plusBlock3_len cfg stream pfuel s s2 hpb
        constructor
        · rw [ha, h1]
        · rw [hb, h2]
      · cases hpb
        exact ⟨h1, h2⟩
    simp only
    split_ifs <;> exact hs2

theorem flipCasc3_len (cfg : Cfg) (stream : Nat → Nat) (pfuel : Nat) (s : SState)
    (p q a b c d : Nat) (n : Nat)
    (h1 : s.muls.length = n) (h2 : s.best.length = n) :
    (flipCasc3 cfg stream pfuel s p q a b c d).1.muls.length = n ∧
    (flipCasc3 cfg stream pfuel s p q a b c d).1.best.length = n := by
  unfold flipCasc3
  simp only
  rcases hpc : (if a = 0 then cascadeP3 cfg stream s p a b else (s, false)) with ⟨sp, bp⟩
  have hsp : sp.muls.length = n ∧ sp.best.length = n := by
    split_ifs at hpc
    · have := casP3_len cfg stream s p a b n h1 h2
      rw [hpc] at this
      exact this
    · cases hpc
      exact ⟨h1, h2⟩
  rcases bp with _ | _
  · simp only [Bool.false_eq_true, if_false]
    rcases hqc : (if d = 0 then cascadeQ3 cfg stream sp q c d else (sp, false)) with ⟨sq, bq⟩
    have hsq : sq.muls.length = n ∧ sq.best.length = n := by
      split_ifs at hqc
      · have := casQ3_len cfg stream sp q c d n hsp.1 hsp.2
        rw [hqc] at this
        exact this
      · cases hqc
        exact hsp
    rcases bq with _ | _
    · simp only [Bool.false_eq_true, if_false]
      exact flipTail3_len cfg stream pfuel sq n hsq.1 hsq.2
    · simp only [if_true]
      exact hsq
  · simp only [if_true]
    exact hsp

theorem flipCommit3_muls_len (s : SState) (p q : Nat) :
    (flipCommit3 s p q).muls.length = s.muls.length := by
  simp only [flipCommit3]
  simp [List.length_set]

theorem flipCommit3_best (s : SState) (p q : Nat) :
    (flipCommit3 s p q).best = s.best := rfl

theorem runIter3_len (cfg : Cfg) (stream : Nat → Nat) (sfuel pfuel : Nat) (s : SState)
    (n : Nat) (h1 : s.muls.length = n) (h2 : s.best.length = n) :
    (runIter3 cfg stream sfuel pfuel s).1.muls.length = n ∧
    (runIter3 cfg stream sfuel pfuel s).1.best.length = n := by
  unfold runIter3
  simp only
  split
  · exact ⟨h1, h2⟩
  · exact ⟨h1, h2⟩
  · exact ⟨h1, h2⟩
  · rename_i p q rix hok
    have hc := flipCommit3_muls_len
      { s with flips := (s.flips + 3) % U64, rix := rix,
               trace := s.trace ++ [TraceEv.flip p q] } p q
    exact flipCasc3_len cfg stream pfuel _ p q _ _ _ _ n (by rw [hc]; exact h1)
      (by rw [flipCommit3_best]; exact h2)

theorem cascadeP6_decomp (cfg : Cfg) (stream : Nat → Nat) (s : SState)
    (p pp a b c d e f : Nat) :
    cascadeP6 cfg stream s p pp a b c d e f = cascBreaks cfg (cascBook cfg stream
      { s with
          mm := flipdel (flipdel (flipdel (flipdel (flipdel (flipdel s.mm p a)
            (meF p) b) (mfF p) c) pp d) (meF pp) e) (mfF pp) f,
          muls := if b ≠ 0 then
              (((((s.muls.set p 0).set (mfF p) 0).set pp 0).set (mfF pp) 0).set
                (meF p) 0).set (meF pp) 0
            else (((s.muls.set p 0).set (mfF p) 0).set pp 0).set (mfF pp) 0,
          achieved := s.achieved - 6 }) := by
  unfold cascadeP6
  split_ifs <;> rfl

theorem cascadeQ6_decomp (cfg : Cfg) (stream : Nat → Nat) (s : SState)
    (q qq a b c d e f : Nat) :
    cascadeQ6 cfg stream s q qq a b c d e f = cascBreaks cfg (cascBook cfg stream
      { s with
          mm := flipdel (flipdel (flipdel (flipdel (flipdel (flipdel s.mm q a)
            (meF q) b) (mfF q) c) qq d) (meF qq) e) (mfF qq) f,
          muls := if c ≠ 0 then
              (((((s.muls.set q 0).set (meF q) 0).set qq 0).set (meF qq) 0).set
                (mfF q) 0).set (mfF qq) 0
            else (((s.muls.set q 0).set (meF q) 0).set qq 0).set (meF qq) 0,
          achieved := s.achieved - 6 }) := by
  unfold cascadeQ6
  split_ifs <;> rfl

theorem casP6_len (cfg : Cfg) (stream : Nat → Nat) (s : SState)
    (p pp a b c d e f : Nat) (n : Nat)
    (h1 : s.muls.length = n) (h2 : s.best.length = n) :
    (cascadeP6 cfg stream s p pp a b c d e f).1.muls.length = n ∧
    (cascadeP6 cfg stream s p pp a b c d e f).1.best.length = n := by
  rw [cascadeP6_decomp]
  constructor
  · rw [cascBreaks_muls, cascBook_muls]
    split_ifs <;> simp [List.length_set, h1]
  · rw [cascBreaks_best]
    rcases cascBook_best cfg stream _ with h | h <;> rw [h] <;>
      first
      | exact h2
      | (simp only; split_ifs <;> simp [List.length_set, h1])

theorem casQ6_len (cfg : Cfg) (stream : Nat → Nat) (s : SState)
    (q qq a b c d e f : Nat) (n : Nat)
    (h1 : s.muls.length = n) (h2 : s.best.length = n) :
    (cascadeQ6 cfg stream s q qq a b c d e f).1.muls.length = n ∧
    (cascadeQ6 cfg stream s q qq a b c d e f).1.best.length = n := by
  rw [cascadeQ6_decomp]
  constructor
  · rw [cascBreaks_muls, cascBook_muls]
    split_ifs <;> simp [List.length_set, h1]
  · rw [cascBreaks_best]
    rcases cascBook_best cfg stream _ with h | h <;> rw [h] <;>
      first
      | exact h2
      | (simp only; split_ifs <;> simp [List.length_set, h1])

theorem plusApply6_muls_len (cfg : Cfg) (stream : Nat → Nat) (s : SState) (p q r : Nat) :
    (plusApply6 cfg stream s p q r).muls.length = s.muls.length := by
  simp only [plusApply6]
  simp [List.length_set]

theorem plusApply6_best (cfg : Cfg) (stream : Nat → Nat) (s : SState) (p q r : Nat) :
    (plusApply6 cfg stream s p q r).best = s.best := by
  simp only [plusApply6]

theorem plusBlock6_len (cfg : Cfg) (stream : Nat → Nat) (pfuel : Nat) (s s1 : SState)
    (h : plusBlock6 cfg stream pfuel s = some s1) :
    s1.muls.length = s.muls.length ∧ s1.best = s.best := by
  unfold plusBlock6 at h
  simp only at h
  rcases hp : plusAccept6 cfg (maybeSnap cfg s).muls stream pfuel (maybeSnap cfg s).rix with
    _ | ⟨p, q, rix⟩
  · rw [hp] at h
    exact absurd h (by simp)
  · rw [hp] at h
    simp only [Option.some.injEq] at h
    subst h
    constructor
    · rw [plusApply6_muls_len]
      exact congrArg List.length (maybeSnap_muls cfg s)
    · rw [plusApply6_best]
      exact maybeSnap_best cfg s

theorem flipTail6_len (cfg : Cfg) (stream : Nat → Nat) (pfuel : Nat) (s : SState) (n : Nat)
    (h1 : s.muls.length = n) (h2 : s.best.length = n) :
    (flipTail6 cfg stream pfuel s).1.muls.length = n ∧
    (flipTail6 cfg stream pfuel s).1.best.length = n := by
  unfold flipTail6
  rcases hpb : (if s.flips ≥ s.plusby then plusBlock6 cfg stream pfuel s else some s) with
    _ | s2
  · exact ⟨h1, h2⟩
  · have hs2 : s2.muls.length = n ∧ s2.best.length = n := by
      split_ifs at hpb with hcond
      · obtain ⟨ha, hb⟩ := plusBlock6_len cfg stream pfuel s s2 hpb
        constructor
        · rw [ha, h1]
        · rw [hb, h2]
      · cases hpb
        exact ⟨h1, h2⟩
    simp only
    split_ifs <;> exact hs2

theorem flipCasc6_len (cfg : Cfg) (stream : Nat → Nat) (pfuel : Nat) (s : SState)
    (p q a1 a2 a3 b1 b2 b3 c1 c2 c3 d1 d2 d3 : Nat) (n : Nat)
    (h1 : s.muls.length = n) (h2 : s.best.length = n) :
    (flipCasc6 cfg stream pfuel s p q a1 a2 a3 b1 b2 b3 c1 c2 c3 d1 d2 d3).1.muls.length = n ∧
    (flipCasc6 cfg stream pfuel s p q a1 a2 a3 b1 b2 b3 c1 c2 c3 d1 d2 d3).1.best.length = n := by
  unfold flipCasc6
  simp only
  rcases hpc : (if a2 = 0 ∨ (a1 = c1 ∧ a2 = c2 ∧ a3 = c3) then
      cascadeP6 cfg stream s p (pairSlot p) a1 a2 a3 c1 c2 c3 else (s, false)) with ⟨sp, bp⟩
  have hsp : sp.muls.length = n ∧ sp.best.length = n := by
    split_ifs at hpc
    · have := casP6_len cfg stream s p (pairSlot p) a1 a2 a3 c1 c2 c3 n h1 h2
      rw [hpc] at this
      exact this
    · cases hpc
      exact ⟨h1, h2⟩
  rcases bp with _ | _
  · simp only [Bool.false_eq_true, if_false]
    rcases hqc : (if b3 = 0 ∨ (b1 = d1 ∧ b2 = d2 ∧ b3 = d3) then
        cascadeQ6 cfg stream sp q (pairSlot q) b1 b2 b3 d1 d2 d3 else (sp, false)) with ⟨sq, bq⟩
    have hsq : sq.muls.length = n ∧ sq.best.length = n := by
      split_ifs at hqc
      · have := casQ6_len cfg stream sp q (pairSlot q) b1 b2 b3 d1 d2 d3 n hsp.1 hsp.2
        rw [hqc] at this
        exact this
      · cases hqc
        exact hsp
    rcases bq with _ | _
    · simp only [Bool.false_eq_true, if_false]
      exact flipTail6_len cfg stream pfuel sq n hsq.1 hsq.2
    · simp only [if_true]
      exact hsq
  · simp only [if_true]
    exact hsp

theorem flipCommit6_muls_len (s : SState) (p pp q qq : Nat) :
    ((((s.muls.set (meF p) 0).set (meF pp) 0).set (mfF q) 0).set (mfF qq) 0).length =
      s.muls.length := by
  simp [List.length_set]

theorem runIter6_len (cfg : Cfg) (stream : Nat → Nat) (sfuel pfuel : Nat) (s : SState)
    (n : Nat) (h1 : s.muls.length = n) (h2 : s.best.length = n) :
    (runIter6 cfg stream sfuel pfuel s).1.muls.length = n ∧
    (runIter6 cfg stream sfuel pfuel s).1.best.length = n := by
  unfold runIter6
  simp only
  split
  · exact ⟨h1, h2⟩
  · exact ⟨h1, h2⟩
  · exact ⟨h1, h2⟩
  · rename_i p q rix hok
    exact flipCasc6_len cfg stream pfuel _ p q _ _ _ _ _ _ _ _ _ _ _ _ n
      (by simp [List.length_set, h1]) h2

theorem runLoop3_len (cfg : Cfg) (stream : Nat → Nat) (sfuel pfuel : Nat) :
    ∀ (fuel : Nat) (s : SState) (n : Nat), s.muls.length = n → s.best.length = n →
      (runLoop3 cfg stream sfuel pfuel fuel s).1.muls.length = n ∧
      (runLoop3 cfg stream sfuel pfuel fuel s).1.best.length = n := by
  intro fuel
  induction fuel with
  | zero => intro s n h1 h2; exact ⟨h1, h2⟩
  | succ k ih =>
    intro s n h1 h2
    unfold runLoop3
    rcases hit : runIter3 cfg stream sfuel pfuel s with ⟨s1, r⟩
    have hlen := runIter3_len cfg stream sfuel pfuel s n h1 h2
    rw [hit] at hlen
    cases r
    · exact ih s1 n hlen.1 hlen.2
    · exact hlen
    · exact hlen
    · exact hlen

theorem runLoop6_len (cfg : Cfg) (stream : Nat → Nat) (sfuel pfuel : Nat) :
    ∀ (fuel : Nat) (s : SState) (n : Nat), s.muls.length = n → s.best.length = n →
      (runLoop6 cfg stream sfuel pfuel fuel s).1.muls.length = n ∧
      (runLoop6 cfg stream sfuel pfuel fuel s).1.best.length = n := by
  intro fuel
  induction fuel with
  | zero => intro s n h1 h2; exact ⟨h1, h2⟩
  | succ k ih =>
    intro s n h1 h2
    unfold runLoop6
    rcases hit : runIter6 cfg stream sfuel pfuel s with ⟨s1, r⟩
    have hlen := runIter6_len cfg stream sfuel pfuel s n h1 h2
    rw [hit] at hlen
    cases r
    · exact ih s1 n hlen.1 hlen.2
    · exact hlen
    · exact hlen
    · exact hlen

/-- C8: on termination the first output line is the 13 fields `nomuls flips
rcode target flimit plimit termination rseed symm maxplus achieved minmuls
plus` in that order, followed by `nomuls` value lines equal to `best` when
`minmuls < achieved` at exit and to the current `muls` otherwise. -/
theorem c8_final_output_format :
    ∀ (cfg : Cfg) (flips0 : Nat) (initMuls : List Nat) (stream : Nat → Nat)
      (fuel sfuel pfuel : Nat) (s : SState) (o : List Int × List Int),
      initMuls.length = cfg.nomuls →
      runWith cfg flips0 initMuls stream fuel sfuel pfuel = RunRes.out s o →
      o.1 = [(cfg.nomuls : Int), (s.flips : Int), s.rcode, cfg.target, (cfg.flimit : Int),
             (cfg.plimit : Int), cfg.termination, (cfg.rseed : Int), (cfg.symm : Int),
             cfg.maxplus, s.achieved, s.minmuls, (s.plus : Int)] ∧
      o.2.length = cfg.nomuls ∧
      (s.minmuls < s.achieved → o.2 = s.best.map Int.ofNat) ∧
      (¬ s.minmuls < s.achieved → o.2 = s.muls.map Int.ofNat) := by
  intro cfg flips0 initMuls stream fuel sfuel pfuel s o hlen hrun
  have hinit1 : (initState cfg flips0 initMuls stream).muls.length = cfg.nomuls := hlen
  have hinit2 : (initState cfg flips0 initMuls stream).best.length = cfg.nomuls := hlen
  unfold runWith at hrun
  simp only at hrun
  rcases hr : (if cfg.symm = 3 then
      runLoop3 cfg stream sfuel pfuel fuel (initState cfg flips0 initMuls stream)
    else if cfg.symm = 6 then
      runLoop6 cfg stream sfuel pfuel fuel (initState cfg flips0 initMuls stream)
    else (initState cfg flips0 initMuls stream, IterRes.brk)) with ⟨s1, r⟩
  have hs1 : s1.muls.length = cfg.nomuls ∧ s1.best.length = cfg.nomuls := by
    split_ifs at hr
    · have := runLoop3_len cfg stream sfuel pfuel fuel
        (initState cfg flips0 initMuls stream) cfg.nomuls hinit1 hinit2
      rw [hr] at this
      exact this
    · have := runLoop6_len cfg stream sfuel pfuel fuel
        (initState cfg flips0 initMuls stream) cfg.nomuls hinit1 hinit2
      rw [hr] at this
      exact this
    · cases hr
      exact ⟨hinit1, hinit2⟩
  rw [hr] at hrun
  have ho : s = s1 ∧ o = finalOutput cfg s1 := by
    cases r
    · injection hrun with a b
      exact ⟨a.symm, b.symm⟩
    · injection hrun with a b
      exact ⟨a.symm, b.symm⟩
    · exact absurd hrun (by simp)
    · exact absurd hrun (by simp)
  obtain ⟨hseq, hoeq⟩ := ho
  subst hseq
  subst hoeq
  unfold finalOutput finalHeader
  refine ⟨rfl, ?_, ?_, ?_⟩
  · simp only
    split_ifs <;> simp [hs1.1, hs1.2]
  · intro hlt
    simp [hlt]
  · intro hlt
    simp [hlt]

set_option maxRecDepth 100000 in
theorem c8_final_output_format_witness :
    ([1, 2, 3, 1, 2, 3] : List Nat).length = c2cfg.nomuls ∧
    (runResOut c2res).2.length = c2cfg.nomuls ∧
    (runResOut c2res).1 =
      [(c2cfg.nomuls : Int), ((runResState c2res).flips : Int), (runResState c2res).rcode,
       c2cfg.target, (c2cfg.flimit : Int), (c2cfg.plimit : Int), c2cfg.termination,
       (c2cfg.rseed : Int), (c2cfg.symm : Int), c2cfg.maxplus, (runResState c2res).achieved,
       (runResState c2res).minmuls, ((runResState c2res).plus : Int)] := by
  have h := c8_final_output_format c2cfg 0 [1, 2, 3, 1, 2, 3] c2stream 5 10 10
    (runResState c2res) (runResOut c2res) (by decide) rfl
  exact ⟨by decide, h.2.1, h.1⟩

theorem cnt_range (a n : Nat) :
    Multiset.count a (Multiset.range n) = if a < n then 1 else 0 := by
  rw [Multiset.range, Multiset.coe_count]
  rcases lt_or_ge a n with h | h
  · rw [List.count_eq_one_of_mem (List.nodup_range n) (List.mem_range.mpr h)]
    simp [h]
  · rw [List.count_eq_zero_of_not_mem (by simp [List.mem_range]; omega)]
    simp [Nat.not_lt.mpr h]

theorem count_msSlots (n : Nat) (muls : List Nat) (v a : Nat) :
    Multiset.count a (msSlots n muls v) =
      if muls.getD a 0 = v ∧ a < n then 1 else 0 := by
  unfold msSlots
  rw [Multiset.count_filter]
  rcases eq_or_ne (muls.getD a 0) v with h | h
  · rw [if_pos h, cnt_range]
    by_cases ha : a < n
    · rw [if_pos ha, if_pos ⟨h, ha⟩]
    · rw [if_neg ha, if_neg (by tauto)]
  · rw [if_neg h, if_neg (by tauto)]

theorem getD_set_self (l : List Nat) (k x : Nat) (h : k < l.length) :
    (l.set k x).getD k 0 = x := by
  rw [List.getD_eq_getElem?_getD, List.getElem?_set_self (by omega)]
  rfl

theorem getD_set_ne (l : List Nat) (k x a : Nat) (h : k ≠ a) :
    (l.set k x).getD a 0 = l.getD a 0 := by
  rw [List.getD_eq_getElem?_getD, List.getElem?_set_ne h, ← List.getD_eq_getElem?_getD]

theorem msSlots_set_count (n : Nat) (muls : List Nat) (k x v a : Nat)
    (hk : k < n) (hlen : muls.length = n) :
    Multiset.count a (msSlots n (muls.set k x) v) =
      if a = k then (if x = v then 1 else 0)
      else Multiset.count a (msSlots n muls v) := by
  rw [count_msSlots, count_msSlots]
  rcases eq_or_ne a k with h | h
  · subst h
    rw [getD_set_self muls a x (by omega)]
    simp [hk]
  · rw [getD_set_ne muls k x a (by omega)]
    simp [h]

theorem count_append_single (l : List Nat) (r a : Nat) :
    Multiset.count a (↑(l ++ [r]) : Multiset Nat) =
      Multiset.count a (↑l : Multiset Nat) + if a = r then 1 else 0 := by
  simp only [Multiset.coe_count, List.count_append]
  rcases eq_or_ne a r with h | h <;> simp [h, List.count_singleton]

theorem removeLastOcc_coe (r : Nat) (l : List Nat) (h : r ∈ l) :
    (↑(removeLastOcc r l) : Multiset Nat) = (↑l : Multiset Nat).erase r := by
  unfold removeLastOcc
  have h2 : r ∈ l.reverse := by simp [h]
  calc (↑(l.reverse.erase r).reverse : Multiset Nat)
      = (↑(l.reverse.erase r) : Multiset Nat) := Multiset.coe_reverse _
    _ = (↑l.reverse : Multiset Nat).erase r := by
        rw [Multiset.coe_erase]
    _ = (↑l : Multiset Nat).erase r := by
        rw [Multiset.coe_reverse]

theorem removeLastOcc_length (r : Nat) (l : List Nat) (h : r ∈ l) :
    (removeLastOcc r l).length = l.length - 1 := by
  have := congrArg Multiset.card (removeLastOcc_coe r l h)
  simpa [Multiset.card_erase_of_mem, h] using this

theorem getD_lt (l : List Nat) (i : Nat) (h : i < l.length) :
    l.getD i 0 = l.get ⟨i, h⟩ := by
  rw [List.getD_eq_getElem?_getD, List.getElem?_eq_getElem h]
  rfl

theorem mem_iff_getD (l : List Nat) (w : Nat) :
    w ∈ l ↔ ∃ i, i < l.length ∧ l.getD i 0 = w := by
  rw [List.mem_iff_get]
  constructor
  · rintro ⟨⟨i, hi⟩, he⟩
    exact ⟨i, hi, by rw [getD_lt l i hi]; exact he⟩
  · rintro ⟨i, hi, he⟩
    exact ⟨⟨i, hi⟩, by rw [← getD_lt l i hi]; exact he⟩

theorem nodup_iff_getD (l : List Nat) :
    l.Nodup ↔ ∀ i j, i < l.length → j < l.length → l.getD i 0 = l.getD j 0 → i = j := by
  rw [List.nodup_iff_injective_get]
  constructor
  · intro h i j hi hj he
    have h2 : l.get ⟨i, hi⟩ = l.get ⟨j, hj⟩ := by
      rw [← getD_lt l i hi, ← getD_lt l j hj]
      exact he
    have h3 := h h2
    exact congrArg Fin.val h3
  · rintro h ⟨i, hi⟩ ⟨j, hj⟩ he
    apply Fin.ext
    exact h i j hi hj (by rw [getD_lt l i hi, getD_lt l j hj]; exact he)

theorem getLastD_eq_getD (l : List Nat) (h : l ≠ []) :
    l.getLastD 0 = l.getD (l.length - 1) 0 := by
  rw [List.getLastD_eq_getLast?, List.getLast?_eq_getElem?, List.getD_eq_getElem?_getD]

theorem swapRemove_length (C : List Nat) (i x : Nat) :
    ((C.set i x).dropLast).length = C.length - 1 := by
  simp [List.length_set]

theorem swapRemove_getD (C : List Nat) (i x j : Nat) (hj : j < C.length - 1) :
    ((C.set i x).dropLast).getD j 0 = if j = i then x else C.getD j 0 := by
  have hlen : j < ((C.set i x).dropLast).length := by
    rw [swapRemove_length]
    exact hj
  have hlen2 : j < (C.set i x).length := by
    rw [List.length_set]
    omega
  rw [getD_lt _ j hlen]
  have : ((C.set i x).dropLast).get ⟨j, hlen⟩ = (C.set i x).get ⟨j, hlen2⟩ := by
    simp [List.getElem_dropLast]
  rw [this]
  rcases eq_or_ne j i with h | h
  · subst h
    rw [if_pos rfl, ← getD_lt _ j hlen2, getD_set_self _ _ _ (by omega)]
  · rw [if_neg h, ← getD_lt _ j hlen2, getD_set_ne _ _ _ _ (by omega)]

theorem fa_slots_self (mm : MState) (r v : Nat) :
    (flipadd mm r v).slots v = mm.slots v ++ [r] := by
  simp only [flipadd]
  split_ifs with h1 h2 <;> simp_all [Function.update_same]

theorem fa_slots_ne (mm : MState) (r v w : Nat) (h : w ≠ v) :
    (flipadd mm r v).slots w = mm.slots w := by
  simp only [flipadd]
  split_ifs <;> simp [Function.update_noteq h]

theorem fa_tl (mm : MState) (r v : Nat) :
    (flipadd mm r v).twoplusl =
      if (mm.slots v).length = 1 then mm.twoplusl ++ [v] else mm.twoplusl := by
  simp only [flipadd]
  split_ifs with h1 h2 h3 <;> first | rfl | simp_all

theorem fa_td (mm : MState) (r v : Nat) :
    (flipadd mm r v).twoplusd =
      if (mm.slots v).length = 1 then
        Function.update mm.twoplusd v mm.twoplusl.length
      else mm.twoplusd := by
  simp only [flipadd]
  split_ifs with h1 h2 h3 <;> first | rfl | simp_all

theorem fd_slots_eq (mm : MState) (r v : Nat) :
    (flipdel mm r v).slots = Function.update mm.slots v
      (if (mm.slots v).length = 1 then [] else removeLastOcc r (mm.slots v)) := by
  simp only [flipdel]
  split_ifs <;> first | omega | rfl

theorem fd_slots_self (mm : MState) (r v : Nat) (hr : r ∈ mm.slots v) :
    (↑((flipdel mm r v).slots v) : Multiset Nat) =
      (↑(mm.slots v) : Multiset Nat).erase r := by
  rw [fd_slots_eq, Function.update_same]
  by_cases h1 : (mm.slots v).length = 1
  · rw [if_pos h1]
    rcases List.length_eq_one.mp h1 with ⟨a, ha⟩
    rw [ha] at hr
    simp at hr
    subst hr
    rw [ha]
    simp
  · rw [if_neg h1]
    exact removeLastOcc_coe r (mm.slots v) hr

theorem fd_slots_ne (mm : MState) (r v w : Nat) (h : w ≠ v) :
    (flipdel mm r v).slots w = mm.slots w := by
  simp only [flipdel]
  split_ifs <;> simp [Function.update_noteq h]

theorem fd_tl_ne2 (mm : MState) (r v : Nat) (h : (mm.slots v).length ≠ 2) :
    (flipdel mm r v).twoplusl = mm.twoplusl ∧
    (flipdel mm r v).twoplusd = mm.twoplusd := by
  simp only [flipdel]
  split_ifs <;> simp_all

theorem fd_tl_eq2 (mm : MState) (r v : Nat) (h : (mm.slots v).length = 2) :
    (flipdel mm r v).twoplusl =
      ((mm.twoplusl.set (mm.twoplusd v) (mm.twoplusl.getLastD 0)).dropLast) ∧
    (flipdel mm r v).twoplusd =
      Function.update mm.twoplusd (mm.twoplusl.getLastD 0) (mm.twoplusd v) := by
  simp only [flipdel]
  split_ifs <;> simp_all

theorem getD_append_lt (l l2 : List Nat) (i : Nat) (h : i < l.length) :
    (l ++ l2).getD i 0 = l.getD i 0 := by
  rw [List.getD_eq_getElem?_getD, List.getElem?_append_left h, ← List.getD_eq_getElem?_getD]

theorem getD_append_eq (l : List Nat) (v : Nat) :
    (l ++ [v]).getD l.length 0 = v := by
  rw [List.getD_eq_getElem?_getD]
  rw [List.getElem?_append_right (le_refl _)]
  simp

theorem fa_CProps (mm : MState) (r v : Nat) (h : CProps mm) :
    CProps (flipadd mm r v) := by
  obtain ⟨hC, hnd, hdx⟩ := h
  by_cases h1 : (mm.slots v).length = 1
  · have hvC : v ∉ mm.twoplusl := fun hv => by have := (hC v).mp hv; omega
    refine ⟨?_, ?_, ?_⟩
    · intro w
      rw [fa_tl, if_pos h1]
      by_cases hw : w = v
      · subst hw
        rw [fa_slots_self]
        constructor
        · intro
          simp [h1]
        · intro
          simp
      · rw [fa_slots_ne mm r v w hw]
        simp only [List.mem_append, List.mem_singleton, hw, or_false]
        exact hC w
    · rw [fa_tl, if_pos h1]
      simp [List.nodup_append, hnd, hvC]
    · intro i hi
      rw [fa_tl, if_pos h1] at hi ⊢
      rw [fa_td, if_pos h1]
      rw [List.length_append, List.length_singleton] at hi
      by_cases hilt : i < mm.twoplusl.length
      · rw [getD_append_lt _ _ _ hilt, Function.update_noteq, hdx i hilt]
        intro he
        exact hvC (he ▸ (mem_iff_getD _ _).mpr ⟨i, hilt, rfl⟩)
      · have hieq : i = mm.twoplusl.length := by omega
        subst hieq
        rw [getD_append_eq, Function.update_same]
  · refine ⟨?_, ?_, ?_⟩
    · intro w
      rw [fa_tl, if_neg h1]
      by_cases hw : w = v
      · subst hw
        rw [fa_slots_self]
        rw [List.length_append, List.length_singleton]
        constructor
        · intro hv
          have := (hC w).mp hv
          omega
        · intro h2
          apply (hC w).mpr
          omega
      · rw [fa_slots_ne mm r v w hw]
        exact hC w
    · rw [fa_tl, if_neg h1]
      exact hnd
    · intro i hi
      rw [fa_tl, if_neg h1] at hi ⊢
      rw [fa_td, if_neg h1]
      exact hdx i hi

theorem fd_slots_len (mm : MState) (r v : Nat) (hr : r ∈ mm.slots v) :
    ((flipdel mm r v).slots v).length = (mm.slots v).length - 1 := by
  have h := congrArg Multiset.card (fd_slots_self mm r v hr)
  rw [Multiset.coe_card, Multiset.card_erase_of_mem (by exact_mod_cast hr),
    Multiset.coe_card] at h
  exact h

theorem fd_CProps (mm : MState) (r v : Nat) (h : CProps mm) (hr : r ∈ mm.slots v) :
    CProps (flipdel mm r v) := by
  obtain ⟨hC, hnd, hdx⟩ := h
  have hl1 : 1 ≤ (mm.slots v).length := List.length_pos.mpr (List.ne_nil_of_mem hr)
  by_cases h2 : (mm.slots v).length = 2
  case neg =>
    obtain ⟨htl, htd⟩ := fd_tl_ne2 mm r v h2
    refine ⟨?_, ?_, ?_⟩
    · intro w
      rw [htl]
      by_cases hw : w = v
      · subst hw
        rw [fd_slots_len mm r w hr]
        constructor
        · intro hv
          have := (hC w).mp hv
          omega
        · intro hge
          apply (hC w).mpr
          omega
      · rw [fd_slots_ne mm r v w hw]
        exact hC w
    · rw [htl]
      exact hnd
    · intro i hi
      rw [htl] at hi ⊢
      rw [htd]
      exact hdx i hi
  case pos =>
    have hndx := (nodup_iff_getD mm.twoplusl).mp hnd
    have hvC : v ∈ mm.twoplusl := (hC v).mpr (by omega)
    obtain ⟨i0, hi0, hgi0⟩ := (mem_iff_getD _ _).mp hvC
    have hd0 : mm.twoplusd v = i0 := by
      rw [← hgi0]
      exact hdx i0 hi0
    have hlast : mm.twoplusl.getLastD 0 = mm.twoplusl.getD (mm.twoplusl.length - 1) 0 :=
      getLastD_eq_getD _ (List.ne_nil_of_mem hvC)
    obtain ⟨htl, htd⟩ := fd_tl_eq2 mm r v h2
    rw [hd0] at htl
    have hlen2 : (flipdel mm r v).twoplusl.length = mm.twoplusl.length - 1 := by
      rw [htl, swapRemove_length]
    have hget2 : ∀ j, j < mm.twoplusl.length - 1 →
        (flipdel mm r v).twoplusl.getD j 0 =
          if j = i0 then mm.twoplusl.getLastD 0 else mm.twoplusl.getD j 0 := by
      intro j hj
      rw [htl, swapRemove_getD _ _ _ _ hj]
    have hmem : ∀ w, w ∈ (flipdel mm r v).twoplusl ↔ (w ∈ mm.twoplusl ∧ w ≠ v) := by
      intro w
      rw [mem_iff_getD]
      constructor
      · rintro ⟨j, hj, hgj⟩
        rw [hlen2] at hj
        rw [hget2 j hj] at hgj
        by_cases hji : j = i0
        · rw [if_pos hji, hlast] at hgj
          refine ⟨(mem_iff_getD _ _).mpr ⟨mm.twoplusl.length - 1, by omega, hgj⟩, ?_⟩
          intro hwv
          subst hwv
          rw [← hgi0] at hgj
          have := hndx _ _ (by omega) hi0 hgj
          omega
        · rw [if_neg hji] at hgj
          refine ⟨(mem_iff_getD _ _).mpr ⟨j, by omega, hgj⟩, ?_⟩
          intro hwv
          subst hwv
          rw [← hgi0] at hgj
          exact hji (hndx _ _ (by omega) hi0 hgj)
      · rintro ⟨hw, hwv⟩
        obtain ⟨j, hj, hgj⟩ := (mem_iff_getD _ _).mp hw
        have hji : j ≠ i0 := by
          intro he
          subst he
          rw [hgj] at hgi0
          exact hwv hgi0
        by_cases hjl : j = mm.twoplusl.length - 1
        · have hi0lt : i0 < mm.twoplusl.length - 1 := by omega
          refine ⟨i0, by rw [hlen2]; omega, ?_⟩
          rw [hget2 i0 hi0lt, if_pos rfl, hlast, ← hjl]
          exact hgj
        · refine ⟨j, by rw [hlen2]; omega, ?_⟩
          rw [hget2 j (by omega), if_neg hji]
          exact hgj
    refine ⟨?_, ?_, ?_⟩
    · intro w
      rw [hmem w]
      by_cases hw : w = v
      · subst hw
        rw [fd_slots_len mm r w hr]
        simp [h2]
      · rw [fd_slots_ne mm r v w hw]
        constructor
        · intro hin
          exact (hC w).mp hin.1
        · intro hge
          exact ⟨(hC w).mpr hge, hw⟩
    · apply (nodup_iff_getD _).mpr
      intro j k hj hk heq
      rw [hlen2] at hj hk
      rw [hget2 j hj, hget2 k hk] at heq
      by_cases hji : j = i0 <;> by_cases hki : k = i0
      · omega
      · rw [if_pos hji, if_neg hki, hlast] at heq
        have := hndx _ _ (by omega) (by omega) heq
        omega
      · rw [if_neg hji, if_pos hki, hlast] at heq
        have := hndx _ _ (by omega) (by omega) heq
        omega
      · rw [if_neg hji, if_neg hki] at heq
        exact hndx _ _ (by omega) (by omega) heq
    · intro j hj
      rw [hlen2] at hj
      rw [htd, hd0, hget2 j hj]
      by_cases hji : j = i0
      · rw [if_pos hji, Function.update_same]
        omega
      · rw [if_neg hji, Function.update_noteq]
        · exact hdx j (by omega)
        · rw [hlast]
          intro heq
          have := hndx _ _ (by omega) (by omega) heq
          omega

theorem MRel.cprops {n : Nat} {muls : List Nat} {mm : MState} (h : MRel n muls mm) :
    CProps mm := ⟨h.hC, h.hnd, h.hdx⟩

theorem MRel.of_cprops {n : Nat} {muls : List Nat} {mm : MState}
    (h1 : ∀ v, v ≠ 0 → (↑(mm.slots v) : Multiset Nat) = msSlots n muls v)
    (h2 : CProps mm) : MRel n muls mm := ⟨h1, h2.1, h2.2.1, h2.2.2⟩

theorem count_slots_eq (n : Nat) (muls : List Nat) (mm : MState) (hrel : MRel n muls mm)
    (w a : Nat) (hw : w ≠ 0) :
    Multiset.count a (↑(mm.slots w) : Multiset Nat) =
      if muls.getD a 0 = w ∧ a < n then 1 else 0 := by
  rw [hrel.hs w hw, count_msSlots]

theorem mem_slots_self (n : Nat) (muls : List Nat) (mm : MState) (hrel : MRel n muls mm)
    (s : Nat) (hsn : s < n) (hnz : muls.getD s 0 ≠ 0) :
    s ∈ mm.slots (muls.getD s 0) := by
  have hc := count_slots_eq n muls mm hrel (muls.getD s 0) s hnz
  rw [if_pos ⟨rfl, hsn⟩] at hc
  have : s ∈ (↑(mm.slots (muls.getD s 0)) : Multiset Nat) := by
    rw [← Multiset.count_pos, hc]
    omega
  exact_mod_cast this

theorem count_s_msSlots (n : Nat) (muls : List Nat) (s u : Nat) (hsn : s < n) :
    Multiset.count s (msSlots n muls u) = if muls.getD s 0 = u then 1 else 0 := by
  rw [count_msSlots]
  by_cases h : muls.getD s 0 = u
  · rw [if_pos ⟨h, hsn⟩, if_pos h]
  · rw [if_neg (by tauto), if_neg h]

theorem fd_mid_count (n : Nat) (muls : List Nat) (mm : MState) (s : Nat)
    (hrel : MRel n muls mm) (hsn : s < n) (hold : muls.getD s 0 ≠ 0)
    (w : Nat) (hw : w ≠ 0) (a : Nat) :
    Multiset.count a (↑((flipdel mm s (muls.getD s 0)).slots w) : Multiset Nat) =
      if a = s ∧ w = muls.getD s 0 then 0
      else Multiset.count a (msSlots n muls w) := by
  have hsin : s ∈ mm.slots (muls.getD s 0) := mem_slots_self n muls mm hrel s hsn hold
  by_cases hwo : w = muls.getD s 0
  · rw [hwo, fd_slots_self mm s (muls.getD s 0) hsin]
    by_cases has : a = s
    · subst has
      rw [Multiset.count_erase_self, hrel.hs _ hold, count_s_msSlots n muls a _ hsn,
        if_pos rfl, if_pos ⟨rfl, rfl⟩]
    · rw [Multiset.count_erase_of_ne has, hrel.hs _ hold, if_neg (by tauto)]
  · rw [fd_slots_ne mm s (muls.getD s 0) w hwo, hrel.hs w hw, if_neg (by tauto)]

theorem replaceSlot (n : Nat) (muls : List Nat) (mm : MState) (s nv : Nat)
    (hrel : MRel n muls mm) (hsn : s < n) (hlen : muls.length = n)
    (hold : muls.getD s 0 ≠ 0) :
    MRel n (muls.set s nv) (flipadd (flipdel mm s (muls.getD s 0)) s nv) ∧
    (flipadd (flipdel mm s (muls.getD s 0)) s nv).slots 0 =
      (if nv = 0 then mm.slots 0 ++ [s] else mm.slots 0) := by
  have hsin : s ∈ mm.slots (muls.getD s 0) := mem_slots_self n muls mm hrel s hsn hold
  constructor
  · apply MRel.of_cprops
    · intro w hw
      apply Multiset.ext.mpr
      intro a
      rw [msSlots_set_count n muls s nv w a hsn hlen]
      by_cases hwnv : w = nv
      · subst hwnv
        rw [fa_slots_self, count_append_single,
          fd_mid_count n muls mm s hrel hsn hold w hw a]
        rcases eq_or_ne a s with has | has
        · subst has
          have hc := count_s_msSlots n muls a w hsn
          split_ifs at hc ⊢ <;> omega
        · split_ifs <;> omega
      · rw [fa_slots_ne _ _ _ _ hwnv, fd_mid_count n muls mm s hrel hsn hold w hw a]
        rcases eq_or_ne a s with has | has
        · subst has
          have hc := count_s_msSlots n muls a w hsn
          split_ifs at hc ⊢ <;> omega
        · split_ifs <;> omega
    · exact fa_CProps _ _ _ (fd_CProps _ _ _ hrel.cprops hsin)
  · by_cases hnv : nv = 0
    · subst hnv
      rw [if_pos rfl, fa_slots_self, fd_slots_ne mm s (muls.getD s 0) 0 (Ne.symm hold)]
    · rw [if_neg hnv, fa_slots_ne _ _ _ _ (Ne.symm hnv),
        fd_slots_ne mm s (muls.getD s 0) 0 (Ne.symm hold)]

theorem deleteSlot (n : Nat) (muls : List Nat) (mm : MState) (s : Nat)
    (hrel : MRel n muls mm) (hsn : s < n) (hlen : muls.length = n)
    (hold : muls.getD s 0 ≠ 0) :
    MRel n (muls.set s 0) (flipdel mm s (muls.getD s 0)) ∧
    (flipdel mm s (muls.getD s 0)).slots 0 = mm.slots 0 := by
  have hsin : s ∈ mm.slots (muls.getD s 0) := mem_slots_self n muls mm hrel s hsn hold
  refine ⟨MRel.of_cprops ?_ (fd_CProps _ _ _ hrel.cprops hsin),
    fd_slots_ne mm s (muls.getD s 0) 0 (Ne.symm hold)⟩
  intro w hw
  apply Multiset.ext.mpr
  intro a
  rw [msSlots_set_count n muls s 0 w a hsn hlen,
    fd_mid_count n muls mm s hrel hsn hold w hw a]
  rcases eq_or_ne a s with has | has
  · subst has
    have hc := count_s_msSlots n muls a w hsn
    split_ifs at hc ⊢ <;> omega
  · split_ifs <;> omega

theorem addSlot (n : Nat) (muls : List Nat) (mm : MState) (s nv : Nat)
    (hrel : MRel n muls mm) (hsn : s < n) (hlen : muls.length = n)
    (hzero : muls.getD s 0 = 0) (hnv : nv ≠ 0) :
    MRel n (muls.set s nv) (flipadd mm s nv) ∧
    (flipadd mm s nv).slots 0 = mm.slots 0 := by
  refine ⟨MRel.of_cprops ?_ (fa_CProps _ _ _ hrel.cprops),
    fa_slots_ne mm s nv 0 (Ne.symm hnv)⟩
  intro w hw
  apply Multiset.ext.mpr
  intro a
  rw [msSlots_set_count n muls s nv w a hsn hlen]
  by_cases hwnv : w = nv
  · subst hwnv
    rw [fa_slots_self, count_append_single, hrel.hs w hw]
    rcases eq_or_ne a s with has | has
    · subst has
      have hc := count_s_msSlots n muls a w hsn
      rw [hzero] at hc
      split_ifs at hc ⊢ <;> omega
    · split_ifs <;> omega
  · rw [fa_slots_ne _ _ _ _ hwnv, hrel.hs w hw]
    rcases eq_or_ne a s with has | has
    · subst has
      have hc := count_s_msSlots n muls a w hsn
      rw [hzero] at hc
      split_ifs at hc ⊢ <;> omega
    · split_ifs <;> omega

theorem delZeroSlot (n : Nat) (muls : List Nat) (mm : MState) (r : Nat)
    (hrel : MRel n muls mm) (hr : r ∈ mm.slots 0) :
    MRel n muls (flipdel mm r 0) ∧
    (↑((flipdel mm r 0).slots 0) : Multiset Nat) =
      (↑(mm.slots 0) : Multiset Nat).erase r := by
  refine ⟨MRel.of_cprops ?_ (fd_CProps _ _ _ hrel.cprops hr), fd_slots_self mm r 0 hr⟩
  intro w hw
  rw [fd_slots_ne mm r 0 w hw]
  exact hrel.hs w hw

theorem meF_div (p : Nat) : meF p / 3 = p / 3 := by
  unfold meF
  split_ifs <;> omega

theorem mfF_div (p : Nat) : mfF p / 3 = p / 3 := by
  unfold mfF
  split_ifs <;> omega

theorem meF_lt (p n : Nat) (hp : p < n) (h3 : n % 3 = 0) : meF p < n := by
  unfold meF
  split_ifs <;> omega

theorem mfF_lt (p n : Nat) (hp : p < n) (h3 : n % 3 = 0) : mfF p < n := by
  unfold mfF
  split_ifs <;> omega

theorem meF_ne (p : Nat) : meF p ≠ p := by
  unfold meF
  split_ifs <;> omega

theorem mfF_ne (p : Nat) : mfF p ≠ p := by
  unfold mfF
  split_ifs <;> omega

theorem meF_ne_mfF (p : Nat) : meF p ≠ mfF p := by
  unfold meF mfF
  split_ifs <;> omega

theorem triple_enum (p j : Nat) : (j = p ∨ j = meF p ∨ j = mfF p) ↔ j / 3 = p / 3 := by
  unfold meF mfF
  split_ifs <;> omega

theorem pairSlot_div6 (p : Nat) : pairSlot p / 6 = p / 6 := by
  unfold pairSlot
  split_ifs <;> omega

theorem pairSlot_div3 (p : Nat) : pairSlot p / 3 ≠ p / 3 := by
  unfold pairSlot
  split_ifs <;> omega

theorem pairSlot_lt (p n : Nat) (hp : p < n) (h6 : n % 6 = 0) : pairSlot p < n := by
  unfold pairSlot
  split_ifs <;> omega

theorem sextuple_enum (p j : Nat) :
    (j = p ∨ j = meF p ∨ j = mfF p ∨ j = pairSlot p ∨ j = meF (pairSlot p) ∨
      j = mfF (pairSlot p)) ↔ j / 6 = p / 6 := by
  unfold meF mfF pairSlot
  split_ifs <;> omega

theorem tripleLive (n : Nat) (muls : List Nat)
    (htri : ∀ t, 3 * t + 2 < n →
      (muls.getD (3 * t) 0 ≠ 0 ∧ muls.getD (3 * t + 1) 0 ≠ 0 ∧
       muls.getD (3 * t + 2) 0 ≠ 0) ∨
      (muls.getD (3 * t) 0 = 0 ∧ muls.getD (3 * t + 1) 0 = 0 ∧
       muls.getD (3 * t + 2) 0 = 0))
    (p : Nat) (hp : p < n) (h3 : n % 3 = 0) (hpd : muls.getD p 0 ≠ 0) :
    ∀ j, j / 3 = p / 3 → muls.getD j 0 ≠ 0 := by
  intro j hj
  have ht := htri (p / 3) (by omega)
  have hpe : p = 3 * (p / 3) ∨ p = 3 * (p / 3) + 1 ∨ p = 3 * (p / 3) + 2 := by omega
  have hje : j = 3 * (p / 3) ∨ j = 3 * (p / 3) + 1 ∨ j = 3 * (p / 3) + 2 := by omega
  rcases ht with ⟨h1, h2, h3x⟩ | ⟨h1, h2, h3x⟩
  · rcases hje with he | he | he <;> rw [he] <;> assumption
  · exfalso
    rcases hpe with he | he | he <;> rw [he] at hpd <;> contradiction

theorem sextupleLive (n : Nat) (muls : List Nat)
    (hsex : ∀ t, 6 * t + 5 < n →
      (∀ j, j < 6 → muls.getD (6 * t + j) 0 ≠ 0) ∨
      (∀ j, j < 6 → muls.getD (6 * t + j) 0 = 0))
    (p : Nat) (hp : p < n) (h6 : n % 6 = 0) (hpd : muls.getD p 0 ≠ 0) :
    ∀ j, j / 6 = p / 6 → muls.getD j 0 ≠ 0 := by
  intro j hj
  have ht := hsex (p / 6) (by omega)
  rcases ht with h | h
  · have hje : 6 * (p / 6) + (j - 6 * (p / 6)) = j ∧ j - 6 * (p / 6) < 6 := by omega
    have h2 := h (j - 6 * (p / 6)) hje.2
    rw [hje.1] at h2
    exact h2
  · exfalso
    have hpe : 6 * (p / 6) + (p - 6 * (p / 6)) = p ∧ p - 6 * (p / 6) < 6 := by omega
    have h2 := h (p - 6 * (p / 6)) hpe.2
    rw [hpe.1] at h2
    exact hpd h2

theorem countP_set_add (l : List Nat) (k x : Nat) (hk : k < l.length) :
    (l.set k x).countP (fun m => m != 0) + (if l.getD k 0 ≠ 0 then 1 else 0) =
      l.countP (fun m => m != 0) + (if x ≠ 0 then 1 else 0) := by
  induction l generalizing k with
  | nil => simp at hk
  | cons a t ih =>
    cases k with
    | zero =>
      simp only [List.set_cons_zero, List.countP_cons, List.getD_cons_zero,
        bne_iff_ne, ne_eq]
      split_ifs <;> omega
    | succ k2 =>
      simp only [List.set_cons_succ, List.countP_cons, List.getD_cons_succ,
        bne_iff_ne, ne_eq]
      have hih := ih k2 (by simpa using hk)
      split_ifs at hih ⊢ <;> omega

theorem findIdx_zero_lt (l : List Nat) (h : l.countP (fun m => m != 0) < l.length) :
    l.findIdx (fun m => m == 0) < l.length := by
  apply List.findIdx_lt_length_of_exists
  by_contra hno
  push_neg at hno
  have : ∀ a ∈ l, (fun m => m != 0) a := by
    intro a ha
    have := hno a ha
    simp at this ⊢
    exact this
  rw [← List.countP_eq_length] at this
  omega

theorem findIdx_zero_getD (l : List Nat) (h : l.findIdx (fun m => m == 0) < l.length) :
    l.getD (l.findIdx (fun m => m == 0)) 0 = 0 := by
  rw [List.getD_eq_getElem _ _ h]
  have := @List.findIdx_getElem _ _ _ h
  simpa using this

theorem findIdx_zero_min (l : List Nat) (j : Nat)
    (hj : j < l.findIdx (fun m => m == 0)) (hjl : j < l.length) :
    l.getD j 0 ≠ 0 := by
  rw [List.getD_eq_getElem _ _ hjl]
  have := @List.not_of_lt_findIdx _ _ l _ hj
  simpa using this

theorem list_ext_getD (l1 l2 : List Nat) (hl : l1.length = l2.length)
    (h : ∀ j, j < l1.length → l1.getD j 0 = l2.getD j 0) : l1 = l2 := by
  apply List.ext_getElem hl
  intro i hi1 hi2
  have := h i hi1
  rw [List.getD_eq_getElem _ _ hi1, List.getD_eq_getElem _ _ hi2] at this
  exact this

theorem set_getD_self_eq (l : List Nat) (i : Nat) : l.set i (l.getD i 0) = l := by
  induction l generalizing i with
  | nil => rfl
  | cons a t ih =>
    cases i with
    | zero => rfl
    | succ j => simpa using ih j

theorem pairSlot_meF (p : Nat) : meF (pairSlot p) = pairSlot (meF p) := by
  unfold meF pairSlot
  split_ifs <;> omega

theorem pairSlot_mfF (p : Nat) : mfF (pairSlot p) = pairSlot (mfF p) := by
  unfold mfF pairSlot
  split_ifs <;> omega

theorem blockP_len (x : Nat) : (blockP x).length = 2 * x := by
  have hgen : ∀ l : List Nat, (l.flatMap (fun y => [x, y])).length = 2 * l.length := by
    intro l
    induction l with
    | nil => rfl
    | cons a t ih =>
      rw [List.flatMap_cons, List.length_append, ih, List.length_cons]
      simp
      omega
  unfold blockP
  rw [hgen, List.length_range]

theorem blockQ_len (x : Nat) : (blockQ x).length = 2 * x := by
  have hgen : ∀ l : List Nat, (l.flatMap (fun y => [y, x])).length = 2 * l.length := by
    intro l
    induction l with
    | nil => rfl
    | cons a t ih =>
      rw [List.flatMap_cons, List.length_append, ih, List.length_cons]
      simp
      omega
  unfold blockQ
  rw [hgen, List.length_range]

theorem flatMap_pair_getD (f g : Nat → Nat) (l : List Nat) (i : Nat)
    (hi : i < 2 * l.length) :
    (l.flatMap (fun y => [f y, g y])).getD i 0 =
      if i % 2 = 0 then f (l.getD (i / 2) 0) else g (l.getD (i / 2) 0) := by
  induction l generalizing i with
  | nil => simp at hi
  | cons a t ih =>
    rcases i with _ | _ | j
    · rfl
    · rfl
    · have hj : j < 2 * t.length := by simp at hi; omega
      have h1 : (j + 2) % 2 = j % 2 := by omega
      have h2 : (j + 2) / 2 = j / 2 + 1 := by omega
      rw [List.flatMap_cons]
      show (t.flatMap (fun y => [f y, g y])).getD j 0 = _
      rw [ih j hj, h1, h2]
      rfl

theorem range_getD (x j : Nat) (hj : j < x) : (List.range x).getD j 0 = j := by
  rw [List.getD_eq_getElem _ _ (by simpa using hj), List.getElem_range]

theorem blockP_getD (x i : Nat) (hi : i < 2 * x) :
    (blockP x).getD i 0 = if i % 2 = 0 then x else i / 2 := by
  unfold blockP
  rw [flatMap_pair_getD _ _ _ _ (by simpa using hi), range_getD x (i / 2) (by omega)]

theorem blockQ_getD (x i : Nat) (hi : i < 2 * x) :
    (blockQ x).getD i 0 = if i % 2 = 0 then i / 2 else x := by
  unfold blockQ
  rw [flatMap_pair_getD _ _ _ _ (by simpa using hi), range_getD x (i / 2) (by omega)]

theorem tablesAux_len (k : Nat) :
    (tablesAux k).2.1.length = k * (k + 1) ∧ (tablesAux k).2.2.length = k * (k + 1) ∧
    (tablesAux k).1.length = k + 2 := by
  induction k with
  | zero => exact ⟨rfl, rfl, rfl⟩
  | succ j ih =>
    obtain ⟨h1, h2, h3⟩ := ih
    refine ⟨?_, ?_, ?_⟩ <;>
      simp only [tablesAux, List.length_append, h1, h2, h3, blockP_len, blockQ_len,
        List.length_cons, List.length_nil] <;> ring

theorem tablesAux_stable (k j x : Nat) (hx : x < k * (k + 1)) :
    (tablesAux (k + j)).2.1.getD x 0 = (tablesAux k).2.1.getD x 0 ∧
    (tablesAux (k + j)).2.2.getD x 0 = (tablesAux k).2.2.getD x 0 := by
  induction j with
  | zero => exact ⟨rfl, rfl⟩
  | succ i ih =>
    have hlt1 : x < (tablesAux (k + i)).2.1.length := by
      rw [(tablesAux_len (k + i)).1]
      have : k * (k + 1) ≤ (k + i) * (k + i + 1) := Nat.mul_le_mul (by omega) (by omega)
      omega
    have hlt2 : x < (tablesAux (k + i)).2.2.length := by
      rw [(tablesAux_len (k + i)).2.1]
      have : k * (k + 1) ≤ (k + i) * (k + i + 1) := Nat.mul_le_mul (by omega) (by omega)
      omega
    have e1 : (tablesAux (k + (i + 1))).2.1 =
        (tablesAux (k + i)).2.1 ++ blockP (k + i + 1) := rfl
    have e2 : (tablesAux (k + (i + 1))).2.2 =
        (tablesAux (k + i)).2.2 ++ blockQ (k + i + 1) := rfl
    rw [e1, e2, getD_append_lt _ _ _ hlt1, getD_append_lt _ _ _ hlt2]
    exact ih

theorem tablesAux_bound (k : Nat) : ∀ x, x < k * (k + 1) →
    (tablesAux k).2.1.getD x 0 ≤ k ∧ (tablesAux k).2.2.getD x 0 ≤ k ∧
    (tablesAux k).2.1.getD x 0 ≠ (tablesAux k).2.2.getD x 0 := by
  induction k with
  | zero => intro x hx; omega
  | succ j ih =>
    intro x hx
    have e1 : (tablesAux (j + 1)).2.1 = (tablesAux j).2.1 ++ blockP (j + 1) := rfl
    have e2 : (tablesAux (j + 1)).2.2 = (tablesAux j).2.2 ++ blockQ (j + 1) := rfl
    by_cases hz : x < j * (j + 1)
    · rw [e1, e2, getD_append_lt _ _ _ (by rw [(tablesAux_len j).1]; omega),
        getD_append_lt _ _ _ (by rw [(tablesAux_len j).2.1]; omega)]
      obtain ⟨b1, b2, b3⟩ := ih x hz
      exact ⟨by omega, by omega, b3⟩
    · have hilen : (tablesAux j).2.1.length = j * (j + 1) := (tablesAux_len j).1
      have hilen2 : (tablesAux j).2.2.length = j * (j + 1) := (tablesAux_len j).2.1
      have hy : x - j * (j + 1) < 2 * (j + 1) := by
        have hje : (j + 1) * (j + 1 + 1) = j * (j + 1) + 2 * (j + 1) := by ring
        omega
      have g1 : ((tablesAux j).2.1 ++ blockP (j + 1)).getD x 0 =
          (blockP (j + 1)).getD (x - j * (j + 1)) 0 := by
        rw [List.getD_eq_getElem?_getD, List.getElem?_append_right (by omega),
          ← List.getD_eq_getElem?_getD, hilen]
      have g2 : ((tablesAux j).2.2 ++ blockQ (j + 1)).getD x 0 =
          (blockQ (j + 1)).getD (x - j * (j + 1)) 0 := by
        rw [List.getD_eq_getElem?_getD, List.getElem?_append_right (by omega),
          ← List.getD_eq_getElem?_getD, hilen2]
      rw [e1, e2, g1, g2, blockP_getD _ _ hy, blockQ_getD _ _ hy]
      split_ifs <;> omega

theorem tablesAux_combs_lo (k : Nat) :
    (tablesAux k).1.getD 0 0 = 0 ∧ (tablesAux k).1.getD 1 0 = 0 := by
  induction k with
  | zero => exact ⟨rfl, rfl⟩
  | succ j ih =>
    have e : (tablesAux (j + 1)).1 =
        (tablesAux j).1 ++ [((tablesAux j).2.1 ++ blockP (j + 1)).length] := rfl
    have hl : (tablesAux j).1.length = j + 2 := (tablesAux_len j).2.2
    rw [e, getD_append_lt _ _ _ (by omega), getD_append_lt _ _ _ (by omega)]
    exact ih

theorem tablesAux_combs (k : Nat) : ∀ i, 2 ≤ i → i ≤ k + 1 →
    (tablesAux k).1.getD i 0 = (i - 1) * i := by
  induction k with
  | zero => intro i h2 h1; omega
  | succ j ih =>
    intro i h2 hi
    have e : (tablesAux (j + 1)).1 =
        (tablesAux j).1 ++ [((tablesAux j).2.1 ++ blockP (j + 1)).length] := rfl
    have hl : (tablesAux j).1.length = j + 2 := (tablesAux_len j).2.2
    by_cases hc : i ≤ j + 1
    · rw [e, getD_append_lt _ _ _ (by omega)]
      exact ih i h2 hc
    · have hie : i = j + 2 := by omega
      have hval : ((tablesAux j).2.1 ++ blockP (j + 1)).length = (j + 1) * (j + 2) := by
        rw [List.length_append, (tablesAux_len j).1, blockP_len]; ring
      rw [e, show i = (tablesAux j).1.length from by omega, getD_append_eq, hval, hl]
      have h21 : j + 2 - 1 = j + 1 := by omega
      rw [h21]

theorem combsT_len : combsT.length = 81 := (tablesAux_len 79).2.2

theorem combsT_spec (l : Nat) (h : combsT.getD l 0 ≠ 0) :
    2 ≤ l ∧ l ≤ 80 ∧ combsT.getD l 0 = (l - 1) * l := by
  rcases Nat.lt_or_ge l 81 with hl | hl
  · rcases Nat.lt_or_ge l 2 with h2 | h2
    · exfalso
      interval_cases l
      · exact h (tablesAux_combs_lo 79).1
      · exact h (tablesAux_combs_lo 79).2
    · exact ⟨h2, by omega, tablesAux_combs 79 l h2 (by omega)⟩
  · exfalso
    apply h
    rw [List.getD_eq_default]
    rw [combsT_len]
    omega

theorem psqs_bound (l x : Nat) (h2 : 2 ≤ l) (h80 : l ≤ 80) (hx : x < (l - 1) * l) :
    psT.getD x 0 < l ∧ qsT.getD x 0 < l ∧ psT.getD x 0 ≠ qsT.getD x 0 := by
  have hx1 : x < (l - 1) * ((l - 1) + 1) := by
    have : (l - 1) + 1 = l := by omega
    rw [this]; exact hx
  have hst := tablesAux_stable (l - 1) (80 - l) x hx1
  have h79 : (l - 1) + (80 - l) = 79 := by omega
  rw [h79] at hst
  have hb := tablesAux_bound (l - 1) x hx1
  unfold psT qsT
  rw [hst.1, hst.2]
  exact ⟨by omega, by omega, hb.2.2⟩

theorem getD_mem (l : List Nat) (i : Nat) (h : i < l.length) : l.getD i 0 ∈ l := by
  rw [getD_lt _ _ h]
  exact List.get_mem _ _ _

theorem pickPQ_mem (mm : MState) (sample p q : Nat)
    (hlen : mm.twoplusl.length ≠ 0) (h : pickPQ mm sample = some (p, q)) :
    ∃ v, v ∈ mm.twoplusl ∧ p ∈ mm.slots v ∧ q ∈ mm.slots v := by
  unfold pickPQ at h
  simp only at h
  refine ⟨mm.twoplusl.getD (sample % mm.twoplusl.length) 0,
    getD_mem _ _ (Nat.mod_lt _ (by omega)), ?_⟩
  split_ifs at h with h1 h2 h3
  · simp only [Option.some.injEq, Prod.mk.injEq] at h
    exact ⟨h.1 ▸ getD_mem _ _ (by omega), h.2 ▸ getD_mem _ _ (by omega)⟩
  · simp only [Option.some.injEq, Prod.mk.injEq] at h
    exact ⟨h.1 ▸ getD_mem _ _ (by omega), h.2 ▸ getD_mem _ _ (by omega)⟩
  · simp only [Option.some.injEq, Prod.mk.injEq] at h
    obtain ⟨hc2, hc80, hcv⟩ := combsT_spec _ h3
    have hxlt : (sample >>> 16) %
        combsT.getD (mm.slots (mm.twoplusl.getD (sample % mm.twoplusl.length) 0)).length 0 <
        ((mm.slots (mm.twoplusl.getD (sample % mm.twoplusl.length) 0)).length - 1) *
        (mm.slots (mm.twoplusl.getD (sample % mm.twoplusl.length) 0)).length := by
      rw [← hcv]
      exact Nat.mod_lt _ (by omega)
    obtain ⟨hp, hq, hne⟩ := psqs_bound _ _ hc2 hc80 hxlt
    exact ⟨h.1 ▸ getD_mem _ _ (by omega), h.2 ▸ getD_mem _ _ (by omega)⟩

theorem sample0_ok (symm : Nat) (mm : MState) (stream : Nat → Nat) :
    ∀ fuel rix p q rix1, sample0 symm mm stream fuel rix = .ok p q rix1 →
    ∃ v, v ∈ mm.twoplusl ∧ p ∈ mm.slots v ∧ q ∈ mm.slots v ∧
      permitF symm p q = true := by
  intro fuel
  induction fuel with
  | zero => intro rix p q rix1 h; exact absurd h (by simp [sample0])
  | succ k ih =>
    intro rix p q rix1 h
    unfold sample0 at h
    simp only at h
    by_cases hl : mm.twoplusl.length = 0
    · rw [if_pos hl] at h
      exact absurd h (by simp)
    · rw [if_neg hl] at h
      rcases hpk : pickPQ mm (stream rix % 2 ^ 32) with _ | ⟨a, b⟩
      · rw [hpk] at h
        exact absurd h (by simp)
      · rw [hpk] at h
        simp only at h
        rw [ite_eq_iff] at h
        rcases h with ⟨hperm, h⟩ | ⟨hperm, h⟩
        · obtain ⟨v, hv, ha, hb⟩ := pickPQ_mem mm _ a b hl hpk
          cases h
          exact ⟨v, hv, ha, hb, hperm⟩
        · exact ih _ _ _ _ h

theorem samplePos_ok (symm : Nat) (maxsize : Int) (muls : List Nat) (mm : MState)
    (stream : Nat → Nat) :
    ∀ fuel rix p q rix1, samplePos symm maxsize muls mm stream fuel rix = .ok p q rix1 →
    ∃ v, v ∈ mm.twoplusl ∧ p ∈ mm.slots v ∧ q ∈ mm.slots v ∧
      permitF symm p q = true := by
  intro fuel
  induction fuel with
  | zero => intro rix p q rix1 h; exact absurd h (by simp [samplePos])
  | succ k ih =>
    intro rix p q rix1 h
    unfold samplePos at h
    simp only at h
    by_cases hl : mm.twoplusl.length = 0
    · rw [if_pos hl] at h
      exact absurd h (by simp)
    · rw [if_neg hl] at h
      rcases hpk : pickPQ mm (stream rix % 2 ^ 32) with _ | ⟨a, b⟩
      · rw [hpk] at h
        exact absurd h (by simp)
      · rw [hpk] at h
        simp only at h
        rw [ite_eq_iff] at h
        rcases h with ⟨hperm, h⟩ | ⟨hperm, h⟩
        · obtain ⟨v, hv, ha, hb⟩ := pickPQ_mem mm _ a b hl hpk
          cases h
          exact ⟨v, hv, ha, hb, hperm.1⟩
        · exact ih _ _ _ _ h

theorem sampleNeg_ok (symm : Nat) (maxsize : Int) (muls : List Nat) (mm : MState)
    (stream : Nat → Nat) :
    ∀ fuel rix p q rix1, sampleNeg symm maxsize muls mm stream fuel rix = .ok p q rix1 →
    ∃ v, v ∈ mm.twoplusl ∧ p ∈ mm.slots v ∧ q ∈ mm.slots v ∧
      permitF symm p q = true := by
  intro fuel
  induction fuel with
  | zero => intro rix p q rix1 h; exact absurd h (by simp [sampleNeg])
  | succ k ih =>
    intro rix p q rix1 h
    unfold sampleNeg at h
    simp only at h
    by_cases hl : mm.twoplusl.length = 0
    · rw [if_pos hl] at h
      exact absurd h (by simp)
    · rw [if_neg hl] at h
      rcases hpk : pickPQ mm (stream rix % 2 ^ 32) with _ | ⟨a, b⟩
      · rw [hpk] at h
        exact absurd h (by simp)
      · rw [hpk] at h
        simp only at h
        rw [ite_eq_iff] at h
        rcases h with ⟨hperm, h⟩ | ⟨hperm, h⟩
        · obtain ⟨v, hv, ha, hb⟩ := pickPQ_mem mm _ a b hl hpk
          cases h
          exact ⟨v, hv, ha, hb, hperm.1⟩
        · exact ih _ _ _ _ h

theorem sampler_ok (symm : Nat) (maxsize : Int) (muls : List Nat) (mm : MState)
    (stream : Nat → Nat) (sfuel rix p q rix1 : Nat)
    (h : (if maxsize = 0 then sample0 symm mm stream sfuel rix
          else if 0 < maxsize then samplePos symm maxsize muls mm stream 1000 rix
          else sampleNeg symm maxsize muls mm stream 1000 rix) = .ok p q rix1) :
    ∃ v, v ∈ mm.twoplusl ∧ p ∈ mm.slots v ∧ q ∈ mm.slots v ∧
      permitF symm p q = true := by
  by_cases h0 : maxsize = 0
  · rw [if_pos h0] at h
    exact sample0_ok symm mm stream sfuel rix p q rix1 h
  · rw [if_neg h0] at h
    by_cases hpos : 0 < maxsize
    · rw [if_pos hpos] at h
      exact samplePos_ok symm maxsize muls mm stream 1000 rix p q rix1 h
    · rw [if_neg hpos] at h
      exact sampleNeg_ok symm maxsize muls mm stream 1000 rix p q rix1 h

theorem plusAccept3_ok (cfg : Cfg) (muls : List Nat) (stream : Nat → Nat)
    (hn : 0 < cfg.nomuls) :
    ∀ fuel rix p q rix1, plusAccept3 cfg muls stream fuel rix = some (p, q, rix1) →
    p < cfg.nomuls ∧ q < cfg.nomuls ∧ permitF cfg.symm p q = true ∧
    muls.getD p 0 ≠ 0 ∧ muls.getD q 0 ≠ 0 ∧
    muls.getD p 0 ≠ muls.getD q 0 ∧
    muls.getD (meF p) 0 ≠ muls.getD (meF q) 0 ∧
    muls.getD (mfF p) 0 ≠ muls.getD (mfF q) 0 := by
  intro fuel
  induction fuel with
  | zero => intro rix p q rix1 h; exact absurd h (by simp [plusAccept3])
  | succ k ih =>
    intro rix p q rix1 h
    unfold plusAccept3 at h
    rw [ite_eq_iff] at h
    rcases h with ⟨hacc, h⟩ | ⟨hacc, h⟩
    · simp only [Option.some.injEq, Prod.mk.injEq] at h
      obtain ⟨hp, hq, _⟩ := h
      subst hp
      subst hq
      obtain ⟨_, h1, h2, h3, h4, h5, h6⟩ := hacc
      exact ⟨Nat.mod_lt _ hn, Nat.mod_lt _ hn, h6, h1, h2, h3, h4, h5⟩
    · exact ih _ _ _ _ h

theorem plusAccept6_ok (cfg : Cfg) (muls : List Nat) (stream : Nat → Nat)
    (hn : 0 < cfg.nomuls) :
    ∀ fuel rix p q rix1, plusAccept6 cfg muls stream fuel rix = some (p, q, rix1) →
    p < cfg.nomuls ∧ q < cfg.nomuls ∧ permitF cfg.symm p q = true ∧
    muls.getD p 0 ≠ 0 ∧ muls.getD q 0 ≠ 0 ∧
    muls.getD (pairSlot p) 0 ≠ 0 ∧ muls.getD (pairSlot q) 0 ≠ 0 ∧
    muls.getD p 0 ≠ muls.getD q 0 ∧
    muls.getD (meF p) 0 ≠ muls.getD (meF q) 0 ∧
    muls.getD (mfF p) 0 ≠ muls.getD (mfF q) 0 ∧
    muls.getD (pairSlot p) 0 ≠ muls.getD (pairSlot q) 0 ∧
    muls.getD (meF (pairSlot p)) 0 ≠ muls.getD (meF (pairSlot q)) 0 ∧
    muls.getD (mfF (pairSlot p)) 0 ≠ muls.getD (mfF (pairSlot q)) 0 := by
  intro fuel
  induction fuel with
  | zero => intro rix p q rix1 h; exact absurd h (by simp [plusAccept6])
  | succ k ih =>
    intro rix p q rix1 h
    unfold plusAccept6 at h
    rw [ite_eq_iff] at h
    rcases h with ⟨hacc, h⟩ | ⟨hacc, h⟩
    · simp only [Option.some.injEq, Prod.mk.injEq] at h
      obtain ⟨hp, hq, _⟩ := h
      subst hp
      subst hq
      obtain ⟨_, h1, h2, h3, h4, h5, h6, h7, h8, h9, h10, h11⟩ := hacc
      exact ⟨Nat.mod_lt _ hn, Nat.mod_lt _ hn, h11, h1, h2, h3, h4, h5, h6, h7, h8,
        h9, h10⟩
    · exact ih _ _ _ _ h

theorem EngInv_transport (n : Nat) (s t : SState) (h : EngInv n s)
    (hm : t.muls = s.muls) (hmm : t.mm = s.mm) (ha : t.achieved = s.achieved)
    (hb : t.best.length = n) : EngInv n t := by
  refine ⟨?_, ?_, ?_, hb, ?_, ?_⟩
  · rw [hm, hmm]; exact h.rel
  · rw [hmm]; exact h.hz
  · rw [hm]; exact h.hlen
  · rw [hm]; exact h.htri
  · rw [hm, ha]; exact h.hach

theorem EngInv6_transport (n : Nat) (s t : SState) (h : EngInv6 n s)
    (hm : t.muls = s.muls) (hmm : t.mm = s.mm) (ha : t.achieved = s.achieved)
    (hb : t.best.length = n) : EngInv6 n t := by
  refine ⟨?_, ?_, ?_, hb, ?_, ?_⟩
  · rw [hm, hmm]; exact h.rel
  · rw [hmm]; exact h.hz
  · rw [hm]; exact h.hlen
  · rw [hm]; exact h.hsex
  · rw [hm, ha]; exact h.hach

theorem achieved_le (n : Nat) (s : SState) (h : EngInv n s) : s.achieved ≤ (n : Int) := by
  rw [h.hach]
  have := @List.countP_le_length _ (fun m => m != 0) s.muls
  rw [h.hlen] at this
  exact_mod_cast this

theorem achieved6_le (n : Nat) (s : SState) (h : EngInv6 n s) : s.achieved ≤ (n : Int) := by
  rw [h.hach]
  have := @List.countP_le_length _ (fun m => m != 0) s.muls
  rw [h.hlen] at this
  exact_mod_cast this

theorem xor_ne_zero (a b : Nat) (h : a ≠ b) : a ^^^ b ≠ 0 := by
  intro h0
  exact h (Nat.xor_eq_zero.mp h0)

theorem ne_of_div3_ne (a b : Nat) (h : a / 3 ≠ b / 3) : a ≠ b := by
  intro he
  exact h (by rw [he])

theorem permitF_div (symm p q : Nat) (h : permitF symm p q = true) :
    p / symm ≠ q / symm := by
  unfold permitF at h
  simpa using h

theorem tripleZero (n : Nat) (muls : List Nat)
    (htri : ∀ t, 3 * t + 2 < n →
      (muls.getD (3 * t) 0 ≠ 0 ∧ muls.getD (3 * t + 1) 0 ≠ 0 ∧
       muls.getD (3 * t + 2) 0 ≠ 0) ∨
      (muls.getD (3 * t) 0 = 0 ∧ muls.getD (3 * t + 1) 0 = 0 ∧
       muls.getD (3 * t + 2) 0 = 0))
    (p : Nat) (hp : p < n) (h3 : n % 3 = 0) (hpd : muls.getD p 0 = 0) :
    ∀ j, j / 3 = p / 3 → muls.getD j 0 = 0 := by
  intro j hj
  have ht := htri (p / 3) (by omega)
  have hpe : p = 3 * (p / 3) ∨ p = 3 * (p / 3) + 1 ∨ p = 3 * (p / 3) + 2 := by omega
  have hje : j = 3 * (p / 3) ∨ j = 3 * (p / 3) + 1 ∨ j = 3 * (p / 3) + 2 := by omega
  rcases ht with ⟨h1, h2, h3x⟩ | ⟨h1, h2, h3x⟩
  · exfalso
    rcases hpe with he | he | he <;> rw [he] at hpd <;> contradiction
  · rcases hje with he | he | he <;> rw [he] <;> assumption

theorem sextupleZero (n : Nat) (muls : List Nat)
    (hsex : ∀ t, 6 * t + 5 < n →
      (∀ j, j < 6 → muls.getD (6 * t + j) 0 ≠ 0) ∨
      (∀ j, j < 6 → muls.getD (6 * t + j) 0 = 0))
    (p : Nat) (hp : p < n) (h6 : n % 6 = 0) (hpd : muls.getD p 0 = 0) :
    ∀ j, j / 6 = p / 6 → muls.getD j 0 = 0 := by
  intro j hj
  have ht := hsex (p / 6) (by omega)
  rcases ht with h | h
  · exfalso
    have hpe : 6 * (p / 6) + (p - 6 * (p / 6)) = p ∧ p - 6 * (p / 6) < 6 := by omega
    have h2 := h (p - 6 * (p / 6)) hpe.2
    rw [hpe.1] at h2
    exact h2 hpd
  · have hje : 6 * (p / 6) + (j - 6 * (p / 6)) = j ∧ j - 6 * (p / 6) < 6 := by omega
    have h2 := h (j - 6 * (p / 6)) hje.2
    rw [hje.1] at h2
    exact h2

theorem chain2_getD (m : List Nat) (a1 a2 v1 v2 j : Nat)
    (h1 : a1 < m.length) (h2 : a2 < m.length) :
    ((m.set a1 v1).set a2 v2).getD j 0 =
      if j = a2 then v2 else if j = a1 then v1 else m.getD j 0 := by
  by_cases e2 : j = a2
  · subst e2
    rw [if_pos rfl, getD_set_self _ _ _ (by simpa using h2)]
  · rw [if_neg e2, getD_set_ne _ _ _ _ (fun hh => e2 hh.symm)]
    by_cases e1 : j = a1
    · subst e1
      rw [if_pos rfl, getD_set_self _ _ _ h1]
    · rw [if_neg e1, getD_set_ne _ _ _ _ (fun hh => e1 hh.symm)]

theorem chain3_getD (m : List Nat) (a1 a2 a3 v1 v2 v3 j : Nat)
    (h1 : a1 < m.length) (h2 : a2 < m.length) (h3 : a3 < m.length) :
    (((m.set a1 v1).set a2 v2).set a3 v3).getD j 0 =
      if j = a3 then v3 else if j = a2 then v2 else if j = a1 then v1
      else m.getD j 0 := by
  by_cases e3 : j = a3
  · subst e3
    rw [if_pos rfl, getD_set_self _ _ _ (by simpa using h3)]
  · rw [if_neg e3, getD_set_ne _ _ _ _ (fun hh => e3 hh.symm), chain2_getD _ _ _ _ _ _ h1 h2]

theorem chain4_getD (m : List Nat) (a1 a2 a3 a4 v1 v2 v3 v4 j : Nat)
    (h1 : a1 < m.length) (h2 : a2 < m.length) (h3 : a3 < m.length) (h4 : a4 < m.length) :
    ((((m.set a1 v1).set a2 v2).set a3 v3).set a4 v4).getD j 0 =
      if j = a4 then v4 else if j = a3 then v3 else if j = a2 then v2
      else if j = a1 then v1 else m.getD j 0 := by
  by_cases e4 : j = a4
  · subst e4
    rw [if_pos rfl, getD_set_self _ _ _ (by simpa using h4)]
  · rw [if_neg e4, getD_set_ne _ _ _ _ (fun hh => e4 hh.symm),
      chain3_getD _ _ _ _ _ _ _ _ h1 h2 h3]

theorem chain6_getD (m : List Nat) (a1 a2 a3 a4 a5 a6 v1 v2 v3 v4 v5 v6 j : Nat)
    (h1 : a1 < m.length) (h2 : a2 < m.length) (h3 : a3 < m.length)
    (h4 : a4 < m.length) (h5 : a5 < m.length) (h6 : a6 < m.length) :
    ((((((m.set a1 v1).set a2 v2).set a3 v3).set a4 v4).set a5 v5).set a6 v6).getD j 0 =
      if j = a6 then v6 else if j = a5 then v5 else if j = a4 then v4
      else if j = a3 then v3 else if j = a2 then v2 else if j = a1 then v1
      else m.getD j 0 := by
  by_cases e6 : j = a6
  · subst e6
    rw [if_pos rfl, getD_set_self _ _ _ (by simpa using h6)]
  · rw [if_neg e6, getD_set_ne _ _ _ _ (fun hh => e6 hh.symm)]
    by_cases e5 : j = a5
    · subst e5
      rw [if_pos rfl, getD_set_self _ _ _ (by simpa using h5)]
    · rw [if_neg e5, getD_set_ne _ _ _ _ (fun hh => e5 hh.symm),
        chain4_getD _ _ _ _ _ _ _ _ _ _ h1 h2 h3 h4]

theorem chain9_getD (m : List Nat) (a1 a2 a3 a4 a5 a6 a7 a8 a9
    v1 v2 v3 v4 v5 v6 v7 v8 v9 j : Nat)
    (h1 : a1 < m.length) (h2 : a2 < m.length) (h3 : a3 < m.length)
    (h4 : a4 < m.length) (h5 : a5 < m.length) (h6 : a6 < m.length)
    (h7 : a7 < m.length) (h8 : a8 < m.length) (h9 : a9 < m.length) :
    (((((((((m.set a1 v1).set a2 v2).set a3 v3).set a4 v4).set a5 v5).set a6
        v6).set a7 v7).set a8 v8).set a9 v9).getD j 0 =
      if j = a9 then v9 else if j = a8 then v8 else if j = a7 then v7
      else if j = a6 then v6 else if j = a5 then v5 else if j = a4 then v4
      else if j = a3 then v3 else if j = a2 then v2 else if j = a1 then v1
      else m.getD j 0 := by
  by_cases e9 : j = a9
  · subst e9
    rw [if_pos rfl, getD_set_self _ _ _ (by simpa using h9)]
  · rw [if_neg e9, getD_set_ne _ _ _ _ (fun hh => e9 hh.symm)]
    by_cases e8 : j = a8
    · subst e8
      rw [if_pos rfl, getD_set_self _ _ _ (by simpa using h8)]
    · rw [if_neg e8, getD_set_ne _ _ _ _ (fun hh => e8 hh.symm)]
      by_cases e7 : j = a7
      · subst e7
        rw [if_pos rfl, getD_set_self _ _ _ (by simpa using h7)]
      · rw [if_neg e7, getD_set_ne _ _ _ _ (fun hh => e7 hh.symm),
          chain6_getD _ _ _ _ _ _ _ _ _ _ _ _ _ _ h1 h2 h3 h4 h5 h6]

set_option maxHeartbeats 2000000 in
theorem plusMuls3_red (m : List Nat) (p q r : Nat)
    (hp : p < m.length) (hq : q < m.length) (hr : r < m.length)
    (h3 : m.length % 3 = 0)
    (hdq : p / 3 ≠ q / 3) (hrp : r / 3 ≠ p / 3) (hrq : r / 3 ≠ q / 3) :
    ((((((((m.set p (m.getD p 0)).set (meF p)
        (m.getD (meF p) 0 ^^^ m.getD (meF q) 0)).set (mfF p) (m.getD (mfF p) 0)).set
        q (m.getD p 0)).set (meF q) (m.getD (meF q) 0)).set (mfF q)
        (m.getD (mfF p) 0 ^^^ m.getD (mfF q) 0)).set r
        (m.getD p 0 ^^^ m.getD q 0)).set (meF r) (m.getD (meF q) 0)).set (mfF r)
        (m.getD (mfF q) 0) =
      (((((m.set (meF p) (m.getD (meF p) 0 ^^^ m.getD (meF q) 0)).set q
        (m.getD p 0)).set (mfF q) (m.getD (mfF p) 0 ^^^ m.getD (mfF q) 0)).set r
        (m.getD p 0 ^^^ m.getD q 0)).set (meF r) (m.getD (meF q) 0)).set (mfF r)
        (m.getD (mfF q) 0) := by
  have hep : meF p < m.length := meF_lt p m.length hp h3
  have hfp : mfF p < m.length := mfF_lt p m.length hp h3
  have heq : meF q < m.length := meF_lt q m.length hq h3
  have hfq : mfF q < m.length := mfF_lt q m.length hq h3
  have her : meF r < m.length := meF_lt r m.length hr h3
  have hfr : mfF r < m.length := mfF_lt r m.length hr h3
  have cPQ : ∀ a b : Nat, a / 3 = p / 3 → b / 3 = q / 3 → a ≠ b :=
    fun a b ha hb he => hdq (by subst he; omega)
  have cPR : ∀ a b : Nat, a / 3 = p / 3 → b / 3 = r / 3 → a ≠ b :=
    fun a b ha hb he => hrp (by subst he; omega)
  have cQR : ∀ a b : Nat, a / 3 = q / 3 → b / 3 = r / 3 → a ≠ b :=
    fun a b ha hb he => hrq (by subst he; omega)
  have w1 : p ≠ meF p := (meF_ne p).symm
  have w2 : p ≠ mfF p := (mfF_ne p).symm
  have w3 : meF p ≠ mfF p := meF_ne_mfF p
  have w4 : q ≠ meF q := (meF_ne q).symm
  have w5 : q ≠ mfF q := (mfF_ne q).symm
  have w6 : meF q ≠ mfF q := meF_ne_mfF q
  have w7 : r ≠ meF r := (meF_ne r).symm
  have w8 : r ≠ mfF r := (mfF_ne r).symm
  have w9 : meF r ≠ mfF r := meF_ne_mfF r
  have x1 : p ≠ q := cPQ _ _ rfl rfl
  have x2 : p ≠ meF q := cPQ _ _ rfl (meF_div q)
  have x3 : p ≠ mfF q := cPQ _ _ rfl (mfF_div q)
  have x4 : meF p ≠ q := cPQ _ _ (meF_div p) rfl
  have x5 : meF p ≠ meF q := cPQ _ _ (meF_div p) (meF_div q)
  have x6 : meF p ≠ mfF q := cPQ _ _ (meF_div p) (mfF_div q)
  have x7 : mfF p ≠ q := cPQ _ _ (mfF_div p) rfl
  have x8 : mfF p ≠ meF q := cPQ _ _ (mfF_div p) (meF_div q)
  have x9 : mfF p ≠ mfF q := cPQ _ _ (mfF_div p) (mfF_div q)
  have y1 : p ≠ r := cPR _ _ rfl rfl
  have y2 : p ≠ meF r := cPR _ _ rfl (meF_div r)
  have y3 : p ≠ mfF r := cPR _ _ rfl (mfF_div r)
  have y4 : meF p ≠ r := cPR _ _ (meF_div p) rfl
  have y5 : meF p ≠ meF r := cPR _ _ (meF_div p) (meF_div r)
  have y6 : meF p ≠ mfF r := cPR _ _ (meF_div p) (mfF_div r)
  have y7 : mfF p ≠ r := cPR _ _ (mfF_div p) rfl
  have y8 : mfF p ≠ meF r := cPR _ _ (mfF_div p) (meF_div r)
  have y9 : mfF p ≠ mfF r := cPR _ _ (mfF_div p) (mfF_div r)
  have z1 : q ≠ r := cQR _ _ rfl rfl
  have z2 : q ≠ meF r := cQR _ _ rfl (meF_div r)
  have z3 : q ≠ mfF r := cQR _ _ rfl (mfF_div r)
  have z4 : meF q ≠ r := cQR _ _ (meF_div q) rfl
  have z5 : meF q ≠ meF r := cQR _ _ (meF_div q) (meF_div r)
  have z6 : meF q ≠ mfF r := cQR _ _ (meF_div q) (mfF_div r)
  have z7 : mfF q ≠ r := cQR _ _ (mfF_div q) rfl
  have z8 : mfF q ≠ meF r := cQR _ _ (mfF_div q) (meF_div r)
  have z9 : mfF q ≠ mfF r := cQR _ _ (mfF_div q) (mfF_div r)
  clear hdq hrp hrq h3
  apply list_ext_getD
  · simp only [List.length_set]
  · intro j hj
    rw [chain9_getD _ _ _ _ _ _ _ _ _ _ _ _ _ _ _ _ _ _ _ _
        hp hep hfp hq heq hfq hr her hfr,
      chain6_getD _ _ _ _ _ _ _ _ _ _ _ _ _ _ hep hq hfq hr her hfr]
    clear cPQ cPR cQR hp hq hr hep hfp heq hfq her hfr hj
    split_ifs <;> first | rfl | simp_all
set_option maxHeartbeats 2000000 in
theorem plusApply3_inv (cfg : Cfg) (stream : Nat → Nat) (n : Nat) (s : SState)
    (p q r : Nat) (h3 : n % 3 = 0) (hinv : EngInv n s)
    (hp : p < n) (hq : q < n) (hr : r < n) (hdq : p / 3 ≠ q / 3)
    (hvp : s.muls.getD p 0 ≠ 0) (hvq : s.muls.getD q 0 ≠ 0)
    (hvr : s.muls.getD r 0 = 0)
    (hdd : s.muls.getD p 0 ≠ s.muls.getD q 0)
    (hde : s.muls.getD (meF p) 0 ≠ s.muls.getD (meF q) 0)
    (hdf : s.muls.getD (mfF p) 0 ≠ s.muls.getD (mfF q) 0) :
    EngInv n (plusApply3 cfg stream s p q r) := by
  have hlen := hinv.hlen
  have liveP := tripleLive n s.muls hinv.htri p hp h3 hvp
  have liveQ := tripleLive n s.muls hinv.htri q hq h3 hvq
  have hrp : r / 3 ≠ p / 3 := fun he => liveP r he hvr
  have hrq : r / 3 ≠ q / 3 := fun he => liveQ r he hvr
  have rzero := tripleZero n s.muls hinv.htri r hr h3 hvr
  have hep : meF p < n := meF_lt p n hp h3
  have hfp : mfF p < n := mfF_lt p n hp h3
  have heq2 : meF q < n := meF_lt q n hq h3
  have hfq : mfF q < n := mfF_lt q n hq h3
  have her : meF r < n := meF_lt r n hr h3
  have hfr : mfF r < n := mfF_lt r n hr h3
  have cPQ : ∀ a b : Nat, a / 3 = p / 3 → b / 3 = q / 3 → a ≠ b :=
    fun a b ha hb he => hdq (by subst he; omega)
  have cPR : ∀ a b : Nat, a / 3 = p / 3 → b / 3 = r / 3 → a ≠ b :=
    fun a b ha hb he => hrp (by subst he; omega)
  have cQR : ∀ a b : Nat, a / 3 = q / 3 → b / 3 = r / 3 → a ≠ b :=
    fun a b ha hb he => hrq (by subst he; omega)
  have w1 : p ≠ meF p := (meF_ne p).symm
  have w3 : meF p ≠ mfF p := meF_ne_mfF p
  have w4 : q ≠ meF q := (meF_ne q).symm
  have w5 : q ≠ mfF q := (mfF_ne q).symm
  have w6 : meF q ≠ mfF q := meF_ne_mfF q
  have w7 : r ≠ meF r := (meF_ne r).symm
  have w8 : r ≠ mfF r := (mfF_ne r).symm
  have w9 : meF r ≠ mfF r := meF_ne_mfF r
  have x1 : p ≠ q := cPQ _ _ rfl rfl
  have x3 : p ≠ mfF q := cPQ _ _ rfl (mfF_div q)
  have x4 : meF p ≠ q := cPQ _ _ (meF_div p) rfl
  have x5 : meF p ≠ meF q := cPQ _ _ (meF_div p) (meF_div q)
  have x6 : meF p ≠ mfF q := cPQ _ _ (meF_div p) (mfF_div q)
  have x7 : mfF p ≠ q := cPQ _ _ (mfF_div p) rfl
  have x9 : mfF p ≠ mfF q := cPQ _ _ (mfF_div p) (mfF_div q)
  have y1 : p ≠ r := cPR _ _ rfl rfl
  have y2 : p ≠ meF r := cPR _ _ rfl (meF_div r)
  have y3 : p ≠ mfF r := cPR _ _ rfl (mfF_div r)
  have y4 : meF p ≠ r := cPR _ _ (meF_div p) rfl
  have y5 : meF p ≠ meF r := cPR _ _ (meF_div p) (meF_div r)
  have y6 : meF p ≠ mfF r := cPR _ _ (meF_div p) (mfF_div r)
  have y7 : mfF p ≠ r := cPR _ _ (mfF_div p) rfl
  have y8 : mfF p ≠ meF r := cPR _ _ (mfF_div p) (meF_div r)
  have y9 : mfF p ≠ mfF r := cPR _ _ (mfF_div p) (mfF_div r)
  have z1 : q ≠ r := cQR _ _ rfl rfl
  have z2 : q ≠ meF r := cQR _ _ rfl (meF_div r)
  have z3 : q ≠ mfF r := cQR _ _ rfl (mfF_div r)
  have z4 : meF q ≠ r := cQR _ _ (meF_div q) rfl
  have z5 : meF q ≠ meF r := cQR _ _ (meF_div q) (meF_div r)
  have z6 : meF q ≠ mfF r := cQR _ _ (meF_div q) (mfF_div r)
  have z7 : mfF q ≠ r := cQR _ _ (mfF_div q) rfl
  have z8 : mfF q ≠ meF r := cQR _ _ (mfF_div q) (meF_div r)
  have z9 : mfF q ≠ mfF r := cQR _ _ (mfF_div q) (mfF_div r)
  have hvpe : s.muls.getD (meF p) 0 ≠ 0 := liveP _ (meF_div p)
  have hvpf : s.muls.getD (mfF p) 0 ≠ 0 := liveP _ (mfF_div p)
  have hvqe : s.muls.getD (meF q) 0 ≠ 0 := liveQ _ (meF_div q)
  have hvqf : s.muls.getD (mfF q) 0 ≠ 0 := liveQ _ (mfF_div q)
  have hvre : s.muls.getD (meF r) 0 = 0 := rzero _ (meF_div r)
  have hvrf : s.muls.getD (mfF r) 0 = 0 := rzero _ (mfF_div r)
  have hmpen : ((s.muls.getD (meF p) 0) ^^^ (s.muls.getD (meF q) 0)) ≠ 0 := xor_ne_zero _ _ hde
  have hmqfn : ((s.muls.getD (mfF p) 0) ^^^ (s.muls.getD (mfF q) 0)) ≠ 0 := xor_ne_zero _ _ hdf
  have hmrdn : ((s.muls.getD p 0) ^^^ (s.muls.getD q 0)) ≠ 0 := xor_ne_zero _ _ hdd
  have L1 : (s.muls.set (meF p) ((s.muls.getD (meF p) 0) ^^^ (s.muls.getD (meF q) 0))).length = n := by simp only [List.length_set]; exact hlen
  have L2 : ((s.muls.set (meF p) ((s.muls.getD (meF p) 0) ^^^ (s.muls.getD (meF q) 0))).set q (s.muls.getD p 0)).length = n := by simp only [List.length_set]; exact hlen
  have L3 : (((s.muls.set (meF p) ((s.muls.getD (meF p) 0) ^^^ (s.muls.getD (meF q) 0))).set q (s.muls.getD p 0)).set (mfF q) ((s.muls.getD (mfF p) 0) ^^^ (s.muls.getD (mfF q) 0))).length = n := by simp only [List.length_set]; exact hlen
  have L4 : ((((s.muls.set (meF p) ((s.muls.getD (meF p) 0) ^^^ (s.muls.getD (meF q) 0))).set q (s.muls.getD p 0)).set (mfF q) ((s.muls.getD (mfF p) 0) ^^^ (s.muls.getD (mfF q) 0))).set r ((s.muls.getD p 0) ^^^ (s.muls.getD q 0))).length = n := by simp only [List.length_set]; exact hlen
  have L5 : (((((s.muls.set (meF p) ((s.muls.getD (meF p) 0) ^^^ (s.muls.getD (meF q) 0))).set q (s.muls.getD p 0)).set (mfF q) ((s.muls.getD (mfF p) 0) ^^^ (s.muls.getD (mfF q) 0))).set r ((s.muls.getD p 0) ^^^ (s.muls.getD q 0))).set (meF r) (s.muls.getD (meF q) 0)).length = n := by simp only [List.length_set]; exact hlen
  have L6 : ((((((s.muls.set (meF p) ((s.muls.getD (meF p) 0) ^^^ (s.muls.getD (meF q) 0))).set q (s.muls.getD p 0)).set (mfF q) ((s.muls.getD (mfF p) 0) ^^^ (s.muls.getD (mfF q) 0))).set r ((s.muls.getD p 0) ^^^ (s.muls.getD q 0))).set (meF r) (s.muls.getD (meF q) 0)).set (mfF r) (s.muls.getD (mfF q) 0)).length = n := by simp only [List.length_set]; exact hlen
  have g1 : (s.muls.set (meF p) ((s.muls.getD (meF p) 0) ^^^ (s.muls.getD (meF q) 0))).getD q 0 = s.muls.getD q 0 := getD_set_ne _ _ _ _ x4
  have g2 : ((s.muls.set (meF p) ((s.muls.getD (meF p) 0) ^^^ (s.muls.getD (meF q) 0))).set q (s.muls.getD p 0)).getD (mfF q) 0 = s.muls.getD (mfF q) 0 := by
    rw [getD_set_ne _ _ _ _ w5, getD_set_ne _ _ _ _ x6]
  have g3 : (((s.muls.set (meF p) ((s.muls.getD (meF p) 0) ^^^ (s.muls.getD (meF q) 0))).set q (s.muls.getD p 0)).set (mfF q) ((s.muls.getD (mfF p) 0) ^^^ (s.muls.getD (mfF q) 0))).getD r 0 = s.muls.getD r 0 := by
    rw [getD_set_ne _ _ _ _ z7, getD_set_ne _ _ _ _ z1, getD_set_ne _ _ _ _ y4]
  have g4 : ((((s.muls.set (meF p) ((s.muls.getD (meF p) 0) ^^^ (s.muls.getD (meF q) 0))).set q (s.muls.getD p 0)).set (mfF q) ((s.muls.getD (mfF p) 0) ^^^ (s.muls.getD (mfF q) 0))).set r ((s.muls.getD p 0) ^^^ (s.muls.getD q 0))).getD (meF r) 0 = s.muls.getD (meF r) 0 := by
    rw [getD_set_ne _ _ _ _ w7, getD_set_ne _ _ _ _ z8, getD_set_ne _ _ _ _ z2,
      getD_set_ne _ _ _ _ y5]
  have g5 : (((((s.muls.set (meF p) ((s.muls.getD (meF p) 0) ^^^ (s.muls.getD (meF q) 0))).set q (s.muls.getD p 0)).set (mfF q) ((s.muls.getD (mfF p) 0) ^^^ (s.muls.getD (mfF q) 0))).set r ((s.muls.getD p 0) ^^^ (s.muls.getD q 0))).set (meF r) (s.muls.getD (meF q) 0)).getD (mfF r) 0 = s.muls.getD (mfF r) 0 := by
    rw [getD_set_ne _ _ _ _ w9, getD_set_ne _ _ _ _ w8, getD_set_ne _ _ _ _ z9,
      getD_set_ne _ _ _ _ z3, getD_set_ne _ _ _ _ y6]
  obtain ⟨R1, S1⟩ := replaceSlot n s.muls s.mm (meF p) ((s.muls.getD (meF p) 0) ^^^ (s.muls.getD (meF q) 0)) hinv.rel hep hlen hvpe
  obtain ⟨R2, S2⟩ := replaceSlot n (s.muls.set (meF p) ((s.muls.getD (meF p) 0) ^^^ (s.muls.getD (meF q) 0))) (flipadd (flipdel s.mm (meF p) (s.muls.getD (meF p) 0)) (meF p) ((s.muls.getD (meF p) 0) ^^^ (s.muls.getD (meF q) 0))) q (s.muls.getD p 0) R1 hq L1 (by rw [g1]; exact hvq)
  rw [g1] at R2 S2
  obtain ⟨R3, S3⟩ := replaceSlot n ((s.muls.set (meF p) ((s.muls.getD (meF p) 0) ^^^ (s.muls.getD (meF q) 0))).set q (s.muls.getD p 0)) (flipadd (flipdel (flipadd (flipdel s.mm (meF p) (s.muls.getD (meF p) 0)) (meF p) ((s.muls.getD (meF p) 0) ^^^ (s.muls.getD (meF q) 0))) q (s.muls.getD q 0)) q (s.muls.getD p 0)) (mfF q) ((s.muls.getD (mfF p) 0) ^^^ (s.muls.getD (mfF q) 0)) R2 hfq L2 (by rw [g2]; exact hvqf)
  rw [g2] at R3 S3
  obtain ⟨R4, S4⟩ := addSlot n (((s.muls.set (meF p) ((s.muls.getD (meF p) 0) ^^^ (s.muls.getD (meF q) 0))).set q (s.muls.getD p 0)).set (mfF q) ((s.muls.getD (mfF p) 0) ^^^ (s.muls.getD (mfF q) 0))) (flipadd (flipdel (flipadd (flipdel (flipadd (flipdel s.mm (meF p) (s.muls.getD (meF p) 0)) (meF p) ((s.muls.getD (meF p) 0) ^^^ (s.muls.getD (meF q) 0))) q (s.muls.getD q 0)) q (s.muls.getD p 0)) (mfF q) (s.muls.getD (mfF q) 0)) (mfF q) ((s.muls.getD (mfF p) 0) ^^^ (s.muls.getD (mfF q) 0))) r ((s.muls.getD p 0) ^^^ (s.muls.getD q 0)) R3 hr L3 (by rw [g3]; exact hvr) hmrdn
  obtain ⟨R5, S5⟩ := addSlot n ((((s.muls.set (meF p) ((s.muls.getD (meF p) 0) ^^^ (s.muls.getD (meF q) 0))).set q (s.muls.getD p 0)).set (mfF q) ((s.muls.getD (mfF p) 0) ^^^ (s.muls.getD (mfF q) 0))).set r ((s.muls.getD p 0) ^^^ (s.muls.getD q 0))) (flipadd (flipadd (flipdel (flipadd (flipdel (flipadd (flipdel s.mm (meF p) (s.muls.getD (meF p) 0)) (meF p) ((s.muls.getD (meF p) 0) ^^^ (s.muls.getD (meF q) 0))) q (s.muls.getD q 0)) q (s.muls.getD p 0)) (mfF q) (s.muls.getD (mfF q) 0)) (mfF q) ((s.muls.getD (mfF p) 0) ^^^ (s.muls.getD (mfF q) 0))) r ((s.muls.getD p 0) ^^^ (s.muls.getD q 0))) (meF r) (s.muls.getD (meF q) 0) R4 her L4 (by rw [g4]; exact hvre) hvqe
  obtain ⟨R6, S6⟩ := addSlot n (((((s.muls.set (meF p) ((s.muls.getD (meF p) 0) ^^^ (s.muls.getD (meF q) 0))).set q (s.muls.getD p 0)).set (mfF q) ((s.muls.getD (mfF p) 0) ^^^ (s.muls.getD (mfF q) 0))).set r ((s.muls.getD p 0) ^^^ (s.muls.getD q 0))).set (meF r) (s.muls.getD (meF q) 0)) (flipadd (flipadd (flipadd (flipdel (flipadd (flipdel (flipadd (flipdel s.mm (meF p) (s.muls.getD (meF p) 0)) (meF p) ((s.muls.getD (meF p) 0) ^^^ (s.muls.getD (meF q) 0))) q (s.muls.getD q 0)) q (s.muls.getD p 0)) (mfF q) (s.muls.getD (mfF q) 0)) (mfF q) ((s.muls.getD (mfF p) 0) ^^^ (s.muls.getD (mfF q) 0))) r ((s.muls.getD p 0) ^^^ (s.muls.getD q 0))) (meF r) (s.muls.getD (meF q) 0)) (mfF r) (s.muls.getD (mfF q) 0) R5 hfr L5 (by rw [g5]; exact hvrf) hvqf
  have hz6 : (flipadd (flipadd (flipadd (flipadd (flipdel (flipadd (flipdel (flipadd (flipdel s.mm (meF p) (s.muls.getD (meF p) 0)) (meF p) ((s.muls.getD (meF p) 0) ^^^ (s.muls.getD (meF q) 0))) q (s.muls.getD q 0)) q (s.muls.getD p 0)) (mfF q) (s.muls.getD (mfF q) 0)) (mfF q) ((s.muls.getD (mfF p) 0) ^^^ (s.muls.getD (mfF q) 0))) r ((s.muls.getD p 0) ^^^ (s.muls.getD q 0))) (meF r) (s.muls.getD (meF q) 0)) (mfF r) (s.muls.getD (mfF q) 0)).slots 0 = [] := by
    rw [S6, S5, S4, S3, if_neg hmqfn, S2, if_neg hvp, S1, if_neg hmpen]
    exact hinv.hz
  have hMU9 : (plusApply3 cfg stream s p q r).muls = (((((((((s.muls.set p (s.muls.getD p 0)).set (meF p) ((s.muls.getD (meF p) 0) ^^^ (s.muls.getD (meF q) 0))).set (mfF p) (s.muls.getD (mfF p) 0)).set q (s.muls.getD p 0)).set (meF q) (s.muls.getD (meF q) 0)).set (mfF q) ((s.muls.getD (mfF p) 0) ^^^ (s.muls.getD (mfF q) 0))).set r ((s.muls.getD p 0) ^^^ (s.muls.getD q 0))).set (meF r) (s.muls.getD (meF q) 0)).set (mfF r) (s.muls.getD (mfF q) 0)) := rfl
  have hred : (((((((((s.muls.set p (s.muls.getD p 0)).set (meF p) ((s.muls.getD (meF p) 0) ^^^ (s.muls.getD (meF q) 0))).set (mfF p) (s.muls.getD (mfF p) 0)).set q (s.muls.getD p 0)).set (meF q) (s.muls.getD (meF q) 0)).set (mfF q) ((s.muls.getD (mfF p) 0) ^^^ (s.muls.getD (mfF q) 0))).set r ((s.muls.getD p 0) ^^^ (s.muls.getD q 0))).set (meF r) (s.muls.getD (meF q) 0)).set (mfF r) (s.muls.getD (mfF q) 0)) = ((((((s.muls.set (meF p) ((s.muls.getD (meF p) 0) ^^^ (s.muls.getD (meF q) 0))).set q (s.muls.getD p 0)).set (mfF q) ((s.muls.getD (mfF p) 0) ^^^ (s.muls.getD (mfF q) 0))).set r ((s.muls.getD p 0) ^^^ (s.muls.getD q 0))).set (meF r) (s.muls.getD (meF q) 0)).set (mfF r) (s.muls.getD (mfF q) 0)) :=
    plusMuls3_red s.muls p q r (by rw [hlen]; exact hp) (by rw [hlen]; exact hq)
      (by rw [hlen]; exact hr) (by rw [hlen]; exact h3) hdq hrp hrq
  have hMU : (plusApply3 cfg stream s p q r).muls = ((((((s.muls.set (meF p) ((s.muls.getD (meF p) 0) ^^^ (s.muls.getD (meF q) 0))).set q (s.muls.getD p 0)).set (mfF q) ((s.muls.getD (mfF p) 0) ^^^ (s.muls.getD (mfF q) 0))).set r ((s.muls.getD p 0) ^^^ (s.muls.getD q 0))).set (meF r) (s.muls.getD (meF q) 0)).set (mfF r) (s.muls.getD (mfF q) 0)) := hMU9.trans hred
  have hMM : (plusApply3 cfg stream s p q r).mm = (flipadd (flipadd (flipadd (flipadd (flipdel (flipadd (flipdel (flipadd (flipdel s.mm (meF p) (s.muls.getD (meF p) 0)) (meF p) ((s.muls.getD (meF p) 0) ^^^ (s.muls.getD (meF q) 0))) q (s.muls.getD q 0)) q (s.muls.getD p 0)) (mfF q) (s.muls.getD (mfF q) 0)) (mfF q) ((s.muls.getD (mfF p) 0) ^^^ (s.muls.getD (mfF q) 0))) r ((s.muls.getD p 0) ^^^ (s.muls.getD q 0))) (meF r) (s.muls.getD (meF q) 0)) (mfF r) (s.muls.getD (mfF q) 0)) := by simp only [plusApply3]
  have hACH : (plusApply3 cfg stream s p q r).achieved = s.achieved + 3 := by simp only [plusApply3]
  have hBEST : (plusApply3 cfg stream s p q r).best = s.best := by simp only [plusApply3]
  have hch : ∀ j, ((((((s.muls.set (meF p) ((s.muls.getD (meF p) 0) ^^^ (s.muls.getD (meF q) 0))).set q (s.muls.getD p 0)).set (mfF q) ((s.muls.getD (mfF p) 0) ^^^ (s.muls.getD (mfF q) 0))).set r ((s.muls.getD p 0) ^^^ (s.muls.getD q 0))).set (meF r) (s.muls.getD (meF q) 0)).set (mfF r) (s.muls.getD (mfF q) 0)).getD j 0 =
      (if j = mfF r then (s.muls.getD (mfF q) 0) else if j = meF r then (s.muls.getD (meF q) 0) else if j = r then ((s.muls.getD p 0) ^^^ (s.muls.getD q 0))
      else if j = mfF q then ((s.muls.getD (mfF p) 0) ^^^ (s.muls.getD (mfF q) 0)) else if j = q then (s.muls.getD p 0) else if j = meF p then ((s.muls.getD (meF p) 0) ^^^ (s.muls.getD (meF q) 0))
      else s.muls.getD j 0) := by
    intro j
    exact chain6_getD s.muls (meF p) q (mfF q) r (meF r) (mfF r) ((s.muls.getD (meF p) 0) ^^^ (s.muls.getD (meF q) 0)) (s.muls.getD p 0) ((s.muls.getD (mfF p) 0) ^^^ (s.muls.getD (mfF q) 0)) ((s.muls.getD p 0) ^^^ (s.muls.getD q 0)) (s.muls.getD (meF q) 0) (s.muls.getD (mfF q) 0) j (by rw [hlen]; exact hep) (by rw [hlen]; exact hq) (by rw [hlen]; exact hfq) (by rw [hlen]; exact hr) (by rw [hlen]; exact her) (by rw [hlen]; exact hfr)
  have Gp : ((((((s.muls.set (meF p) ((s.muls.getD (meF p) 0) ^^^ (s.muls.getD (meF q) 0))).set q (s.muls.getD p 0)).set (mfF q) ((s.muls.getD (mfF p) 0) ^^^ (s.muls.getD (mfF q) 0))).set r ((s.muls.getD p 0) ^^^ (s.muls.getD q 0))).set (meF r) (s.muls.getD (meF q) 0)).set (mfF r) (s.muls.getD (mfF q) 0)).getD p 0 = s.muls.getD p 0 := by
    rw [hch p, if_neg y3, if_neg y2, if_neg y1, if_neg x3, if_neg x1, if_neg w1]
  have Gep : ((((((s.muls.set (meF p) ((s.muls.getD (meF p) 0) ^^^ (s.muls.getD (meF q) 0))).set q (s.muls.getD p 0)).set (mfF q) ((s.muls.getD (mfF p) 0) ^^^ (s.muls.getD (mfF q) 0))).set r ((s.muls.getD p 0) ^^^ (s.muls.getD q 0))).set (meF r) (s.muls.getD (meF q) 0)).set (mfF r) (s.muls.getD (mfF q) 0)).getD (meF p) 0 = ((s.muls.getD (meF p) 0) ^^^ (s.muls.getD (meF q) 0)) := by
    rw [hch (meF p), if_neg y6, if_neg y5, if_neg y4, if_neg x6, if_neg x4, if_pos rfl]
  have Gfp : ((((((s.muls.set (meF p) ((s.muls.getD (meF p) 0) ^^^ (s.muls.getD (meF q) 0))).set q (s.muls.getD p 0)).set (mfF q) ((s.muls.getD (mfF p) 0) ^^^ (s.muls.getD (mfF q) 0))).set r ((s.muls.getD p 0) ^^^ (s.muls.getD q 0))).set (meF r) (s.muls.getD (meF q) 0)).set (mfF r) (s.muls.getD (mfF q) 0)).getD (mfF p) 0 = s.muls.getD (mfF p) 0 := by
    rw [hch (mfF p), if_neg y9, if_neg y8, if_neg y7, if_neg x9, if_neg x7,
      if_neg (fun hh => w3 hh.symm)]
  have Gq : ((((((s.muls.set (meF p) ((s.muls.getD (meF p) 0) ^^^ (s.muls.getD (meF q) 0))).set q (s.muls.getD p 0)).set (mfF q) ((s.muls.getD (mfF p) 0) ^^^ (s.muls.getD (mfF q) 0))).set r ((s.muls.getD p 0) ^^^ (s.muls.getD q 0))).set (meF r) (s.muls.getD (meF q) 0)).set (mfF r) (s.muls.getD (mfF q) 0)).getD q 0 = s.muls.getD p 0 := by
    rw [hch q, if_neg z3, if_neg z2, if_neg z1, if_neg w5, if_pos rfl]
  have Geq : ((((((s.muls.set (meF p) ((s.muls.getD (meF p) 0) ^^^ (s.muls.getD (meF q) 0))).set q (s.muls.getD p 0)).set (mfF q) ((s.muls.getD (mfF p) 0) ^^^ (s.muls.getD (mfF q) 0))).set r ((s.muls.getD p 0) ^^^ (s.muls.getD q 0))).set (meF r) (s.muls.getD (meF q) 0)).set (mfF r) (s.muls.getD (mfF q) 0)).getD (meF q) 0 = s.muls.getD (meF q) 0 := by
    rw [hch (meF q), if_neg z6, if_neg z5, if_neg z4, if_neg w6,
      if_neg (fun hh => w4 hh.symm), if_neg (fun hh => x5 hh.symm)]
  have Gfq : ((((((s.muls.set (meF p) ((s.muls.getD (meF p) 0) ^^^ (s.muls.getD (meF q) 0))).set q (s.muls.getD p 0)).set (mfF q) ((s.muls.getD (mfF p) 0) ^^^ (s.muls.getD (mfF q) 0))).set r ((s.muls.getD p 0) ^^^ (s.muls.getD q 0))).set (meF r) (s.muls.getD (meF q) 0)).set (mfF r) (s.muls.getD (mfF q) 0)).getD (mfF q) 0 = ((s.muls.getD (mfF p) 0) ^^^ (s.muls.getD (mfF q) 0)) := by
    rw [hch (mfF q), if_neg z9, if_neg z8, if_neg z7, if_pos rfl]
  have Gr : ((((((s.muls.set (meF p) ((s.muls.getD (meF p) 0) ^^^ (s.muls.getD (meF q) 0))).set q (s.muls.getD p 0)).set (mfF q) ((s.muls.getD (mfF p) 0) ^^^ (s.muls.getD (mfF q) 0))).set r ((s.muls.getD p 0) ^^^ (s.muls.getD q 0))).set (meF r) (s.muls.getD (meF q) 0)).set (mfF r) (s.muls.getD (mfF q) 0)).getD r 0 = ((s.muls.getD p 0) ^^^ (s.muls.getD q 0)) := by
    rw [hch r, if_neg w8, if_neg w7, if_pos rfl]
  have Ger : ((((((s.muls.set (meF p) ((s.muls.getD (meF p) 0) ^^^ (s.muls.getD (meF q) 0))).set q (s.muls.getD p 0)).set (mfF q) ((s.muls.getD (mfF p) 0) ^^^ (s.muls.getD (mfF q) 0))).set r ((s.muls.getD p 0) ^^^ (s.muls.getD q 0))).set (meF r) (s.muls.getD (meF q) 0)).set (mfF r) (s.muls.getD (mfF q) 0)).getD (meF r) 0 = s.muls.getD (meF q) 0 := by
    rw [hch (meF r), if_neg w9, if_pos rfl]
  have Gfr : ((((((s.muls.set (meF p) ((s.muls.getD (meF p) 0) ^^^ (s.muls.getD (meF q) 0))).set q (s.muls.getD p 0)).set (mfF q) ((s.muls.getD (mfF p) 0) ^^^ (s.muls.getD (mfF q) 0))).set r ((s.muls.getD p 0) ^^^ (s.muls.getD q 0))).set (meF r) (s.muls.getD (meF q) 0)).set (mfF r) (s.muls.getD (mfF q) 0)).getD (mfF r) 0 = s.muls.getD (mfF q) 0 := by
    rw [hch (mfF r), if_pos rfl]
  have Gother : ∀ j, j / 3 ≠ p / 3 → j / 3 ≠ q / 3 → j / 3 ≠ r / 3 →
      ((((((s.muls.set (meF p) ((s.muls.getD (meF p) 0) ^^^ (s.muls.getD (meF q) 0))).set q (s.muls.getD p 0)).set (mfF q) ((s.muls.getD (mfF p) 0) ^^^ (s.muls.getD (mfF q) 0))).set r ((s.muls.getD p 0) ^^^ (s.muls.getD q 0))).set (meF r) (s.muls.getD (meF q) 0)).set (mfF r) (s.muls.getD (mfF q) 0)).getD j 0 = s.muls.getD j 0 := by
    intro j hjp hjq hjr
    rw [hch j,
      if_neg (fun hh => hjr (by rw [hh, mfF_div])),
      if_neg (fun hh => hjr (by rw [hh, meF_div])),
      if_neg (fun hh => hjr (by rw [hh])),
      if_neg (fun hh => hjq (by rw [hh, mfF_div])),
      if_neg (fun hh => hjq (by rw [hh])),
      if_neg (fun hh => hjp (by rw [hh, meF_div]))]
  have c1 := countP_set_add s.muls (meF p) ((s.muls.getD (meF p) 0) ^^^ (s.muls.getD (meF q) 0)) (by rw [hlen]; exact hep)
  rw [if_pos hvpe, if_pos hmpen] at c1
  have c2 := countP_set_add (s.muls.set (meF p) ((s.muls.getD (meF p) 0) ^^^ (s.muls.getD (meF q) 0))) q (s.muls.getD p 0) (by rw [L1]; exact hq)
  rw [g1, if_pos hvq, if_pos hvp] at c2
  have c3 := countP_set_add ((s.muls.set (meF p) ((s.muls.getD (meF p) 0) ^^^ (s.muls.getD (meF q) 0))).set q (s.muls.getD p 0)) (mfF q) ((s.muls.getD (mfF p) 0) ^^^ (s.muls.getD (mfF q) 0)) (by rw [L2]; exact hfq)
  rw [g2, if_pos hvqf, if_pos hmqfn] at c3
  have c4 := countP_set_add (((s.muls.set (meF p) ((s.muls.getD (meF p) 0) ^^^ (s.muls.getD (meF q) 0))).set q (s.muls.getD p 0)).set (mfF q) ((s.muls.getD (mfF p) 0) ^^^ (s.muls.getD (mfF q) 0))) r ((s.muls.getD p 0) ^^^ (s.muls.getD q 0)) (by rw [L3]; exact hr)
  rw [g3, if_neg (fun hc => hc hvr), if_pos hmrdn] at c4
  have c5 := countP_set_add ((((s.muls.set (meF p) ((s.muls.getD (meF p) 0) ^^^ (s.muls.getD (meF q) 0))).set q (s.muls.getD p 0)).set (mfF q) ((s.muls.getD (mfF p) 0) ^^^ (s.muls.getD (mfF q) 0))).set r ((s.muls.getD p 0) ^^^ (s.muls.getD q 0))) (meF r) (s.muls.getD (meF q) 0) (by rw [L4]; exact her)
  rw [g4, if_neg (fun hc => hc hvre), if_pos hvqe] at c5
  have c6 := countP_set_add (((((s.muls.set (meF p) ((s.muls.getD (meF p) 0) ^^^ (s.muls.getD (meF q) 0))).set q (s.muls.getD p 0)).set (mfF q) ((s.muls.getD (mfF p) 0) ^^^ (s.muls.getD (mfF q) 0))).set r ((s.muls.getD p 0) ^^^ (s.muls.getD q 0))).set (meF r) (s.muls.getD (meF q) 0)) (mfF r) (s.muls.getD (mfF q) 0) (by rw [L5]; exact hfr)
  rw [g5, if_neg (fun hc => hc hvrf), if_pos hvqf] at c6
  refine ⟨?_, ?_, ?_, ?_, ?_, ?_⟩
  · rw [hMU, hMM]
    exact R6
  · rw [hMM]
    exact hz6
  · rw [hMU]
    exact L6
  · rw [hBEST]
    exact hinv.hblen
  · rw [hMU]
    intro t ht
    by_cases hcp : t = p / 3
    · have hall : ∀ j, j / 3 = t → ((((((s.muls.set (meF p) ((s.muls.getD (meF p) 0) ^^^ (s.muls.getD (meF q) 0))).set q (s.muls.getD p 0)).set (mfF q) ((s.muls.getD (mfF p) 0) ^^^ (s.muls.getD (mfF q) 0))).set r ((s.muls.getD p 0) ^^^ (s.muls.getD q 0))).set (meF r) (s.muls.getD (meF q) 0)).set (mfF r) (s.muls.getD (mfF q) 0)).getD j 0 ≠ 0 := by
        intro j hj
        have hjp : j / 3 = p / 3 := by omega
        rcases (triple_enum p j).mpr hjp with rfl | rfl | rfl
        · rw [Gp]; exact hvp
        · rw [Gep]; exact hmpen
        · rw [Gfp]; exact hvpf
      exact Or.inl ⟨hall _ (by omega), hall _ (by omega), hall _ (by omega)⟩
    · by_cases hcq : t = q / 3
      · have hall : ∀ j, j / 3 = t → ((((((s.muls.set (meF p) ((s.muls.getD (meF p) 0) ^^^ (s.muls.getD (meF q) 0))).set q (s.muls.getD p 0)).set (mfF q) ((s.muls.getD (mfF p) 0) ^^^ (s.muls.getD (mfF q) 0))).set r ((s.muls.getD p 0) ^^^ (s.muls.getD q 0))).set (meF r) (s.muls.getD (meF q) 0)).set (mfF r) (s.muls.getD (mfF q) 0)).getD j 0 ≠ 0 := by
          intro j hj
          have hjq : j / 3 = q / 3 := by omega
          rcases (triple_enum q j).mpr hjq with rfl | rfl | rfl
          · rw [Gq]; exact hvp
          · rw [Geq]; exact hvqe
          · rw [Gfq]; exact hmqfn
        exact Or.inl ⟨hall _ (by omega), hall _ (by omega), hall _ (by omega)⟩
      · by_cases hcr : t = r / 3
        · have hall : ∀ j, j / 3 = t → ((((((s.muls.set (meF p) ((s.muls.getD (meF p) 0) ^^^ (s.muls.getD (meF q) 0))).set q (s.muls.getD p 0)).set (mfF q) ((s.muls.getD (mfF p) 0) ^^^ (s.muls.getD (mfF q) 0))).set r ((s.muls.getD p 0) ^^^ (s.muls.getD q 0))).set (meF r) (s.muls.getD (meF q) 0)).set (mfF r) (s.muls.getD (mfF q) 0)).getD j 0 ≠ 0 := by
            intro j hj
            have hjr : j / 3 = r / 3 := by omega
            rcases (triple_enum r j).mpr hjr with rfl | rfl | rfl
            · rw [Gr]; exact hmrdn
            · rw [Ger]; exact hvqe
            · rw [Gfr]; exact hvqf
          exact Or.inl ⟨hall _ (by omega), hall _ (by omega), hall _ (by omega)⟩
        · have hall : ∀ j, j / 3 = t → ((((((s.muls.set (meF p) ((s.muls.getD (meF p) 0) ^^^ (s.muls.getD (meF q) 0))).set q (s.muls.getD p 0)).set (mfF q) ((s.muls.getD (mfF p) 0) ^^^ (s.muls.getD (mfF q) 0))).set r ((s.muls.getD p 0) ^^^ (s.muls.getD q 0))).set (meF r) (s.muls.getD (meF q) 0)).set (mfF r) (s.muls.getD (mfF q) 0)).getD j 0 = s.muls.getD j 0 := by
            intro j hj
            exact Gother j (by omega) (by omega) (by omega)
          rcases hinv.htri t ht with ⟨a1, a2, a3⟩ | ⟨a1, a2, a3⟩
          · exact Or.inl ⟨by rw [hall _ (by omega)]; exact a1,
              by rw [hall _ (by omega)]; exact a2, by rw [hall _ (by omega)]; exact a3⟩
          · exact Or.inr ⟨by rw [hall _ (by omega)]; exact a1,
              by rw [hall _ (by omega)]; exact a2, by rw [hall _ (by omega)]; exact a3⟩
  · rw [hACH, hMU, hinv.hach]
    omega

theorem plusBlock3_inv (cfg : Cfg) (stream : Nat → Nat) (pfuel : Nat) (n : Nat)
    (s s2 : SState) (hsym : cfg.symm = 3) (hn : cfg.nomuls = n) (h3 : n % 3 = 0)
    (hinv : EngInv n s) (hach : s.achieved < (n : Int))
    (h : plusBlock3 cfg stream pfuel s = some s2) : EngInv n s2 := by
  unfold plusBlock3 at h
  simp only at h
  have hsm : EngInv n (maybeSnap cfg s) :=
    EngInv_transport n s (maybeSnap cfg s) hinv (maybeSnap_muls cfg s)
      (maybeSnap_mm cfg s) (maybeSnap_achieved cfg s)
      (by rw [maybeSnap_best]; exact hinv.hblen)
  have hcnt : s.muls.countP (fun m => m != 0) < s.muls.length := by
    have h1 := hinv.hach
    rw [hinv.hlen]
    omega
  have hfidx : s.muls.findIdx (fun m => m == 0) < s.muls.length :=
    findIdx_zero_lt s.muls hcnt
  have hrn : s.muls.findIdx (fun m => m == 0) < n := by
    rw [← hinv.hlen]
    exact hfidx
  have hrz : s.muls.getD (s.muls.findIdx (fun m => m == 0)) 0 = 0 :=
    findIdx_zero_getD s.muls hfidx
  rcases hacc : plusAccept3 cfg (maybeSnap cfg s).muls stream pfuel
      (maybeSnap cfg s).rix with _ | ⟨p, q, rix⟩
  · rw [hacc] at h
    exact absurd h (by simp)
  · rw [hacc] at h
    simp only [Option.some.injEq] at h
    rw [maybeSnap_muls] at hacc
    have hn0 : 0 < cfg.nomuls := by
      have h0 := hinv.hach
      have : (0 : Int) ≤ s.muls.countP (fun m => m != 0) := by positivity
      omega
    obtain ⟨hp, hq, hperm, hvp, hvq, hdd, hde, hdf⟩ :=
      plusAccept3_ok cfg s.muls stream hn0 pfuel (maybeSnap cfg s).rix p q rix hacc
    rw [hn] at hp hq
    have hdq : p / 3 ≠ q / 3 := by
      have := permitF_div cfg.symm p q hperm
      rw [hsym] at this
      exact this
    have happ := plusApply3_inv cfg stream n
      { maybeSnap cfg s with rix := rix } p q (s.muls.findIdx (fun m => m == 0))
      h3 (EngInv_transport n s _ hinv (maybeSnap_muls cfg s) (maybeSnap_mm cfg s)
        (maybeSnap_achieved cfg s) (by rw [maybeSnap_best]; exact hinv.hblen))
      hp hq hrn hdq (by rw [maybeSnap_muls]; exact hvp) (by rw [maybeSnap_muls]; exact hvq)
      (by rw [maybeSnap_muls]; exact hrz) (by rw [maybeSnap_muls]; exact hdd)
      (by rw [maybeSnap_muls]; exact hde) (by rw [maybeSnap_muls]; exact hdf)
    rw [← h]
    have hmeq : (maybeSnap cfg s).muls.findIdx (fun m => m == 0) =
        s.muls.findIdx (fun m => m == 0) := by rw [maybeSnap_muls]
    rw [hmeq]
    exact happ

theorem tail3_inv (cfg : Cfg) (stream : Nat → Nat) (pfuel : Nat) (n : Nat)
    (s s1 : SState) (hsym : cfg.symm = 3) (hn : cfg.nomuls = n) (h3 : n % 3 = 0)
    (hinv : EngInv n s)
    (hroom : s.achieved < (n : Int) ∨ s.flips < s.plusby)
    (hrun : flipTail3 cfg stream pfuel s = (s1, IterRes.cont)) : EngInv n s1 := by
  unfold flipTail3 at hrun
  by_cases hpb : s.flips ≥ s.plusby
  · rw [if_pos hpb] at hrun
    rcases hblk : plusBlock3 cfg stream pfuel s with _ | s2
    · rw [hblk] at hrun
      exact absurd hrun (by simp)
    · rw [hblk] at hrun
      simp only at hrun
      have hach_lt : s.achieved < (n : Int) := by
        rcases hroom with hh | hh
        · exact hh
        · omega
      have hs2 := plusBlock3_inv cfg stream pfuel n s s2 hsym hn h3 hinv hach_lt hblk
      by_cases hlim : s2.flips ≥ s2.limit
      · rw [if_pos hlim] at hrun
        exact absurd (congrArg Prod.snd hrun) (by simp)
      · rw [if_neg hlim] at hrun
        have : s2 = s1 := congrArg Prod.fst hrun
        rw [← this]
        exact hs2
  · rw [if_neg hpb] at hrun
    simp only at hrun
    by_cases hlim : s.flips ≥ s.limit
    · rw [if_pos hlim] at hrun
      exact absurd (congrArg Prod.snd hrun) (by simp)
    · rw [if_neg hlim] at hrun
      have : s = s1 := congrArg Prod.fst hrun
      rw [← this]
      exact hinv

theorem ms_pair_erase (a b : Nat) :
    (↑([a, b] : List Nat) : Multiset Nat).erase a = (↑([b] : List Nat) : Multiset Nat) := by
  rw [← Multiset.cons_coe, Multiset.erase_cons_head]

theorem ms_single_erase (a : Nat) :
    (↑([a] : List Nat) : Multiset Nat).erase a = 0 := by
  rw [← Multiset.cons_coe, Multiset.erase_cons_head]
  rfl

theorem bookBreaks_muls (cfg : Cfg) (stream : Nat → Nat) (M : SState) :
    (cascBreaks cfg (cascBook cfg stream M)).1.muls = M.muls := by
  rw [cascBreaks_muls, cascBook_muls]

theorem bookBreaks_mm (cfg : Cfg) (stream : Nat → Nat) (M : SState) :
    (cascBreaks cfg (cascBook cfg stream M)).1.mm = M.mm := by
  rw [cascBreaks_mm, cascBook_mm]

theorem bookBreaks_achieved (cfg : Cfg) (stream : Nat → Nat) (M : SState) :
    (cascBreaks cfg (cascBook cfg stream M)).1.achieved = M.achieved := by
  rw [cascBreaks_achieved, cascBook_achieved]

theorem bookBreaks_flips (cfg : Cfg) (stream : Nat → Nat) (M : SState) :
    (cascBreaks cfg (cascBook cfg stream M)).1.flips = M.flips := by
  have h1 : (cascBreaks cfg (cascBook cfg stream M)).1.flips =
      (cascBook cfg stream M).flips := by
    unfold cascBreaks
    split_ifs <;> rfl
  rw [h1, cascBook_flips]

theorem bookBreaks_inv (cfg : Cfg) (stream : Nat → Nat) (n : Nat) (M : SState)
    (hEM : EngInv n M) (hmlen : M.muls.length = n) :
    EngInv n (cascBreaks cfg (cascBook cfg stream M)).1 := by
  have hEB : EngInv n (cascBook cfg stream M) := by
    refine EngInv_transport n M _ hEM (cascBook_muls _ _ _) (cascBook_mm _ _ _)
      (cascBook_achieved _ _ _) ?_
    rcases cascBook_best cfg stream M with hbb | hbb <;> rw [hbb]
    · exact hEM.hblen
    · exact hmlen
  refine EngInv_transport n (cascBook cfg stream M) _ hEB (cascBreaks_muls _ _)
    (cascBreaks_mm _ _) (cascBreaks_achieved _ _) ?_
  rw [cascBreaks_best]
  rcases cascBook_best cfg stream M with hbb | hbb <;> rw [hbb]
  · exact hEM.hblen
  · exact hmlen

theorem cascadeP3_out (cfg : Cfg) (stream : Nat → Nat) (s : SState) (p a b : Nat) :
    (cascadeP3 cfg stream s p a b).1.muls = (s.muls.set p 0).set (mfF p) 0 ∧
    (cascadeP3 cfg stream s p a b).1.mm =
      flipdel (flipdel (flipdel s.mm p (s.muls.getD p 0)) (meF p) a) (mfF p) b ∧
    (cascadeP3 cfg stream s p a b).1.achieved = s.achieved - 3 ∧
    ((cascadeP3 cfg stream s p a b).1.best = s.best ∨
     (cascadeP3 cfg stream s p a b).1.best = (s.muls.set p 0).set (mfF p) 0) := by
  rw [cascadeP3_decomp]
  refine ⟨?_, ?_, ?_, ?_⟩
  · rw [cascBreaks_muls, cascBook_muls]
  · rw [cascBreaks_mm, cascBook_mm]
  · rw [cascBreaks_achieved, cascBook_achieved]
  · rw [cascBreaks_best]
    rcases cascBook_best cfg stream
      { s with mm := flipdel (flipdel (flipdel s.mm p (s.muls.getD p 0)) (meF p) a) (mfF p) b,
               muls := (s.muls.set p 0).set (mfF p) 0,
               achieved := s.achieved - 3 } with hbb | hbb <;> rw [hbb]
    · exact Or.inl rfl
    · exact Or.inr rfl

theorem cascadeQ3_out (cfg : Cfg) (stream : Nat → Nat) (s : SState) (q a b : Nat) :
    (cascadeQ3 cfg stream s q a b).1.muls = (s.muls.set q 0).set (meF q) 0 ∧
    (cascadeQ3 cfg stream s q a b).1.mm =
      flipdel (flipdel (flipdel s.mm q (s.muls.getD q 0)) (meF q) a) (mfF q) b ∧
    (cascadeQ3 cfg stream s q a b).1.achieved = s.achieved - 3 ∧
    ((cascadeQ3 cfg stream s q a b).1.best = s.best ∨
     (cascadeQ3 cfg stream s q a b).1.best = (s.muls.set q 0).set (meF q) 0) := by
  rw [cascadeQ3_decomp]
  refine ⟨?_, ?_, ?_, ?_⟩
  · rw [cascBreaks_muls, cascBook_muls]
  · rw [cascBreaks_mm, cascBook_mm]
  · rw [cascBreaks_achieved, cascBook_achieved]
  · rw [cascBreaks_best]
    rcases cascBook_best cfg stream
      { s with mm := flipdel (flipdel (flipdel s.mm q (s.muls.getD q 0)) (meF q) a) (mfF q) b,
               muls := (s.muls.set q 0).set (meF q) 0,
               achieved := s.achieved - 3 } with hbb | hbb <;> rw [hbb]
    · exact Or.inl rfl
    · exact Or.inr rfl

theorem EngInv_build (n : Nat) (t : SState) (mu : List Nat) (mmv : MState) (ach : Int)
    (hm : t.muls = mu) (hmm : t.mm = mmv) (ha : t.achieved = ach)
    (hbl : t.best.length = n) (rel : MRel n mu mmv) (hz : mmv.slots 0 = [])
    (hlen : mu.length = n)
    (htri : ∀ tt, 3 * tt + 2 < n →
      (mu.getD (3 * tt) 0 ≠ 0 ∧ mu.getD (3 * tt + 1) 0 ≠ 0 ∧
       mu.getD (3 * tt + 2) 0 ≠ 0) ∨
      (mu.getD (3 * tt) 0 = 0 ∧ mu.getD (3 * tt + 1) 0 = 0 ∧
       mu.getD (3 * tt + 2) 0 = 0))
    (hach2 : ach = (mu.countP (fun m => m != 0) : Int)) : EngInv n t := by
  refine ⟨?_, ?_, ?_, hbl, ?_, ?_⟩
  · rw [hm, hmm]
    exact rel
  · rw [hmm]
    exact hz
  · rw [hm]
    exact hlen
  · rw [hm]
    exact htri
  · rw [hm, ha]
    exact hach2
set_option maxHeartbeats 4000000 in
theorem flipCasc3_inv (cfg : Cfg) (stream : Nat → Nat) (pfuel : Nat) (n : Nat)
    (s s1 : SState) (p q : Nat)
    (hsym : cfg.symm = 3) (hn : cfg.nomuls = n) (h3 : n % 3 = 0)
    (hinv : EngInv n s) (hp : p < n) (hq : q < n) (hdq : p / 3 ≠ q / 3)
    (hvp : s.muls.getD p 0 ≠ 0) (hvq : s.muls.getD q 0 ≠ 0)
    (hroom : s.achieved < (n : Int) ∨ s.flips < s.plusby)
    (hrun : flipCasc3 cfg stream pfuel (flipCommit3 s p q) p q
      ((s.muls.getD (meF q) 0) ^^^ (s.muls.getD (meF p) 0)) (s.muls.getD (mfF p) 0) (s.muls.getD (meF q) 0) ((s.muls.getD (mfF q) 0) ^^^ (s.muls.getD (mfF p) 0)) = (s1, IterRes.cont)) :
    EngInv n s1 := by
  have hlen := hinv.hlen
  have liveP := tripleLive n s.muls hinv.htri p hp h3 hvp
  have liveQ := tripleLive n s.muls hinv.htri q hq h3 hvq
  have hep : meF p < n := meF_lt p n hp h3
  have hfp : mfF p < n := mfF_lt p n hp h3
  have heq2 : meF q < n := meF_lt q n hq h3
  have hfq : mfF q < n := mfF_lt q n hq h3
  have cPQ : ∀ a b : Nat, a / 3 = p / 3 → b / 3 = q / 3 → a ≠ b :=
    fun a b ha hb he => hdq (by subst he; omega)
  have w1 : p ≠ meF p := (meF_ne p).symm
  have w2 : p ≠ mfF p := (mfF_ne p).symm
  have w3 : meF p ≠ mfF p := meF_ne_mfF p
  have w4 : q ≠ meF q := (meF_ne q).symm
  have w5 : q ≠ mfF q := (mfF_ne q).symm
  have w6 : meF q ≠ mfF q := meF_ne_mfF q
  have x1 : p ≠ q := cPQ _ _ rfl rfl
  have x2 : p ≠ meF q := cPQ _ _ rfl (meF_div q)
  have x3 : p ≠ mfF q := cPQ _ _ rfl (mfF_div q)
  have x4 : meF p ≠ q := cPQ _ _ (meF_div p) rfl
  have x5 : meF p ≠ meF q := cPQ _ _ (meF_div p) (meF_div q)
  have x6 : meF p ≠ mfF q := cPQ _ _ (meF_div p) (mfF_div q)
  have x7 : mfF p ≠ q := cPQ _ _ (mfF_div p) rfl
  have x8 : mfF p ≠ meF q := cPQ _ _ (mfF_div p) (meF_div q)
  have x9 : mfF p ≠ mfF q := cPQ _ _ (mfF_div p) (mfF_div q)
  have hvpe : s.muls.getD (meF p) 0 ≠ 0 := liveP _ (meF_div p)
  have hvpf : s.muls.getD (mfF p) 0 ≠ 0 := liveP _ (mfF_div p)
  have hvqe : s.muls.getD (meF q) 0 ≠ 0 := liveQ _ (meF_div q)
  have hvqf : s.muls.getD (mfF q) 0 ≠ 0 := liveQ _ (mfF_div q)
  have L1 : (s.muls.set (meF p) ((s.muls.getD (meF q) 0) ^^^ (s.muls.getD (meF p) 0))).length = n := by simp only [List.length_set]; exact hlen
  have L2 : ((s.muls.set (meF p) ((s.muls.getD (meF q) 0) ^^^ (s.muls.getD (meF p) 0))).set (mfF q) ((s.muls.getD (mfF q) 0) ^^^ (s.muls.getD (mfF p) 0))).length = n := by simp only [List.length_set]; exact hlen
  obtain ⟨R1, S1⟩ := replaceSlot n s.muls s.mm (meF p) ((s.muls.getD (meF q) 0) ^^^ (s.muls.getD (meF p) 0)) hinv.rel hep hlen hvpe
  have g1 : (s.muls.set (meF p) ((s.muls.getD (meF q) 0) ^^^ (s.muls.getD (meF p) 0))).getD (mfF q) 0 = s.muls.getD (mfF q) 0 := getD_set_ne _ _ _ _ x6
  obtain ⟨R2, S2⟩ := replaceSlot n (s.muls.set (meF p) ((s.muls.getD (meF q) 0) ^^^ (s.muls.getD (meF p) 0))) (flipadd (flipdel s.mm (meF p) (s.muls.getD (meF p) 0)) (meF p) ((s.muls.getD (meF q) 0) ^^^ (s.muls.getD (meF p) 0))) (mfF q) ((s.muls.getD (mfF q) 0) ^^^ (s.muls.getD (mfF p) 0)) R1 hfq L1 (by rw [g1]; exact hvqf)
  rw [g1] at R2 S2
  have hCMU : (flipCommit3 s p q).muls = ((s.muls.set (meF p) ((s.muls.getD (meF q) 0) ^^^ (s.muls.getD (meF p) 0))).set (mfF q) ((s.muls.getD (mfF q) 0) ^^^ (s.muls.getD (mfF p) 0))) := by simp only [flipCommit3]
  have hCMM : (flipCommit3 s p q).mm = (flipadd (flipdel (flipadd (flipdel s.mm (meF p) (s.muls.getD (meF p) 0)) (meF p) ((s.muls.getD (meF q) 0) ^^^ (s.muls.getD (meF p) 0))) (mfF q) (s.muls.getD (mfF q) 0)) (mfF q) ((s.muls.getD (mfF q) 0) ^^^ (s.muls.getD (mfF p) 0))) := by simp only [flipCommit3]
  have hCACH : (flipCommit3 s p q).achieved = s.achieved := by simp only [flipCommit3]
  have hCBEST : (flipCommit3 s p q).best = s.best := by simp only [flipCommit3]
  have hCFLIPS : (flipCommit3 s p q).flips = s.flips := by simp only [flipCommit3]
  have hCPB : (flipCommit3 s p q).plusby = s.plusby := by simp only [flipCommit3]
  have hch : ∀ j, ((s.muls.set (meF p) ((s.muls.getD (meF q) 0) ^^^ (s.muls.getD (meF p) 0))).set (mfF q) ((s.muls.getD (mfF q) 0) ^^^ (s.muls.getD (mfF p) 0))).getD j 0 =
      (if j = mfF q then ((s.muls.getD (mfF q) 0) ^^^ (s.muls.getD (mfF p) 0)) else if j = meF p then ((s.muls.getD (meF q) 0) ^^^ (s.muls.getD (meF p) 0)) else s.muls.getD j 0) := by
    intro j
    exact chain2_getD s.muls (meF p) (mfF q) ((s.muls.getD (meF q) 0) ^^^ (s.muls.getD (meF p) 0)) ((s.muls.getD (mfF q) 0) ^^^ (s.muls.getD (mfF p) 0)) j (by rw [hlen]; exact hep)
      (by rw [hlen]; exact hfq)
  have Cp : ((s.muls.set (meF p) ((s.muls.getD (meF q) 0) ^^^ (s.muls.getD (meF p) 0))).set (mfF q) ((s.muls.getD (mfF q) 0) ^^^ (s.muls.getD (mfF p) 0))).getD p 0 = s.muls.getD p 0 := by rw [hch p, if_neg x3, if_neg w1]
  have Cep : ((s.muls.set (meF p) ((s.muls.getD (meF q) 0) ^^^ (s.muls.getD (meF p) 0))).set (mfF q) ((s.muls.getD (mfF q) 0) ^^^ (s.muls.getD (mfF p) 0))).getD (meF p) 0 = ((s.muls.getD (meF q) 0) ^^^ (s.muls.getD (meF p) 0)) := by rw [hch (meF p), if_neg x6, if_pos rfl]
  have Cfp : ((s.muls.set (meF p) ((s.muls.getD (meF q) 0) ^^^ (s.muls.getD (meF p) 0))).set (mfF q) ((s.muls.getD (mfF q) 0) ^^^ (s.muls.getD (mfF p) 0))).getD (mfF p) 0 = s.muls.getD (mfF p) 0 := by
    rw [hch (mfF p), if_neg x9, if_neg (fun hh => w3 hh.symm)]
  have Cq : ((s.muls.set (meF p) ((s.muls.getD (meF q) 0) ^^^ (s.muls.getD (meF p) 0))).set (mfF q) ((s.muls.getD (mfF q) 0) ^^^ (s.muls.getD (mfF p) 0))).getD q 0 = s.muls.getD q 0 := by
    rw [hch q, if_neg w5, if_neg (fun hh => x4 hh.symm)]
  have Ceq : ((s.muls.set (meF p) ((s.muls.getD (meF q) 0) ^^^ (s.muls.getD (meF p) 0))).set (mfF q) ((s.muls.getD (mfF q) 0) ^^^ (s.muls.getD (mfF p) 0))).getD (meF q) 0 = s.muls.getD (meF q) 0 := by
    rw [hch (meF q), if_neg w6, if_neg (fun hh => x5 hh.symm)]
  have Cfq : ((s.muls.set (meF p) ((s.muls.getD (meF q) 0) ^^^ (s.muls.getD (meF p) 0))).set (mfF q) ((s.muls.getD (mfF q) 0) ^^^ (s.muls.getD (mfF p) 0))).getD (mfF q) 0 = ((s.muls.getD (mfF q) 0) ^^^ (s.muls.getD (mfF p) 0)) := by rw [hch (mfF q), if_pos rfl]
  have Cother : ∀ j, j / 3 ≠ p / 3 → j / 3 ≠ q / 3 →
      ((s.muls.set (meF p) ((s.muls.getD (meF q) 0) ^^^ (s.muls.getD (meF p) 0))).set (mfF q) ((s.muls.getD (mfF q) 0) ^^^ (s.muls.getD (mfF p) 0))).getD j 0 = s.muls.getD j 0 := by
    intro j hjp hjq
    rw [hch j, if_neg (fun hh => hjq (by rw [hh, mfF_div])),
      if_neg (fun hh => hjp (by rw [hh, meF_div]))]
  have c1 := countP_set_add s.muls (meF p) ((s.muls.getD (meF q) 0) ^^^ (s.muls.getD (meF p) 0)) (by rw [hlen]; exact hep)
  rw [if_pos hvpe] at c1
  have c2 := countP_set_add (s.muls.set (meF p) ((s.muls.getD (meF q) 0) ^^^ (s.muls.getD (meF p) 0))) (mfF q) ((s.muls.getD (mfF q) 0) ^^^ (s.muls.getD (mfF p) 0)) (by rw [L1]; exact hfq)
  rw [g1, if_pos hvqf] at c2
  unfold flipCasc3 at hrun
  by_cases hmp : ((s.muls.getD (meF q) 0) ^^^ (s.muls.getD (meF p) 0)) = 0
  all_goals by_cases hmq : ((s.muls.getD (mfF q) 0) ^^^ (s.muls.getD (mfF p) 0)) = 0
  · simp only [if_pos hmp] at hrun
    rw [hmp] at hrun
    have hm0 : (flipadd (flipdel (flipadd (flipdel s.mm (meF p) (s.muls.getD (meF p) 0)) (meF p) ((s.muls.getD (meF q) 0) ^^^ (s.muls.getD (meF p) 0))) (mfF q) (s.muls.getD (mfF q) 0)) (mfF q) ((s.muls.getD (mfF q) 0) ^^^ (s.muls.getD (mfF p) 0))).slots 0 = [meF p, mfF q] := by
      rw [S2, if_pos hmq, S1, if_pos hmp, hinv.hz, List.nil_append,
        List.singleton_append]
    obtain ⟨DR1, DS1⟩ := deleteSlot n ((s.muls.set (meF p) ((s.muls.getD (meF q) 0) ^^^ (s.muls.getD (meF p) 0))).set (mfF q) ((s.muls.getD (mfF q) 0) ^^^ (s.muls.getD (mfF p) 0))) (flipadd (flipdel (flipadd (flipdel s.mm (meF p) (s.muls.getD (meF p) 0)) (meF p) ((s.muls.getD (meF q) 0) ^^^ (s.muls.getD (meF p) 0))) (mfF q) (s.muls.getD (mfF q) 0)) (mfF q) ((s.muls.getD (mfF q) 0) ^^^ (s.muls.getD (mfF p) 0))) p R2 hp L2 (by rw [Cp]; exact hvp)
    obtain ⟨DR2, DS2⟩ := delZeroSlot n (((s.muls.set (meF p) ((s.muls.getD (meF q) 0) ^^^ (s.muls.getD (meF p) 0))).set (mfF q) ((s.muls.getD (mfF q) 0) ^^^ (s.muls.getD (mfF p) 0))).set p 0) (flipdel (flipadd (flipdel (flipadd (flipdel s.mm (meF p) (s.muls.getD (meF p) 0)) (meF p) ((s.muls.getD (meF q) 0) ^^^ (s.muls.getD (meF p) 0))) (mfF q) (s.muls.getD (mfF q) 0)) (mfF q) ((s.muls.getD (mfF q) 0) ^^^ (s.muls.getD (mfF p) 0))) p (((s.muls.set (meF p) ((s.muls.getD (meF q) 0) ^^^ (s.muls.getD (meF p) 0))).set (mfF q) ((s.muls.getD (mfF q) 0) ^^^ (s.muls.getD (mfF p) 0))).getD p 0)) (meF p) DR1
      (by rw [DS1, hm0]; exact List.mem_cons_self _ _)
    have ggP : (((s.muls.set (meF p) ((s.muls.getD (meF q) 0) ^^^ (s.muls.getD (meF p) 0))).set (mfF q) ((s.muls.getD (mfF q) 0) ^^^ (s.muls.getD (mfF p) 0))).set p 0).getD (mfF p) 0 = s.muls.getD (mfF p) 0 := by
      rw [getD_set_ne _ _ _ _ w2, Cfp]
    have LP3 : (((s.muls.set (meF p) ((s.muls.getD (meF q) 0) ^^^ (s.muls.getD (meF p) 0))).set (mfF q) ((s.muls.getD (mfF q) 0) ^^^ (s.muls.getD (mfF p) 0))).set p 0).length = n := by simp only [List.length_set]; exact hlen
    obtain ⟨DR3, DS3⟩ := deleteSlot n (((s.muls.set (meF p) ((s.muls.getD (meF q) 0) ^^^ (s.muls.getD (meF p) 0))).set (mfF q) ((s.muls.getD (mfF q) 0) ^^^ (s.muls.getD (mfF p) 0))).set p 0) (flipdel (flipdel (flipadd (flipdel (flipadd (flipdel s.mm (meF p) (s.muls.getD (meF p) 0)) (meF p) ((s.muls.getD (meF q) 0) ^^^ (s.muls.getD (meF p) 0))) (mfF q) (s.muls.getD (mfF q) 0)) (mfF q) ((s.muls.getD (mfF q) 0) ^^^ (s.muls.getD (mfF p) 0))) p (((s.muls.set (meF p) ((s.muls.getD (meF q) 0) ^^^ (s.muls.getD (meF p) 0))).set (mfF q) ((s.muls.getD (mfF q) 0) ^^^ (s.muls.getD (mfF p) 0))).getD p 0)) (meF p) 0) (mfF p) DR2 hfp LP3
      (by rw [ggP]; exact hvpf)
    rw [ggP] at DR3 DS3
    have hPz : (↑((flipdel (flipdel (flipdel (flipadd (flipdel (flipadd (flipdel s.mm (meF p) (s.muls.getD (meF p) 0)) (meF p) ((s.muls.getD (meF q) 0) ^^^ (s.muls.getD (meF p) 0))) (mfF q) (s.muls.getD (mfF q) 0)) (mfF q) ((s.muls.getD (mfF q) 0) ^^^ (s.muls.getD (mfF p) 0))) p (((s.muls.set (meF p) ((s.muls.getD (meF q) 0) ^^^ (s.muls.getD (meF p) 0))).set (mfF q) ((s.muls.getD (mfF q) 0) ^^^ (s.muls.getD (mfF p) 0))).getD p 0)) (meF p) 0) (mfF p) (s.muls.getD (mfF p) 0)).slots 0) : Multiset Nat) = (↑([mfF q] : List Nat) : Multiset Nat) := by
      rw [DS3, DS2, DS1, hm0]
      exact ms_pair_erase _ _
    have L4P : ((((s.muls.set (meF p) ((s.muls.getD (meF q) 0) ^^^ (s.muls.getD (meF p) 0))).set (mfF q) ((s.muls.getD (mfF q) 0) ^^^ (s.muls.getD (mfF p) 0))).set p 0).set (mfF p) 0).length = n := by simp only [List.length_set]; exact hlen
    obtain ⟨Omu, Omm, Oach, Obest⟩ := cascadeP3_out cfg stream (flipCommit3 s p q) p 0 (s.muls.getD (mfF p) 0)
    rw [hCMU] at Omu Obest
    rw [hCMM, hCMU] at Omm
    rw [hCACH] at Oach
    have hch4 : ∀ j, ((((s.muls.set (meF p) ((s.muls.getD (meF q) 0) ^^^ (s.muls.getD (meF p) 0))).set (mfF q) ((s.muls.getD (mfF q) 0) ^^^ (s.muls.getD (mfF p) 0))).set p 0).set (mfF p) 0).getD j 0 =
        (if j = mfF p then 0 else if j = p then 0 else if j = mfF q then ((s.muls.getD (mfF q) 0) ^^^ (s.muls.getD (mfF p) 0))
        else if j = meF p then ((s.muls.getD (meF q) 0) ^^^ (s.muls.getD (meF p) 0)) else s.muls.getD j 0) := by
      intro j
      exact chain4_getD s.muls (meF p) (mfF q) p (mfF p) ((s.muls.getD (meF q) 0) ^^^ (s.muls.getD (meF p) 0)) ((s.muls.getD (mfF q) 0) ^^^ (s.muls.getD (mfF p) 0)) 0 0 j
        (by rw [hlen]; exact hep) (by rw [hlen]; exact hfq) (by rw [hlen]; exact hp)
        (by rw [hlen]; exact hfp)
    have G4q : ((((s.muls.set (meF p) ((s.muls.getD (meF q) 0) ^^^ (s.muls.getD (meF p) 0))).set (mfF q) ((s.muls.getD (mfF q) 0) ^^^ (s.muls.getD (mfF p) 0))).set p 0).set (mfF p) 0).getD q 0 = s.muls.getD q 0 := by
      rw [hch4 q, if_neg (fun hh => x7 hh.symm), if_neg (fun hh => x1 hh.symm),
        if_neg w5, if_neg (fun hh => x4 hh.symm)]
    have G4eq : ((((s.muls.set (meF p) ((s.muls.getD (meF q) 0) ^^^ (s.muls.getD (meF p) 0))).set (mfF q) ((s.muls.getD (mfF q) 0) ^^^ (s.muls.getD (mfF p) 0))).set p 0).set (mfF p) 0).getD (meF q) 0 = s.muls.getD (meF q) 0 := by
      rw [hch4 (meF q), if_neg (fun hh => x8 hh.symm), if_neg (fun hh => x2 hh.symm),
        if_neg w6, if_neg (fun hh => x5 hh.symm)]
    obtain ⟨WR1, WS1⟩ := deleteSlot n ((((s.muls.set (meF p) ((s.muls.getD (meF q) 0) ^^^ (s.muls.getD (meF p) 0))).set (mfF q) ((s.muls.getD (mfF q) 0) ^^^ (s.muls.getD (mfF p) 0))).set p 0).set (mfF p) 0) (flipdel (flipdel (flipdel (flipadd (flipdel (flipadd (flipdel s.mm (meF p) (s.muls.getD (meF p) 0)) (meF p) ((s.muls.getD (meF q) 0) ^^^ (s.muls.getD (meF p) 0))) (mfF q) (s.muls.getD (mfF q) 0)) (mfF q) ((s.muls.getD (mfF q) 0) ^^^ (s.muls.getD (mfF p) 0))) p (((s.muls.set (meF p) ((s.muls.getD (meF q) 0) ^^^ (s.muls.getD (meF p) 0))).set (mfF q) ((s.muls.getD (mfF q) 0) ^^^ (s.muls.getD (mfF p) 0))).getD p 0)) (meF p) 0) (mfF p) (s.muls.getD (mfF p) 0)) q DR3 hq L4P (by rw [G4q]; exact hvq)
    have ggQ : (((((s.muls.set (meF p) ((s.muls.getD (meF q) 0) ^^^ (s.muls.getD (meF p) 0))).set (mfF q) ((s.muls.getD (mfF q) 0) ^^^ (s.muls.getD (mfF p) 0))).set p 0).set (mfF p) 0).set q 0).getD (meF q) 0 = s.muls.getD (meF q) 0 := by
      rw [getD_set_ne _ _ _ _ w4, G4eq]
    have LP5 : (((((s.muls.set (meF p) ((s.muls.getD (meF q) 0) ^^^ (s.muls.getD (meF p) 0))).set (mfF q) ((s.muls.getD (mfF q) 0) ^^^ (s.muls.getD (mfF p) 0))).set p 0).set (mfF p) 0).set q 0).length = n := by simp only [List.length_set]; exact hlen
    obtain ⟨WR2, WS2⟩ := deleteSlot n (((((s.muls.set (meF p) ((s.muls.getD (meF q) 0) ^^^ (s.muls.getD (meF p) 0))).set (mfF q) ((s.muls.getD (mfF q) 0) ^^^ (s.muls.getD (mfF p) 0))).set p 0).set (mfF p) 0).set q 0) (flipdel (flipdel (flipdel (flipdel (flipadd (flipdel (flipadd (flipdel s.mm (meF p) (s.muls.getD (meF p) 0)) (meF p) ((s.muls.getD (meF q) 0) ^^^ (s.muls.getD (meF p) 0))) (mfF q) (s.muls.getD (mfF q) 0)) (mfF q) ((s.muls.getD (mfF q) 0) ^^^ (s.muls.getD (mfF p) 0))) p (((s.muls.set (meF p) ((s.muls.getD (meF q) 0) ^^^ (s.muls.getD (meF p) 0))).set (mfF q) ((s.muls.getD (mfF q) 0) ^^^ (s.muls.getD (mfF p) 0))).getD p 0)) (meF p) 0) (mfF p) (s.muls.getD (mfF p) 0)) q (((((s.muls.set (meF p) ((s.muls.getD (meF q) 0) ^^^ (s.muls.getD (meF p) 0))).set (mfF q) ((s.muls.getD (mfF q) 0) ^^^ (s.muls.getD (mfF p) 0))).set p 0).set (mfF p) 0).getD q 0)) (meF q) WR1 heq2 LP5
      (by rw [ggQ]; exact hvqe)
    rw [ggQ] at WR2 WS2
    obtain ⟨WR3, WS3⟩ := delZeroSlot n ((((((s.muls.set (meF p) ((s.muls.getD (meF q) 0) ^^^ (s.muls.getD (meF p) 0))).set (mfF q) ((s.muls.getD (mfF q) 0) ^^^ (s.muls.getD (mfF p) 0))).set p 0).set (mfF p) 0).set q 0).set (meF q) 0) (flipdel (flipdel (flipdel (flipdel (flipdel (flipadd (flipdel (flipadd (flipdel s.mm (meF p) (s.muls.getD (meF p) 0)) (meF p) ((s.muls.getD (meF q) 0) ^^^ (s.muls.getD (meF p) 0))) (mfF q) (s.muls.getD (mfF q) 0)) (mfF q) ((s.muls.getD (mfF q) 0) ^^^ (s.muls.getD (mfF p) 0))) p (((s.muls.set (meF p) ((s.muls.getD (meF q) 0) ^^^ (s.muls.getD (meF p) 0))).set (mfF q) ((s.muls.getD (mfF q) 0) ^^^ (s.muls.getD (mfF p) 0))).getD p 0)) (meF p) 0) (mfF p) (s.muls.getD (mfF p) 0)) q (((((s.muls.set (meF p) ((s.muls.getD (meF q) 0) ^^^ (s.muls.getD (meF p) 0))).set (mfF q) ((s.muls.getD (mfF q) 0) ^^^ (s.muls.getD (mfF p) 0))).set p 0).set (mfF p) 0).getD q 0)) (meF q) (s.muls.getD (meF q) 0)) (mfF q) WR2
      (by rw [WS2, WS1]
          apply Multiset.mem_coe.mp
          rw [hPz]
          simp)
    have hzW : (flipdel (flipdel (flipdel (flipdel (flipdel (flipdel (flipadd (flipdel (flipadd (flipdel s.mm (meF p) (s.muls.getD (meF p) 0)) (meF p) ((s.muls.getD (meF q) 0) ^^^ (s.muls.getD (meF p) 0))) (mfF q) (s.muls.getD (mfF q) 0)) (mfF q) ((s.muls.getD (mfF q) 0) ^^^ (s.muls.getD (mfF p) 0))) p (((s.muls.set (meF p) ((s.muls.getD (meF q) 0) ^^^ (s.muls.getD (meF p) 0))).set (mfF q) ((s.muls.getD (mfF q) 0) ^^^ (s.muls.getD (mfF p) 0))).getD p 0)) (meF p) 0) (mfF p) (s.muls.getD (mfF p) 0)) q (((((s.muls.set (meF p) ((s.muls.getD (meF q) 0) ^^^ (s.muls.getD (meF p) 0))).set (mfF q) ((s.muls.getD (mfF q) 0) ^^^ (s.muls.getD (mfF p) 0))).set p 0).set (mfF p) 0).getD q 0)) (meF q) (s.muls.getD (meF q) 0)) (mfF q) 0).slots 0 = [] := by
      apply (Multiset.coe_eq_zero _).mp
      rw [WS3, WS2, WS1, hPz]
      exact ms_single_erase _
    have L6 : ((((((s.muls.set (meF p) ((s.muls.getD (meF q) 0) ^^^ (s.muls.getD (meF p) 0))).set (mfF q) ((s.muls.getD (mfF q) 0) ^^^ (s.muls.getD (mfF p) 0))).set p 0).set (mfF p) 0).set q 0).set (meF q) 0).length = n := by simp only [List.length_set]; exact hlen
    have hch6 : ∀ j, ((((((s.muls.set (meF p) ((s.muls.getD (meF q) 0) ^^^ (s.muls.getD (meF p) 0))).set (mfF q) ((s.muls.getD (mfF q) 0) ^^^ (s.muls.getD (mfF p) 0))).set p 0).set (mfF p) 0).set q 0).set (meF q) 0).getD j 0 =
        (if j = meF q then 0 else if j = q then 0 else if j = mfF p then 0
        else if j = p then 0 else if j = mfF q then ((s.muls.getD (mfF q) 0) ^^^ (s.muls.getD (mfF p) 0))
        else if j = meF p then ((s.muls.getD (meF q) 0) ^^^ (s.muls.getD (meF p) 0)) else s.muls.getD j 0) := by
      intro j
      exact chain6_getD s.muls (meF p) (mfF q) p (mfF p) q (meF q) ((s.muls.getD (meF q) 0) ^^^ (s.muls.getD (meF p) 0)) ((s.muls.getD (mfF q) 0) ^^^ (s.muls.getD (mfF p) 0)) 0 0 0 0 j
        (by rw [hlen]; exact hep) (by rw [hlen]; exact hfq) (by rw [hlen]; exact hp)
        (by rw [hlen]; exact hfp) (by rw [hlen]; exact hq) (by rw [hlen]; exact heq2)
    rw [if_neg (fun hcc => hcc hmp)] at c1
    rw [if_neg (fun hcc => hcc hmq)] at c2
    have c3 := countP_set_add ((s.muls.set (meF p) ((s.muls.getD (meF q) 0) ^^^ (s.muls.getD (meF p) 0))).set (mfF q) ((s.muls.getD (mfF q) 0) ^^^ (s.muls.getD (mfF p) 0))) p 0 (by rw [L2]; exact hp)
    rw [Cp, if_pos hvp, if_neg (fun hcc => hcc rfl)] at c3
    have c4 := countP_set_add (((s.muls.set (meF p) ((s.muls.getD (meF q) 0) ^^^ (s.muls.getD (meF p) 0))).set (mfF q) ((s.muls.getD (mfF q) 0) ^^^ (s.muls.getD (mfF p) 0))).set p 0) (mfF p) 0 (by rw [LP3]; exact hfp)
    rw [ggP, if_pos hvpf, if_neg (fun hcc => hcc rfl)] at c4
    have c5 := countP_set_add ((((s.muls.set (meF p) ((s.muls.getD (meF q) 0) ^^^ (s.muls.getD (meF p) 0))).set (mfF q) ((s.muls.getD (mfF q) 0) ^^^ (s.muls.getD (mfF p) 0))).set p 0).set (mfF p) 0) q 0 (by rw [L4P]; exact hq)
    rw [G4q, if_pos hvq, if_neg (fun hcc => hcc rfl)] at c5
    have c6 := countP_set_add (((((s.muls.set (meF p) ((s.muls.getD (meF q) 0) ^^^ (s.muls.getD (meF p) 0))).set (mfF q) ((s.muls.getD (mfF q) 0) ^^^ (s.muls.getD (mfF p) 0))).set p 0).set (mfF p) 0).set q 0) (meF q) 0 (by rw [LP5]; exact heq2)
    rw [ggQ, if_pos hvqe, if_neg (fun hcc => hcc rfl)] at c6
    cases hb : (cascadeP3 cfg stream (flipCommit3 s p q) p 0 (s.muls.getD (mfF p) 0)).2 with
    | true =>
      rw [hb, if_pos rfl] at hrun
      exact absurd (congrArg Prod.snd hrun) (by simp)
    | false =>
      rw [hb, if_neg Bool.false_ne_true] at hrun
      simp only [if_pos hmq] at hrun
      rw [hmq] at hrun
      obtain ⟨Wmu, Wmm, Wach, Wbest⟩ := cascadeQ3_out cfg stream (cascadeP3 cfg stream (flipCommit3 s p q) p 0 (s.muls.getD (mfF p) 0)).1 q (s.muls.getD (meF q) 0) 0
      rw [Omu] at Wmu Wbest
      rw [Omm, Omu] at Wmm
      rw [Oach] at Wach
      have Wblen : (cascadeQ3 cfg stream (cascadeP3 cfg stream (flipCommit3 s p q) p 0 (s.muls.getD (mfF p) 0)).1 q (s.muls.getD (meF q) 0) 0).1.best.length = n := by
        rcases Wbest with hbb | hbb
        · rw [hbb]
          rcases Obest with hcc | hcc
          · rw [hcc, hCBEST]
            exact hinv.hblen
          · rw [hcc]
            exact L4P
        · rw [hbb]
          exact L6
      cases hb2 : (cascadeQ3 cfg stream (cascadeP3 cfg stream (flipCommit3 s p q) p 0 (s.muls.getD (mfF p) 0)).1 q (s.muls.getD (meF q) 0) 0).2 with
      | true =>
        rw [hb2, if_pos rfl] at hrun
        exact absurd (congrArg Prod.snd hrun) (by simp)
      | false =>
        rw [hb2, if_neg Bool.false_ne_true] at hrun
        refine tail3_inv cfg stream pfuel n (cascadeQ3 cfg stream (cascadeP3 cfg stream (flipCommit3 s p q) p 0 (s.muls.getD (mfF p) 0)).1 q (s.muls.getD (meF q) 0) 0).1 s1 hsym hn h3 ?_ ?_ hrun
        · refine EngInv_build n (cascadeQ3 cfg stream (cascadeP3 cfg stream (flipCommit3 s p q) p 0 (s.muls.getD (mfF p) 0)).1 q (s.muls.getD (meF q) 0) 0).1 ((((((s.muls.set (meF p) ((s.muls.getD (meF q) 0) ^^^ (s.muls.getD (meF p) 0))).set (mfF q) ((s.muls.getD (mfF q) 0) ^^^ (s.muls.getD (mfF p) 0))).set p 0).set (mfF p) 0).set q 0).set (meF q) 0) (flipdel (flipdel (flipdel (flipdel (flipdel (flipdel (flipadd (flipdel (flipadd (flipdel s.mm (meF p) (s.muls.getD (meF p) 0)) (meF p) ((s.muls.getD (meF q) 0) ^^^ (s.muls.getD (meF p) 0))) (mfF q) (s.muls.getD (mfF q) 0)) (mfF q) ((s.muls.getD (mfF q) 0) ^^^ (s.muls.getD (mfF p) 0))) p (((s.muls.set (meF p) ((s.muls.getD (meF q) 0) ^^^ (s.muls.getD (meF p) 0))).set (mfF q) ((s.muls.getD (mfF q) 0) ^^^ (s.muls.getD (mfF p) 0))).getD p 0)) (meF p) 0) (mfF p) (s.muls.getD (mfF p) 0)) q (((((s.muls.set (meF p) ((s.muls.getD (meF q) 0) ^^^ (s.muls.getD (meF p) 0))).set (mfF q) ((s.muls.getD (mfF q) 0) ^^^ (s.muls.getD (mfF p) 0))).set p 0).set (mfF p) 0).getD q 0)) (meF q) (s.muls.getD (meF q) 0)) (mfF q) 0) (s.achieved - 3 - 3)
            Wmu Wmm Wach Wblen WR3 hzW L6 ?_ ?_
          intro t ht
          by_cases hcp : t = p / 3
          · have hall : ∀ j, j / 3 = t → ((((((s.muls.set (meF p) ((s.muls.getD (meF q) 0) ^^^ (s.muls.getD (meF p) 0))).set (mfF q) ((s.muls.getD (mfF q) 0) ^^^ (s.muls.getD (mfF p) 0))).set p 0).set (mfF p) 0).set q 0).set (meF q) 0).getD j 0 = 0 := by
              intro j hj
              have hjp : j / 3 = p / 3 := by omega
              rcases (triple_enum p j).mpr hjp with he | he | he
              · rw [he, hch6 p, if_neg (fun hh => x2 hh), if_neg (fun hh => x1 hh),
                  if_neg w2, if_pos rfl]
              · rw [he, hch6 (meF p), if_neg (fun hh => x5 hh), if_neg (fun hh => x4 hh),
                  if_neg w3, if_neg (fun hh => w1 hh.symm), if_neg (fun hh => x6 hh),
                  if_pos rfl]
                exact hmp
              · rw [he, hch6 (mfF p), if_neg (fun hh => x8 hh), if_neg (fun hh => x7 hh),
                  if_pos rfl]
            exact Or.inr ⟨hall _ (by omega), hall _ (by omega), hall _ (by omega)⟩
          · by_cases hcq : t = q / 3
            · have hall : ∀ j, j / 3 = t → ((((((s.muls.set (meF p) ((s.muls.getD (meF q) 0) ^^^ (s.muls.getD (meF p) 0))).set (mfF q) ((s.muls.getD (mfF q) 0) ^^^ (s.muls.getD (mfF p) 0))).set p 0).set (mfF p) 0).set q 0).set (meF q) 0).getD j 0 = 0 := by
                intro j hj
                have hjq : j / 3 = q / 3 := by omega
                rcases (triple_enum q j).mpr hjq with he | he | he
                · rw [he, hch6 q, if_neg (fun hh => w4 hh), if_pos rfl]
                · rw [he, hch6 (meF q), if_pos rfl]
                · rw [he, hch6 (mfF q), if_neg (fun hh => w6 hh.symm),
                    if_neg (fun hh => w5 hh.symm), if_neg (fun hh => x9 hh.symm),
                    if_neg (fun hh => x3 hh.symm), if_pos rfl]
                  exact hmq
              exact Or.inr ⟨hall _ (by omega), hall _ (by omega), hall _ (by omega)⟩
            · have hall : ∀ j, j / 3 = t → ((((((s.muls.set (meF p) ((s.muls.getD (meF q) 0) ^^^ (s.muls.getD (meF p) 0))).set (mfF q) ((s.muls.getD (mfF q) 0) ^^^ (s.muls.getD (mfF p) 0))).set p 0).set (mfF p) 0).set q 0).set (meF q) 0).getD j 0 = s.muls.getD j 0 := by
                intro j hj
                rw [hch6 j,
                  if_neg (fun hh => hcq (by rw [← hj, hh, meF_div])),
                  if_neg (fun hh => hcq (by rw [← hj, hh])),
                  if_neg (fun hh => hcp (by rw [← hj, hh, mfF_div])),
                  if_neg (fun hh => hcp (by rw [← hj, hh])),
                  if_neg (fun hh => hcq (by rw [← hj, hh, mfF_div])),
                  if_neg (fun hh => hcp (by rw [← hj, hh, meF_div]))]
              rcases hinv.htri t ht with ⟨a1, a2, a3⟩ | ⟨a1, a2, a3⟩
              · exact Or.inl ⟨by rw [hall _ (by omega)]; exact a1,
                  by rw [hall _ (by omega)]; exact a2, by rw [hall _ (by omega)]; exact a3⟩
              · exact Or.inr ⟨by rw [hall _ (by omega)]; exact a1,
                  by rw [hall _ (by omega)]; exact a2, by rw [hall _ (by omega)]; exact a3⟩
          · rw [hinv.hach]
            omega
        · left
          rw [Wach]
          have := achieved_le n s hinv
          omega
  · simp only [if_pos hmp] at hrun
    rw [hmp] at hrun
    have hm0 : (flipadd (flipdel (flipadd (flipdel s.mm (meF p) (s.muls.getD (meF p) 0)) (meF p) ((s.muls.getD (meF q) 0) ^^^ (s.muls.getD (meF p) 0))) (mfF q) (s.muls.getD (mfF q) 0)) (mfF q) ((s.muls.getD (mfF q) 0) ^^^ (s.muls.getD (mfF p) 0))).slots 0 = [meF p] := by
      rw [S2, if_neg hmq, S1, if_pos hmp, hinv.hz, List.nil_append]
    obtain ⟨DR1, DS1⟩ := deleteSlot n ((s.muls.set (meF p) ((s.muls.getD (meF q) 0) ^^^ (s.muls.getD (meF p) 0))).set (mfF q) ((s.muls.getD (mfF q) 0) ^^^ (s.muls.getD (mfF p) 0))) (flipadd (flipdel (flipadd (flipdel s.mm (meF p) (s.muls.getD (meF p) 0)) (meF p) ((s.muls.getD (meF q) 0) ^^^ (s.muls.getD (meF p) 0))) (mfF q) (s.muls.getD (mfF q) 0)) (mfF q) ((s.muls.getD (mfF q) 0) ^^^ (s.muls.getD (mfF p) 0))) p R2 hp L2 (by rw [Cp]; exact hvp)
    obtain ⟨DR2, DS2⟩ := delZeroSlot n (((s.muls.set (meF p) ((s.muls.getD (meF q) 0) ^^^ (s.muls.getD (meF p) 0))).set (mfF q) ((s.muls.getD (mfF q) 0) ^^^ (s.muls.getD (mfF p) 0))).set p 0) (flipdel (flipadd (flipdel (flipadd (flipdel s.mm (meF p) (s.muls.getD (meF p) 0)) (meF p) ((s.muls.getD (meF q) 0) ^^^ (s.muls.getD (meF p) 0))) (mfF q) (s.muls.getD (mfF q) 0)) (mfF q) ((s.muls.getD (mfF q) 0) ^^^ (s.muls.getD (mfF p) 0))) p (((s.muls.set (meF p) ((s.muls.getD (meF q) 0) ^^^ (s.muls.getD (meF p) 0))).set (mfF q) ((s.muls.getD (mfF q) 0) ^^^ (s.muls.getD (mfF p) 0))).getD p 0)) (meF p) DR1
      (by rw [DS1, hm0]; exact List.mem_singleton.mpr rfl)
    have ggP : (((s.muls.set (meF p) ((s.muls.getD (meF q) 0) ^^^ (s.muls.getD (meF p) 0))).set (mfF q) ((s.muls.getD (mfF q) 0) ^^^ (s.muls.getD (mfF p) 0))).set p 0).getD (mfF p) 0 = s.muls.getD (mfF p) 0 := by
      rw [getD_set_ne _ _ _ _ w2, Cfp]
    have LP3 : (((s.muls.set (meF p) ((s.muls.getD (meF q) 0) ^^^ (s.muls.getD (meF p) 0))).set (mfF q) ((s.muls.getD (mfF q) 0) ^^^ (s.muls.getD (mfF p) 0))).set p 0).length = n := by simp only [List.length_set]; exact hlen
    obtain ⟨DR3, DS3⟩ := deleteSlot n (((s.muls.set (meF p) ((s.muls.getD (meF q) 0) ^^^ (s.muls.getD (meF p) 0))).set (mfF q) ((s.muls.getD (mfF q) 0) ^^^ (s.muls.getD (mfF p) 0))).set p 0) (flipdel (flipdel (flipadd (flipdel (flipadd (flipdel s.mm (meF p) (s.muls.getD (meF p) 0)) (meF p) ((s.muls.getD (meF q) 0) ^^^ (s.muls.getD (meF p) 0))) (mfF q) (s.muls.getD (mfF q) 0)) (mfF q) ((s.muls.getD (mfF q) 0) ^^^ (s.muls.getD (mfF p) 0))) p (((s.muls.set (meF p) ((s.muls.getD (meF q) 0) ^^^ (s.muls.getD (meF p) 0))).set (mfF q) ((s.muls.getD (mfF q) 0) ^^^ (s.muls.getD (mfF p) 0))).getD p 0)) (meF p) 0) (mfF p) DR2 hfp LP3
      (by rw [ggP]; exact hvpf)
    rw [ggP] at DR3 DS3
    have hzP : (flipdel (flipdel (flipdel (flipadd (flipdel (flipadd (flipdel s.mm (meF p) (s.muls.getD (meF p) 0)) (meF p) ((s.muls.getD (meF q) 0) ^^^ (s.muls.getD (meF p) 0))) (mfF q) (s.muls.getD (mfF q) 0)) (mfF q) ((s.muls.getD (mfF q) 0) ^^^ (s.muls.getD (mfF p) 0))) p (((s.muls.set (meF p) ((s.muls.getD (meF q) 0) ^^^ (s.muls.getD (meF p) 0))).set (mfF q) ((s.muls.getD (mfF q) 0) ^^^ (s.muls.getD (mfF p) 0))).getD p 0)) (meF p) 0) (mfF p) (s.muls.getD (mfF p) 0)).slots 0 = [] := by
      apply (Multiset.coe_eq_zero _).mp
      rw [DS3, DS2, DS1, hm0]
      exact ms_single_erase _
    have L4P : ((((s.muls.set (meF p) ((s.muls.getD (meF q) 0) ^^^ (s.muls.getD (meF p) 0))).set (mfF q) ((s.muls.getD (mfF q) 0) ^^^ (s.muls.getD (mfF p) 0))).set p 0).set (mfF p) 0).length = n := by simp only [List.length_set]; exact hlen
    obtain ⟨Omu, Omm, Oach, Obest⟩ := cascadeP3_out cfg stream (flipCommit3 s p q) p 0 (s.muls.getD (mfF p) 0)
    rw [hCMU] at Omu Obest
    rw [hCMM, hCMU] at Omm
    rw [hCACH] at Oach
    have Oblen : (cascadeP3 cfg stream (flipCommit3 s p q) p 0 (s.muls.getD (mfF p) 0)).1.best.length = n := by
      rcases Obest with hbb | hbb
      · rw [hbb, hCBEST]
        exact hinv.hblen
      · rw [hbb]
        exact L4P
    have hch4 : ∀ j, ((((s.muls.set (meF p) ((s.muls.getD (meF q) 0) ^^^ (s.muls.getD (meF p) 0))).set (mfF q) ((s.muls.getD (mfF q) 0) ^^^ (s.muls.getD (mfF p) 0))).set p 0).set (mfF p) 0).getD j 0 =
        (if j = mfF p then 0 else if j = p then 0 else if j = mfF q then ((s.muls.getD (mfF q) 0) ^^^ (s.muls.getD (mfF p) 0))
        else if j = meF p then ((s.muls.getD (meF q) 0) ^^^ (s.muls.getD (meF p) 0)) else s.muls.getD j 0) := by
      intro j
      exact chain4_getD s.muls (meF p) (mfF q) p (mfF p) ((s.muls.getD (meF q) 0) ^^^ (s.muls.getD (meF p) 0)) ((s.muls.getD (mfF q) 0) ^^^ (s.muls.getD (mfF p) 0)) 0 0 j
        (by rw [hlen]; exact hep) (by rw [hlen]; exact hfq) (by rw [hlen]; exact hp)
        (by rw [hlen]; exact hfp)
    have G4q : ((((s.muls.set (meF p) ((s.muls.getD (meF q) 0) ^^^ (s.muls.getD (meF p) 0))).set (mfF q) ((s.muls.getD (mfF q) 0) ^^^ (s.muls.getD (mfF p) 0))).set p 0).set (mfF p) 0).getD q 0 = s.muls.getD q 0 := by
      rw [hch4 q, if_neg (fun hh => x7 hh.symm), if_neg (fun hh => x1 hh.symm),
        if_neg w5, if_neg (fun hh => x4 hh.symm)]
    have G4eq : ((((s.muls.set (meF p) ((s.muls.getD (meF q) 0) ^^^ (s.muls.getD (meF p) 0))).set (mfF q) ((s.muls.getD (mfF q) 0) ^^^ (s.muls.getD (mfF p) 0))).set p 0).set (mfF p) 0).getD (meF q) 0 = s.muls.getD (meF q) 0 := by
      rw [hch4 (meF q), if_neg (fun hh => x8 hh.symm), if_neg (fun hh => x2 hh.symm),
        if_neg w6, if_neg (fun hh => x5 hh.symm)]
    have G4fq : ((((s.muls.set (meF p) ((s.muls.getD (meF q) 0) ^^^ (s.muls.getD (meF p) 0))).set (mfF q) ((s.muls.getD (mfF q) 0) ^^^ (s.muls.getD (mfF p) 0))).set p 0).set (mfF p) 0).getD (mfF q) 0 = ((s.muls.getD (mfF q) 0) ^^^ (s.muls.getD (mfF p) 0)) := by
      rw [hch4 (mfF q), if_neg (fun hh => x9 hh.symm), if_neg (fun hh => x3 hh.symm),
        if_pos rfl]
    rw [if_neg (fun hcc => hcc hmp)] at c1
    rw [if_pos hmq] at c2
    have c3 := countP_set_add ((s.muls.set (meF p) ((s.muls.getD (meF q) 0) ^^^ (s.muls.getD (meF p) 0))).set (mfF q) ((s.muls.getD (mfF q) 0) ^^^ (s.muls.getD (mfF p) 0))) p 0 (by rw [L2]; exact hp)
    rw [Cp, if_pos hvp, if_neg (fun hcc => hcc rfl)] at c3
    have c4 := countP_set_add (((s.muls.set (meF p) ((s.muls.getD (meF q) 0) ^^^ (s.muls.getD (meF p) 0))).set (mfF q) ((s.muls.getD (mfF q) 0) ^^^ (s.muls.getD (mfF p) 0))).set p 0) (mfF p) 0 (by rw [LP3]; exact hfp)
    rw [ggP, if_pos hvpf, if_neg (fun hcc => hcc rfl)] at c4
    cases hb : (cascadeP3 cfg stream (flipCommit3 s p q) p 0 (s.muls.getD (mfF p) 0)).2 with
    | true =>
      rw [hb, if_pos rfl] at hrun
      exact absurd (congrArg Prod.snd hrun) (by simp)
    | false =>
      rw [hb, if_neg Bool.false_ne_true] at hrun
      simp only [if_neg hmq, Bool.false_eq_true, if_false] at hrun
      refine tail3_inv cfg stream pfuel n (cascadeP3 cfg stream (flipCommit3 s p q) p 0 (s.muls.getD (mfF p) 0)).1 s1 hsym hn h3 ?_ ?_ hrun
      · refine EngInv_build n (cascadeP3 cfg stream (flipCommit3 s p q) p 0 (s.muls.getD (mfF p) 0)).1 ((((s.muls.set (meF p) ((s.muls.getD (meF q) 0) ^^^ (s.muls.getD (meF p) 0))).set (mfF q) ((s.muls.getD (mfF q) 0) ^^^ (s.muls.getD (mfF p) 0))).set p 0).set (mfF p) 0) (flipdel (flipdel (flipdel (flipadd (flipdel (flipadd (flipdel s.mm (meF p) (s.muls.getD (meF p) 0)) (meF p) ((s.muls.getD (meF q) 0) ^^^ (s.muls.getD (meF p) 0))) (mfF q) (s.muls.getD (mfF q) 0)) (mfF q) ((s.muls.getD (mfF q) 0) ^^^ (s.muls.getD (mfF p) 0))) p (((s.muls.set (meF p) ((s.muls.getD (meF q) 0) ^^^ (s.muls.getD (meF p) 0))).set (mfF q) ((s.muls.getD (mfF q) 0) ^^^ (s.muls.getD (mfF p) 0))).getD p 0)) (meF p) 0) (mfF p) (s.muls.getD (mfF p) 0)) (s.achieved - 3)
          Omu Omm Oach Oblen DR3 hzP L4P ?_ ?_
        · intro t ht
          by_cases hcp : t = p / 3
          · have hall : ∀ j, j / 3 = t → ((((s.muls.set (meF p) ((s.muls.getD (meF q) 0) ^^^ (s.muls.getD (meF p) 0))).set (mfF q) ((s.muls.getD (mfF q) 0) ^^^ (s.muls.getD (mfF p) 0))).set p 0).set (mfF p) 0).getD j 0 = 0 := by
              intro j hj
              have hjp : j / 3 = p / 3 := by omega
              rcases (triple_enum p j).mpr hjp with he | he | he
              · rw [he, hch4 p, if_neg w2, if_pos rfl]
              · rw [he, hch4 (meF p), if_neg w3, if_neg (fun hh => w1 hh.symm),
                  if_neg (fun hh => x6 hh), if_pos rfl]
                exact hmp
              · rw [he, hch4 (mfF p), if_pos rfl]
            exact Or.inr ⟨hall _ (by omega), hall _ (by omega), hall _ (by omega)⟩
          · by_cases hcq : t = q / 3
            · have hall : ∀ j, j / 3 = t → ((((s.muls.set (meF p) ((s.muls.getD (meF q) 0) ^^^ (s.muls.getD (meF p) 0))).set (mfF q) ((s.muls.getD (mfF q) 0) ^^^ (s.muls.getD (mfF p) 0))).set p 0).set (mfF p) 0).getD j 0 ≠ 0 := by
                intro j hj
                have hjq : j / 3 = q / 3 := by omega
                rcases (triple_enum q j).mpr hjq with he | he | he
                · rw [he, G4q]; exact hvq
                · rw [he, G4eq]; exact hvqe
                · rw [he, G4fq]; exact hmq
              exact Or.inl ⟨hall _ (by omega), hall _ (by omega), hall _ (by omega)⟩
            · have hall : ∀ j, j / 3 = t → ((((s.muls.set (meF p) ((s.muls.getD (meF q) 0) ^^^ (s.muls.getD (meF p) 0))).set (mfF q) ((s.muls.getD (mfF q) 0) ^^^ (s.muls.getD (mfF p) 0))).set p 0).set (mfF p) 0).getD j 0 = s.muls.getD j 0 := by
                intro j hj
                rw [hch4 j,
                  if_neg (fun hh => hcp (by rw [← hj, hh, mfF_div])),
                  if_neg (fun hh => hcp (by rw [← hj, hh])),
                  if_neg (fun hh => hcq (by rw [← hj, hh, mfF_div])),
                  if_neg (fun hh => hcp (by rw [← hj, hh, meF_div]))]
              rcases hinv.htri t ht with ⟨a1, a2, a3⟩ | ⟨a1, a2, a3⟩
              · exact Or.inl ⟨by rw [hall _ (by omega)]; exact a1,
                  by rw [hall _ (by omega)]; exact a2, by rw [hall _ (by omega)]; exact a3⟩
              · exact Or.inr ⟨by rw [hall _ (by omega)]; exact a1,
                  by rw [hall _ (by omega)]; exact a2, by rw [hall _ (by omega)]; exact a3⟩
        · rw [hinv.hach]
          omega
      · left
        rw [Oach]
        have := achieved_le n s hinv
        omega
  · simp only [if_neg hmp, Bool.false_eq_true, if_false] at hrun
    simp only [if_pos hmq] at hrun
    rw [hmq] at hrun
    have hm0 : (flipadd (flipdel (flipadd (flipdel s.mm (meF p) (s.muls.getD (meF p) 0)) (meF p) ((s.muls.getD (meF q) 0) ^^^ (s.muls.getD (meF p) 0))) (mfF q) (s.muls.getD (mfF q) 0)) (mfF q) ((s.muls.getD (mfF q) 0) ^^^ (s.muls.getD (mfF p) 0))).slots 0 = [mfF q] := by
      rw [S2, if_pos hmq, S1, if_neg hmp, hinv.hz, List.nil_append]
    obtain ⟨DR1, DS1⟩ := deleteSlot n ((s.muls.set (meF p) ((s.muls.getD (meF q) 0) ^^^ (s.muls.getD (meF p) 0))).set (mfF q) ((s.muls.getD (mfF q) 0) ^^^ (s.muls.getD (mfF p) 0))) (flipadd (flipdel (flipadd (flipdel s.mm (meF p) (s.muls.getD (meF p) 0)) (meF p) ((s.muls.getD (meF q) 0) ^^^ (s.muls.getD (meF p) 0))) (mfF q) (s.muls.getD (mfF q) 0)) (mfF q) ((s.muls.getD (mfF q) 0) ^^^ (s.muls.getD (mfF p) 0))) q R2 hq L2 (by rw [Cq]; exact hvq)
    have ggQ : (((s.muls.set (meF p) ((s.muls.getD (meF q) 0) ^^^ (s.muls.getD (meF p) 0))).set (mfF q) ((s.muls.getD (mfF q) 0) ^^^ (s.muls.getD (mfF p) 0))).set q 0).getD (meF q) 0 = s.muls.getD (meF q) 0 := by
      rw [getD_set_ne _ _ _ _ w4, Ceq]
    have LQ3 : (((s.muls.set (meF p) ((s.muls.getD (meF q) 0) ^^^ (s.muls.getD (meF p) 0))).set (mfF q) ((s.muls.getD (mfF q) 0) ^^^ (s.muls.getD (mfF p) 0))).set q 0).length = n := by simp only [List.length_set]; exact hlen
    obtain ⟨DR2, DS2⟩ := deleteSlot n (((s.muls.set (meF p) ((s.muls.getD (meF q) 0) ^^^ (s.muls.getD (meF p) 0))).set (mfF q) ((s.muls.getD (mfF q) 0) ^^^ (s.muls.getD (mfF p) 0))).set q 0) (flipdel (flipadd (flipdel (flipadd (flipdel s.mm (meF p) (s.muls.getD (meF p) 0)) (meF p) ((s.muls.getD (meF q) 0) ^^^ (s.muls.getD (meF p) 0))) (mfF q) (s.muls.getD (mfF q) 0)) (mfF q) ((s.muls.getD (mfF q) 0) ^^^ (s.muls.getD (mfF p) 0))) q (((s.muls.set (meF p) ((s.muls.getD (meF q) 0) ^^^ (s.muls.getD (meF p) 0))).set (mfF q) ((s.muls.getD (mfF q) 0) ^^^ (s.muls.getD (mfF p) 0))).getD q 0)) (meF q) DR1 heq2 LQ3
      (by rw [ggQ]; exact hvqe)
    rw [ggQ] at DR2 DS2
    obtain ⟨DR3, DS3⟩ := delZeroSlot n ((((s.muls.set (meF p) ((s.muls.getD (meF q) 0) ^^^ (s.muls.getD (meF p) 0))).set (mfF q) ((s.muls.getD (mfF q) 0) ^^^ (s.muls.getD (mfF p) 0))).set q 0).set (meF q) 0) (flipdel (flipdel (flipadd (flipdel (flipadd (flipdel s.mm (meF p) (s.muls.getD (meF p) 0)) (meF p) ((s.muls.getD (meF q) 0) ^^^ (s.muls.getD (meF p) 0))) (mfF q) (s.muls.getD (mfF q) 0)) (mfF q) ((s.muls.getD (mfF q) 0) ^^^ (s.muls.getD (mfF p) 0))) q (((s.muls.set (meF p) ((s.muls.getD (meF q) 0) ^^^ (s.muls.getD (meF p) 0))).set (mfF q) ((s.muls.getD (mfF q) 0) ^^^ (s.muls.getD (mfF p) 0))).getD q 0)) (meF q) (s.muls.getD (meF q) 0)) (mfF q) DR2
      (by rw [DS2, DS1, hm0]; exact List.mem_singleton.mpr rfl)
    have hzQ : (flipdel (flipdel (flipdel (flipadd (flipdel (flipadd (flipdel s.mm (meF p) (s.muls.getD (meF p) 0)) (meF p) ((s.muls.getD (meF q) 0) ^^^ (s.muls.getD (meF p) 0))) (mfF q) (s.muls.getD (mfF q) 0)) (mfF q) ((s.muls.getD (mfF q) 0) ^^^ (s.muls.getD (mfF p) 0))) q (((s.muls.set (meF p) ((s.muls.getD (meF q) 0) ^^^ (s.muls.getD (meF p) 0))).set (mfF q) ((s.muls.getD (mfF q) 0) ^^^ (s.muls.getD (mfF p) 0))).getD q 0)) (meF q) (s.muls.getD (meF q) 0)) (mfF q) 0).slots 0 = [] := by
      apply (Multiset.coe_eq_zero _).mp
      rw [DS3, DS2, DS1, hm0]
      exact ms_single_erase _
    have L4Q : ((((s.muls.set (meF p) ((s.muls.getD (meF q) 0) ^^^ (s.muls.getD (meF p) 0))).set (mfF q) ((s.muls.getD (mfF q) 0) ^^^ (s.muls.getD (mfF p) 0))).set q 0).set (meF q) 0).length = n := by simp only [List.length_set]; exact hlen
    obtain ⟨Omu, Omm, Oach, Obest⟩ := cascadeQ3_out cfg stream (flipCommit3 s p q) q (s.muls.getD (meF q) 0) 0
    rw [hCMU] at Omu Obest
    rw [hCMM, hCMU] at Omm
    rw [hCACH] at Oach
    have Oblen : (cascadeQ3 cfg stream (flipCommit3 s p q) q (s.muls.getD (meF q) 0) 0).1.best.length = n := by
      rcases Obest with hbb | hbb
      · rw [hbb, hCBEST]
        exact hinv.hblen
      · rw [hbb]
        exact L4Q
    have hch4 : ∀ j, ((((s.muls.set (meF p) ((s.muls.getD (meF q) 0) ^^^ (s.muls.getD (meF p) 0))).set (mfF q) ((s.muls.getD (mfF q) 0) ^^^ (s.muls.getD (mfF p) 0))).set q 0).set (meF q) 0).getD j 0 =
        (if j = meF q then 0 else if j = q then 0 else if j = mfF q then ((s.muls.getD (mfF q) 0) ^^^ (s.muls.getD (mfF p) 0))
        else if j = meF p then ((s.muls.getD (meF q) 0) ^^^ (s.muls.getD (meF p) 0)) else s.muls.getD j 0) := by
      intro j
      exact chain4_getD s.muls (meF p) (mfF q) q (meF q) ((s.muls.getD (meF q) 0) ^^^ (s.muls.getD (meF p) 0)) ((s.muls.getD (mfF q) 0) ^^^ (s.muls.getD (mfF p) 0)) 0 0 j
        (by rw [hlen]; exact hep) (by rw [hlen]; exact hfq) (by rw [hlen]; exact hq)
        (by rw [hlen]; exact heq2)
    have H4p : ((((s.muls.set (meF p) ((s.muls.getD (meF q) 0) ^^^ (s.muls.getD (meF p) 0))).set (mfF q) ((s.muls.getD (mfF q) 0) ^^^ (s.muls.getD (mfF p) 0))).set q 0).set (meF q) 0).getD p 0 = s.muls.getD p 0 := by
      rw [hch4 p, if_neg (fun hh => x2 hh), if_neg (fun hh => x1 hh),
        if_neg (fun hh => x3 hh), if_neg w1]
    have H4ep : ((((s.muls.set (meF p) ((s.muls.getD (meF q) 0) ^^^ (s.muls.getD (meF p) 0))).set (mfF q) ((s.muls.getD (mfF q) 0) ^^^ (s.muls.getD (mfF p) 0))).set q 0).set (meF q) 0).getD (meF p) 0 = ((s.muls.getD (meF q) 0) ^^^ (s.muls.getD (meF p) 0)) := by
      rw [hch4 (meF p), if_neg (fun hh => x5 hh), if_neg (fun hh => x4 hh),
        if_neg (fun hh => x6 hh), if_pos rfl]
    have H4fp : ((((s.muls.set (meF p) ((s.muls.getD (meF q) 0) ^^^ (s.muls.getD (meF p) 0))).set (mfF q) ((s.muls.getD (mfF q) 0) ^^^ (s.muls.getD (mfF p) 0))).set q 0).set (meF q) 0).getD (mfF p) 0 = s.muls.getD (mfF p) 0 := by
      rw [hch4 (mfF p), if_neg (fun hh => x8 hh), if_neg (fun hh => x7 hh),
        if_neg (fun hh => x9 hh), if_neg (fun hh => w3 hh.symm)]
    rw [if_pos hmp] at c1
    rw [if_neg (fun hcc => hcc hmq)] at c2
    have c3 := countP_set_add ((s.muls.set (meF p) ((s.muls.getD (meF q) 0) ^^^ (s.muls.getD (meF p) 0))).set (mfF q) ((s.muls.getD (mfF q) 0) ^^^ (s.muls.getD (mfF p) 0))) q 0 (by rw [L2]; exact hq)
    rw [Cq, if_pos hvq, if_neg (fun hcc => hcc rfl)] at c3
    have c4 := countP_set_add (((s.muls.set (meF p) ((s.muls.getD (meF q) 0) ^^^ (s.muls.getD (meF p) 0))).set (mfF q) ((s.muls.getD (mfF q) 0) ^^^ (s.muls.getD (mfF p) 0))).set q 0) (meF q) 0 (by rw [LQ3]; exact heq2)
    rw [ggQ, if_pos hvqe, if_neg (fun hcc => hcc rfl)] at c4
    cases hb : (cascadeQ3 cfg stream (flipCommit3 s p q) q (s.muls.getD (meF q) 0) 0).2 with
    | true =>
      rw [hb, if_pos rfl] at hrun
      exact absurd (congrArg Prod.snd hrun) (by simp)
    | false =>
      rw [hb, if_neg Bool.false_ne_true] at hrun
      refine tail3_inv cfg stream pfuel n (cascadeQ3 cfg stream (flipCommit3 s p q) q (s.muls.getD (meF q) 0) 0).1 s1 hsym hn h3 ?_ ?_ hrun
      · refine EngInv_build n (cascadeQ3 cfg stream (flipCommit3 s p q) q (s.muls.getD (meF q) 0) 0).1 ((((s.muls.set (meF p) ((s.muls.getD (meF q) 0) ^^^ (s.muls.getD (meF p) 0))).set (mfF q) ((s.muls.getD (mfF q) 0) ^^^ (s.muls.getD (mfF p) 0))).set q 0).set (meF q) 0) (flipdel (flipdel (flipdel (flipadd (flipdel (flipadd (flipdel s.mm (meF p) (s.muls.getD (meF p) 0)) (meF p) ((s.muls.getD (meF q) 0) ^^^ (s.muls.getD (meF p) 0))) (mfF q) (s.muls.getD (mfF q) 0)) (mfF q) ((s.muls.getD (mfF q) 0) ^^^ (s.muls.getD (mfF p) 0))) q (((s.muls.set (meF p) ((s.muls.getD (meF q) 0) ^^^ (s.muls.getD (meF p) 0))).set (mfF q) ((s.muls.getD (mfF q) 0) ^^^ (s.muls.getD (mfF p) 0))).getD q 0)) (meF q) (s.muls.getD (meF q) 0)) (mfF q) 0) (s.achieved - 3)
          Omu Omm Oach Oblen DR3 hzQ L4Q ?_ ?_
        · intro t ht
          by_cases hcp : t = p / 3
          · have hall : ∀ j, j / 3 = t → ((((s.muls.set (meF p) ((s.muls.getD (meF q) 0) ^^^ (s.muls.getD (meF p) 0))).set (mfF q) ((s.muls.getD (mfF q) 0) ^^^ (s.muls.getD (mfF p) 0))).set q 0).set (meF q) 0).getD j 0 ≠ 0 := by
              intro j hj
              have hjp : j / 3 = p / 3 := by omega
              rcases (triple_enum p j).mpr hjp with he | he | he
              · rw [he, H4p]; exact hvp
              · rw [he, H4ep]; exact hmp
              · rw [he, H4fp]; exact hvpf
            exact Or.inl ⟨hall _ (by omega), hall _ (by omega), hall _ (by omega)⟩
          · by_cases hcq : t = q / 3
            · have hall : ∀ j, j / 3 = t → ((((s.muls.set (meF p) ((s.muls.getD (meF q) 0) ^^^ (s.muls.getD (meF p) 0))).set (mfF q) ((s.muls.getD (mfF q) 0) ^^^ (s.muls.getD (mfF p) 0))).set q 0).set (meF q) 0).getD j 0 = 0 := by
                intro j hj
                have hjq : j / 3 = q / 3 := by omega
                rcases (triple_enum q j).mpr hjq with he | he | he
                · rw [he, hch4 q, if_neg w4, if_pos rfl]
                · rw [he, hch4 (meF q), if_pos rfl]
                · rw [he, hch4 (mfF q), if_neg (fun hh => w6 hh.symm),
                    if_neg (fun hh => w5 hh.symm), if_pos rfl]
                  exact hmq
              exact Or.inr ⟨hall _ (by omega), hall _ (by omega), hall _ (by omega)⟩
            · have hall : ∀ j, j / 3 = t → ((((s.muls.set (meF p) ((s.muls.getD (meF q) 0) ^^^ (s.muls.getD (meF p) 0))).set (mfF q) ((s.muls.getD (mfF q) 0) ^^^ (s.muls.getD (mfF p) 0))).set q 0).set (meF q) 0).getD j 0 = s.muls.getD j 0 := by
                intro j hj
                rw [hch4 j,
                  if_neg (fun hh => hcq (by rw [← hj, hh, meF_div])),
                  if_neg (fun hh => hcq (by rw [← hj, hh])),
                  if_neg (fun hh => hcq (by rw [← hj, hh, mfF_div])),
                  if_neg (fun hh => hcp (by rw [← hj, hh, meF_div]))]
              rcases hinv.htri t ht with ⟨a1, a2, a3⟩ | ⟨a1, a2, a3⟩
              · exact Or.inl ⟨by rw [hall _ (by omega)]; exact a1,
                  by rw [hall _ (by omega)]; exact a2, by rw [hall _ (by omega)]; exact a3⟩
              · exact Or.inr ⟨by rw [hall _ (by omega)]; exact a1,
                  by rw [hall _ (by omega)]; exact a2, by rw [hall _ (by omega)]; exact a3⟩
        · rw [hinv.hach]
          omega
      · left
        rw [Oach]
        have := achieved_le n s hinv
        omega
  · simp only [if_neg hmp, if_neg hmq, Bool.false_eq_true, if_false] at hrun
    rw [if_pos hmp] at c1
    rw [if_pos hmq] at c2
    refine tail3_inv cfg stream pfuel n (flipCommit3 s p q) s1 hsym hn h3 ?_ ?_ hrun
    · refine EngInv_build n (flipCommit3 s p q) ((s.muls.set (meF p) ((s.muls.getD (meF q) 0) ^^^ (s.muls.getD (meF p) 0))).set (mfF q) ((s.muls.getD (mfF q) 0) ^^^ (s.muls.getD (mfF p) 0))) (flipadd (flipdel (flipadd (flipdel s.mm (meF p) (s.muls.getD (meF p) 0)) (meF p) ((s.muls.getD (meF q) 0) ^^^ (s.muls.getD (meF p) 0))) (mfF q) (s.muls.getD (mfF q) 0)) (mfF q) ((s.muls.getD (mfF q) 0) ^^^ (s.muls.getD (mfF p) 0))) s.achieved
        hCMU hCMM hCACH (by rw [hCBEST]; exact hinv.hblen) R2 ?_ L2 ?_ ?_
      · rw [S2, if_neg hmq, S1, if_neg hmp]
        exact hinv.hz
      · intro t ht
        by_cases hcp : t = p / 3
        · have hall : ∀ j, j / 3 = t → ((s.muls.set (meF p) ((s.muls.getD (meF q) 0) ^^^ (s.muls.getD (meF p) 0))).set (mfF q) ((s.muls.getD (mfF q) 0) ^^^ (s.muls.getD (mfF p) 0))).getD j 0 ≠ 0 := by
            intro j hj
            have hjp : j / 3 = p / 3 := by omega
            rcases (triple_enum p j).mpr hjp with he | he | he
            · rw [he, Cp]; exact hvp
            · rw [he, Cep]; exact hmp
            · rw [he, Cfp]; exact hvpf
          exact Or.inl ⟨hall _ (by omega), hall _ (by omega), hall _ (by omega)⟩
        · by_cases hcq : t = q / 3
          · have hall : ∀ j, j / 3 = t → ((s.muls.set (meF p) ((s.muls.getD (meF q) 0) ^^^ (s.muls.getD (meF p) 0))).set (mfF q) ((s.muls.getD (mfF q) 0) ^^^ (s.muls.getD (mfF p) 0))).getD j 0 ≠ 0 := by
              intro j hj
              have hjq : j / 3 = q / 3 := by omega
              rcases (triple_enum q j).mpr hjq with he | he | he
              · rw [he, Cq]; exact hvq
              · rw [he, Ceq]; exact hvqe
              · rw [he, Cfq]; exact hmq
            exact Or.inl ⟨hall _ (by omega), hall _ (by omega), hall _ (by omega)⟩
          · have hall : ∀ j, j / 3 = t → ((s.muls.set (meF p) ((s.muls.getD (meF q) 0) ^^^ (s.muls.getD (meF p) 0))).set (mfF q) ((s.muls.getD (mfF q) 0) ^^^ (s.muls.getD (mfF p) 0))).getD j 0 = s.muls.getD j 0 := by
              intro j hj
              exact Cother j (by omega) (by omega)
            rcases hinv.htri t ht with ⟨a1, a2, a3⟩ | ⟨a1, a2, a3⟩
            · exact Or.inl ⟨by rw [hall _ (by omega)]; exact a1,
                by rw [hall _ (by omega)]; exact a2, by rw [hall _ (by omega)]; exact a3⟩
            · exact Or.inr ⟨by rw [hall _ (by omega)]; exact a1,
                by rw [hall _ (by omega)]; exact a2, by rw [hall _ (by omega)]; exact a3⟩
      · rw [hinv.hach]
        omega
    · rcases hroom with hh | hh
      · left
        rw [hCACH]
        exact hh
      · right
        rw [hCFLIPS, hCPB]
        exact hh

theorem slots_mem_facts (n : Nat) (muls : List Nat) (mm : MState) (hrel : MRel n muls mm)
    (hz : mm.slots 0 = []) (v p : Nat) (hp : p ∈ mm.slots v) :
    p < n ∧ muls.getD p 0 = v ∧ v ≠ 0 := by
  have hvne : v ≠ 0 := by
    intro h0
    rw [h0, hz] at hp
    exact absurd hp (List.not_mem_nil p)
  have hms := hrel.hs v hvne
  have hmem : p ∈ msSlots n muls v := by
    rw [← hms]
    exact Multiset.mem_coe.mpr hp
  unfold msSlots at hmem
  rw [Multiset.mem_filter, Multiset.mem_range] at hmem
  exact ⟨hmem.1, hmem.2, hvne⟩

set_option maxHeartbeats 1000000 in
theorem iter3Inv (cfg : Cfg) (stream : Nat → Nat) (sfuel pfuel : Nat) (n : Nat)
    (s0 s1 : SState) (hsym : cfg.symm = 3) (hn : cfg.nomuls = n) (h3 : n % 3 = 0)
    (hinv : EngInv n s0)
    (hroom : s0.achieved < (n : Int) ∨ (s0.flips + 3) % U64 < s0.plusby)
    (hrun : runIter3 cfg stream sfuel pfuel s0 = (s1, IterRes.cont)) :
    EngInv n s1 := by
  unfold runIter3 at hrun
  simp only at hrun
  rcases hs : (if cfg.maxsize = 0 then
      sample0 cfg.symm s0.mm stream sfuel s0.rix
    else if 0 < cfg.maxsize then
      samplePos cfg.symm cfg.maxsize s0.muls s0.mm stream 1000 s0.rix
    else sampleNeg cfg.symm cfg.maxsize s0.muls s0.mm stream 1000 s0.rix) with
    ⟨p, q, rix⟩ | _ | _ | _
  · rw [hs] at hrun
    simp only at hrun
    obtain ⟨v, hvC, hpv, hqv, hperm⟩ := sampler_ok cfg.symm cfg.maxsize s0.muls s0.mm
      stream sfuel s0.rix p q rix hs
    obtain ⟨hpn, hpval, hvne⟩ := slots_mem_facts n s0.muls s0.mm hinv.rel hinv.hz v p hpv
    obtain ⟨hqn, hqval, _⟩ := slots_mem_facts n s0.muls s0.mm hinv.rel hinv.hz v q hqv
    have hdq : p / 3 ≠ q / 3 := by
      have hh := permitF_div cfg.symm p q hperm
      rw [hsym] at hh
      exact hh
    have hvp : s0.muls.getD p 0 ≠ 0 := by rw [hpval]; exact hvne
    have hvq : s0.muls.getD q 0 ≠ 0 := by rw [hqval]; exact hvne
    refine flipCasc3_inv cfg stream pfuel n
      { s0 with flips := (s0.flips + 3) % U64, rix := rix,
                trace := s0.trace ++ [TraceEv.flip p q] } s1 p q hsym hn h3 ?_ hpn hqn
      hdq hvp hvq ?_ hrun
    · exact EngInv_transport n s0 _ hinv rfl rfl rfl hinv.hblen
    · rcases hroom with hh | hh
      · exact Or.inl hh
      · exact Or.inr hh
  · rw [hs] at hrun
    simp only at hrun
    exact absurd (congrArg Prod.snd hrun) (by simp)
  · rw [hs] at hrun
    simp only at hrun
    exact absurd (congrArg Prod.snd hrun) (by simp)
  · rw [hs] at hrun
    simp only at hrun
    exact absurd (congrArg Prod.snd hrun) (by simp)
